import Mathlib

/-!
# Gaggia-PI: the supervisory controller and its collaborators

A shallow embedding of `src/src/gaggia.cpp`, `src/src/timing.cpp`,
`src/src/regulator.cpp`, `src/trunk/src/pump.cpp` and
`src/trunk/src/settings.cpp`.

Modelling conventions

* C++ `double` values (seconds, millilitres, degrees, gains) are exact rationals.
* `getClock()` is an input.  A command that reads the clock once takes the reading as
  an argument; a worker tick and the constructor take `clock : ℕ → ℚ`, where `clock k`
  is the value returned at the `k`-th call site of `getClock()` in program order.
* Every public method of `Gaggia` and every iteration of `Gaggia::_worker` is one atomic
  step (the interleaving of threads inside a step is not modelled).
* The CSV logs (`_systemStateLog`, `_shotStateLog`) are outputs that no control decision
  reads; they are left out together with the `_logging` flag.
-/

namespace GaggiaPi

/-! ## timing.cpp -/

/-- Class `Timer` (timing.h). -/
structure Timer where
  _startTime : ℚ
  _stopTime : ℚ
  _running : Bool
  deriving DecidableEq, Repr

namespace Timer

/-- `Timer::reset()`; `clock` is the value of `getClock()`. -/
def reset (_t : Timer) (clock : ℚ) : Timer :=
  { _startTime := clock, _stopTime := clock, _running := false }

/-- `Timer::Timer()`: zero-initialised members, then `reset()`. -/
def new (clock : ℚ) : Timer :=
  reset { _startTime := 0, _stopTime := 0, _running := false } clock

/-- `Timer::start()`. -/
def start (t : Timer) (clock : ℚ) : Timer :=
  { t with _startTime := clock, _running := true }

/-- `Timer::stop()`: the timer left behind (the returned duration is `_stopTime - _startTime`). -/
def stop (t : Timer) (clock : ℚ) : Timer :=
  { t with _stopTime := clock, _running := false }

/-- `Timer::getElapsed()`. -/
def getElapsed (t : Timer) (clock : ℚ) : ℚ :=
  if t._running then clock - t._startTime else t._stopTime - t._startTime

/-- `Timer::isRunning()`. -/
def isRunning (t : Timer) : Bool := t._running

end Timer

/-! ## pump.cpp -/

/-- Class `Pump`: the members the controller observes (the GPIO pin itself is hardware). -/
structure Pump where
  _opened : Bool
  _power : Bool
  deriving DecidableEq, Repr

namespace Pump

/-- `Pump::Pump()` with `_open()`: `pinOk` tells whether the GPIO pin became ready and could
be configured as an output. -/
def new (pinOk : Bool) : Pump :=
  { _opened := pinOk, _power := false }

/-- `Pump::ready()`. -/
def ready (p : Pump) : Bool := p._opened

/-- `Pump::setPower(power)`. -/
def setPower (p : Pump) (power : Bool) : Pump :=
  if !p._opened then p else { p with _power := power }

/-- `Pump::getPower()`. -/
def getPower (p : Pump) : Bool :=
  if !p._opened then false else p._power

end Pump

/-! ## settings.cpp -/

/-- Class `Settings`. -/
structure Settings where
  _iDefaultGain : ℚ
  _pDefaultGain : ℚ
  _dDefaultGain : ℚ
  _iSteamGain : ℚ
  _pSteamGain : ℚ
  _dSteamGain : ℚ
  _defaultTargetTemperature : ℚ
  _steamTargetTemperature : ℚ
  _preHeatingTargetTemperature : ℚ
  _preHeatingTime : ℚ
  _flowOffset30 : ℚ
  _flowOffset60 : ℚ
  _opened : Bool
  deriving DecidableEq, Repr

namespace Settings

/-- `Settings::_loadDefaults()` followed by the end of `Settings::_open()`, which sets
`_opened`: the settings object of a system without a configuration file. -/
def loadDefaults : Settings :=
  { _iDefaultGain := 5 / 100
    _pDefaultGain := 7 / 100
    _dDefaultGain := 90 / 100
    _iSteamGain := 5 / 100
    _pSteamGain := 7 / 100
    _dSteamGain := 90 / 100
    _defaultTargetTemperature := 93
    _steamTargetTemperature := 125
    _preHeatingTargetTemperature := 100
    _preHeatingTime := 600
    _flowOffset30 := 15 / 2
    _flowOffset60 := 15
    _opened := true }

/-- `Settings::ready()`. -/
def ready (s : Settings) : Bool := s._opened

/-- `Settings::getFlowOffset30()`. -/
def getFlowOffset30 (s : Settings) : ℚ :=
  if !s._opened then 0 else s._flowOffset30

/-- `Settings::getFlowOffset60()`. -/
def getFlowOffset60 (s : Settings) : ℚ :=
  if !s._opened then 0 else s._flowOffset60

/-- The four reference parameters of `Settings::getRegulatorSettings`. -/
structure RegulatorSettings where
  iGain : ℚ
  pGain : ℚ
  dGain : ℚ
  targetTemperature : ℚ
  deriving DecidableEq, Repr

/-- `Settings::getRegulatorSettings(steam, iGain, pGain, dGain, targetTemperature)`: `out`
holds the caller's variables on entry, the result holds them on return. -/
def getRegulatorSettings (s : Settings) (steam : Bool) (out : RegulatorSettings) :
    RegulatorSettings :=
  if !s._opened then out
  else if steam then
    { iGain := s._iSteamGain, pGain := s._pSteamGain, dGain := s._dSteamGain,
      targetTemperature := s._steamTargetTemperature }
  else
    { iGain := s._iDefaultGain, pGain := s._pDefaultGain, dGain := s._dDefaultGain,
      targetTemperature := s._defaultTargetTemperature }

/-- `Settings::getPreHeatingSettings(time, temperature)`: the pair `(time, temperature)` on
return, given the caller's variables on entry. -/
def getPreHeatingSettings (s : Settings) (out : ℚ × ℚ) : ℚ × ℚ :=
  if !s._opened then out else (s._preHeatingTime, s._preHeatingTargetTemperature)

end Settings

/-! ## regulator.cpp: construction and the setters -/

/-- Class `Regulator` (the thread, the mutex and the two collaborator pointers are not state
of the model). -/
structure Regulator where
  _opened : Bool
  _run : Bool
  _power : Bool
  _timeStep : ℚ
  _latestTemp : ℚ
  _latestPower : ℚ
  _targetTemperature : ℚ
  _dState : ℚ
  _iState : ℚ
  _iMax : ℚ
  _iMin : ℚ
  _iGain : ℚ
  _pGain : ℚ
  _dGain : ℚ
  deriving DecidableEq, Repr

namespace Regulator

/-- `Regulator::Regulator(boiler, tsic)` with `_open()`; the arguments are `boiler->ready()`
and `tsic->ready()`. -/
def new (boilerReady tsicReady : Bool) : Regulator :=
  let r : Regulator :=
    { _opened := false, _run := false, _power := false, _timeStep := 1, _latestTemp := 20,
      _latestPower := 0, _targetTemperature := 95, _dState := 0, _iState := 0, _iMax := 1,
      _iMin := -1, _iGain := 0, _pGain := 1, _dGain := 0 }
  if !boilerReady then r
  else if !tsicReady then r
  else
    { r with
      _pGain := 7 / 100, _iGain := 5 / 100, _dGain := 90 / 100, _iMin := 0, _iMax := 1,
      _timeStep := 1, _targetTemperature := 93, _opened := true, _run := true }

/-- `Regulator::ready()`. -/
def ready (r : Regulator) : Bool := r._opened

/-- `Regulator::setPIDGains(pGain, iGain, dGain)`. -/
def setPIDGains (r : Regulator) (pGain iGain dGain : ℚ) : Regulator :=
  if !r._opened then r else { r with _pGain := pGain, _iGain := iGain, _dGain := dGain }

/-- `Regulator::setTargetTemperature(targetTemperature)`. -/
def setTargetTemperature (r : Regulator) (targetTemperature : ℚ) : Regulator :=
  if !r._opened then r else { r with _targetTemperature := targetTemperature }

/-- `Regulator::getTargetTemperature()`. -/
def getTargetTemperature (r : Regulator) : ℚ :=
  if !r._opened then 0 else r._targetTemperature

/-- `Regulator::setPower(power)`. -/
def setPower (r : Regulator) (power : Bool) : Regulator :=
  if !r._opened then r else { r with _power := power }

/-- `Regulator::getPower()`. -/
def getPower (r : Regulator) : Bool :=
  if !r._opened then false else r._power

end Regulator

/-! ## flow.h -/

/-- Enum `Flow::State::Value`. -/
inductive Flow.State where
  | Invalid
  | Flowing
  | Stopped
  deriving DecidableEq, Repr

/-! ## gaggia.cpp -/

/-- Enum `Gaggia::State::Value`. -/
inductive Gaggia.State where
  | Invalid
  | Deactivated
  | Heating
  | Active
  | Steam
  | Extracting
  | ExtractingOneCup
  | ExtractingTwoCups
  deriving DecidableEq, Repr

/-- Class `Gaggia`: the members the state machine reads and writes.  The sensors (`TSIC`,
`Flow`, `Ranger`) and the boiler are read through their accessors only; their readings are
inputs of the steps. -/
structure Gaggia where
  _ready : Bool
  _systemTimer : Timer
  _extractionTimer : Timer
  _idleTimer : Timer
  _regulator : Regulator
  _pumpController : Pump
  _currentState : Gaggia.State
  _oldState : Gaggia.State
  _preHeatingTime : ℚ
  _flowOffsetOneCup : ℚ
  _flowOffsetTwoCups : ℚ
  _run : Bool
  deriving DecidableEq, Repr

namespace Gaggia

open Gaggia.State

/-- `Gaggia::ready()`. -/
def ready (g : Gaggia) : Bool := g._ready

/-- `Gaggia::getState()`. -/
def getState (g : Gaggia) : State :=
  if !g._ready then Invalid else g._currentState

/-- `Gaggia::_setRegulatorSettings()`. -/
def _setRegulatorSettings (cfg : Settings) (g : Gaggia) : Gaggia :=
  let steam : Bool := g._currentState = Steam
  let s := cfg.getRegulatorSettings steam
    { iGain := 0, pGain := 0, dGain := 0, targetTemperature := 0 }
  let targetTemperature :=
    if g._currentState = Heating then (cfg.getPreHeatingSettings (0, s.targetTemperature)).2
    else s.targetTemperature
  { g with
    _regulator :=
      (g._regulator.setPIDGains s.pGain s.iGain s.dGain).setTargetTemperature
        targetTemperature }

/-- `Gaggia::powerRegulator(power)`. -/
def powerRegulator (g : Gaggia) (power : Bool) : Gaggia :=
  if !g._ready then g
  else
    let g := { g with _regulator := g._regulator.setPower power }
    if power then { g with _currentState := Heating }
    else { g with _currentState := Deactivated }

/-- `Gaggia::getPowerRegulator()`. -/
def getPowerRegulator (g : Gaggia) : Bool :=
  if !g._ready then false else g._regulator.getPower

/-- `Gaggia::extractOneCup()`; `clock` is the reading taken by `_extractionTimer->reset()`. -/
def extractOneCup (g : Gaggia) (clock : ℚ) : Gaggia :=
  if !g._ready then g
  else if g._currentState = Extracting ∨ g._currentState = ExtractingOneCup
      ∨ g._currentState = ExtractingTwoCups ∨ g._currentState = Steam then g
  else
    { g with
      _oldState := g._currentState
      _currentState := ExtractingOneCup
      _extractionTimer := g._extractionTimer.reset clock
      _pumpController := g._pumpController.setPower true }

/-- `Gaggia::extractTwoCups()`; `clock` is the reading taken by `_extractionTimer->reset()`. -/
def extractTwoCups (g : Gaggia) (clock : ℚ) : Gaggia :=
  if !g._ready then g
  else if g._currentState = Extracting ∨ g._currentState = ExtractingOneCup
      ∨ g._currentState = ExtractingTwoCups ∨ g._currentState = Steam then g
  else
    { g with
      _oldState := g._currentState
      _currentState := ExtractingTwoCups
      _extractionTimer := g._extractionTimer.reset clock
      _pumpController := g._pumpController.setPower true }

/-- `Gaggia::setSteamMode(steam)`. -/
def setSteamMode (cfg : Settings) (g : Gaggia) (steam : Bool) : Gaggia :=
  if !g._ready then g
  else if g._currentState = Deactivated ∨ g._currentState = Extracting
      ∨ g._currentState = ExtractingOneCup ∨ g._currentState = ExtractingTwoCups then g
  else
    let g :=
      if steam then { g with _oldState := g._currentState, _currentState := Steam }
      else { g with _currentState := g._oldState }
    _setRegulatorSettings cfg g

/-- `Gaggia::getSteamMode()`. -/
def getSteamMode (g : Gaggia) : Bool :=
  if !g._ready then false else g._currentState = Steam

/-! ### One iteration of `Gaggia::_worker` -/

/-- What one iteration of `_worker` reads from outside the controller:
`_flowSensor->getState()`, `_flowSensor->getMilliLitres()` and the clock.  `clock k` is the
reading of the `k`-th `getClock()` call site of the loop body in program order:
`0` `_systemTimer->getElapsed()` (line 605); `1`, `2` `_extractionTimer` reset and start
(674, 675); `3` `_extractionTimer->stop()` (686); `4`, `5` `_idleTimer` reset and start
(689, 690); `6` `_idleTimer->getElapsed()` (717); `7`, `8` `_extractionTimer` reset and start
(722, 723); `9` `_extractionTimer->stop()` (742); `10`, `11` `_idleTimer` reset and start
(745, 746); `12`, `13` `_idleTimer` reset and start (762, 763). -/
structure Readings where
  flowState : Flow.State
  flowVolume : ℚ
  clock : ℕ → ℚ

/-- The local variables of `_worker` that its control decisions use. -/
structure Locals where
  state : State
  flowState : Flow.State
  extractionTimerRunning : Bool
  pumpRunning : Bool
  systemTime : ℚ
  flowVolume : ℚ
  flowVolumeCorrected : ℚ
  deriving DecidableEq, Repr

/-- "Copy current states" (lines 602-626). -/
def copyCurrentStates (r : Readings) (g : Gaggia) : Locals :=
  { state := g._currentState
    systemTime := g._systemTimer.getElapsed (r.clock 0)
    flowState := r.flowState
    flowVolume := r.flowVolume
    flowVolumeCorrected :=
      if g._currentState = ExtractingOneCup then r.flowVolume - g._flowOffsetOneCup
      else if g._currentState = ExtractingTwoCups then r.flowVolume - g._flowOffsetTwoCups
      else r.flowVolume
    extractionTimerRunning := g._extractionTimer.isRunning
    pumpRunning := g._pumpController.getPower }

/-- "Check if extraction offset reached => start time measurement" (lines 670-677). -/
def checkExtractionOffset (r : Readings) (g : Gaggia) (l : Locals) : Gaggia × Locals :=
  let extractionOffset : ℚ :=
    if l.state = ExtractingOneCup then g._flowOffsetOneCup else g._flowOffsetTwoCups
  if l.extractionTimerRunning = false ∧ l.flowVolume ≥ extractionOffset
      ∧ l.pumpRunning = true then
    ({ g with _extractionTimer := (g._extractionTimer.reset (r.clock 1)).start (r.clock 2) },
     { l with extractionTimerRunning := true })
  else (g, l)

/-- "Check if target volume reached => stop pump and timer" (lines 679-698). -/
def checkTargetVolume (r : Readings) (g : Gaggia) (l : Locals) : Gaggia × Locals :=
  let extractionTarget : ℚ := if l.state = ExtractingOneCup then 25 else 50
  if l.flowVolumeCorrected ≥ extractionTarget then
    ({ g with
       _pumpController := g._pumpController.setPower false
       _extractionTimer := g._extractionTimer.stop (r.clock 3)
       _idleTimer := (g._idleTimer.reset (r.clock 4)).start (r.clock 5)
       _currentState := g._oldState },
     { l with pumpRunning := false, extractionTimerRunning := false, state := g._oldState })
  else (g, l)

/-- "Check for automatic extraction" (lines 666-707). -/
def checkAutomaticExtraction (r : Readings) (g : Gaggia) (l : Locals) : Gaggia × Locals :=
  if l.state = ExtractingOneCup ∨ l.state = ExtractingTwoCups then
    let p := checkExtractionOffset r g l
    checkTargetVolume r p.1 p.2
  else (g, l)

/-- "Check for user triggered extraction" (lines 713-730). -/
def checkUserExtraction (r : Readings) (g : Gaggia) (l : Locals) : Gaggia × Locals :=
  if l.flowState = Flow.State.Flowing ∧ l.state ≠ Extracting ∧ l.state ≠ ExtractingOneCup
      ∧ l.state ≠ ExtractingTwoCups then
    if g._idleTimer.getElapsed (r.clock 6) ≥ 5 then
      ({ g with
         _oldState := g._currentState
         _currentState := Extracting
         _extractionTimer := (g._extractionTimer.reset (r.clock 7)).start (r.clock 8) },
       { l with state := Extracting, extractionTimerRunning := true })
    else (g, l)
  else (g, l)

/-- "Check for stopped user triggered extraction" (lines 736-751). -/
def checkUserExtractionStopped (r : Readings) (g : Gaggia) (l : Locals) : Gaggia × Locals :=
  if l.state = Extracting ∧ l.flowState ≠ Flow.State.Flowing then
    ({ g with
       _currentState := g._oldState
       _extractionTimer := g._extractionTimer.stop (r.clock 9)
       _idleTimer := (g._idleTimer.reset (r.clock 10)).start (r.clock 11) },
     { l with state := g._oldState, extractionTimerRunning := false })
  else (g, l)

/-- "Flow meter update and automatic extraction control" (lines 660-752): the three checks
in sequence, skipped as a whole when the copied state is `Steam`. -/
def flowControl (r : Readings) (g : Gaggia) (l : Locals) : Gaggia × Locals :=
  if l.state ≠ Steam then
    let p := checkAutomaticExtraction r g l
    let p := checkUserExtraction r p.1 p.2
    checkUserExtractionStopped r p.1 p.2
  else (g, l)

/-- "Check for pre-heating finish" (lines 758-766). -/
def checkPreHeatingFinish (cfg : Settings) (r : Readings) (g : Gaggia) (l : Locals) :
    Gaggia :=
  if l.state = Heating ∧ l.systemTime ≥ g._preHeatingTime then
    _setRegulatorSettings cfg
      { g with
        _currentState := Active
        _idleTimer := (g._idleTimer.reset (r.clock 12)).start (r.clock 13) }
  else g

/-- One iteration of the loop of `Gaggia::_worker` (lines 595-767), run only while `_run`. -/
def _worker (cfg : Settings) (g : Gaggia) (r : Readings) : Gaggia :=
  if !g._run then g
  else
    let l := copyCurrentStates r g
    let p := flowControl r g l
    checkPreHeatingFinish cfg r p.1 p.2

/-! ### Construction -/

/-- What `_initialize` finds when it opens its collaborators: the two singletons and the
`ready()` result of each hardware component after its constructor ran. -/
structure Hardware where
  logger : Bool
  gpio : Bool
  tsic : Bool
  boiler : Bool
  pump : Bool
  tank : Bool
  flow : Bool
  deriving DecidableEq, Repr

/-- The member initialisers of `Gaggia::Gaggia` (lines 31-46); the sub-components do not
exist yet (null pointers), which the model renders as unopened components and zero timers. -/
def initializers : Gaggia :=
  { _ready := false
    _systemTimer := { _startTime := 0, _stopTime := 0, _running := false }
    _extractionTimer := { _startTime := 0, _stopTime := 0, _running := false }
    _idleTimer := { _startTime := 0, _stopTime := 0, _running := false }
    _regulator := Regulator.new false false
    _pumpController := Pump.new false
    _currentState := Heating
    _oldState := Heating
    _preHeatingTime := 30
    _flowOffsetOneCup := 0
    _flowOffsetTwoCups := 0
    _run := false }

/-- `Gaggia::_initialize(activeHeating)`.  A failed step calls `_deinitialize()` and returns
with `_ready` still false.  `clock 0`, `clock 1`, `clock 2` are read by the three `Timer`
constructors, `clock 3` by `_systemTimer->start()`, `clock 4` by `_extractionTimer->stop()`. -/
def _initialize (hw : Hardware) (cfg : Settings) (clock : ℕ → ℚ) (activeHeating : Bool)
    (g : Gaggia) : Gaggia :=
  if !hw.logger then g
  else if !hw.gpio then g
  else if !hw.tsic then g
  else if !hw.boiler then g
  else
    let g := { g with _pumpController := Pump.new hw.pump }
    if !g._pumpController.ready then g
    else if !hw.tank then g
    else
      let g := { g with _regulator := Regulator.new hw.boiler hw.tsic }
      if !g._regulator.ready then g
      else
        let g := _setRegulatorSettings cfg g
        let g :=
          if activeHeating then { g with _regulator := g._regulator.setPower true }
          else { g with _regulator := g._regulator.setPower false, _currentState := Deactivated }
        if !hw.flow then g
        else
          { g with
            _flowOffsetOneCup := cfg.getFlowOffset30
            _flowOffsetTwoCups := cfg.getFlowOffset60
            _systemTimer := (Timer.new (clock 0)).start (clock 3)
            _extractionTimer := (Timer.new (clock 1)).stop (clock 4)
            _idleTimer := Timer.new (clock 2)
            _run := true
            _ready := true }

/-- `Gaggia::Gaggia(activeHeating, logging)`. -/
def new (hw : Hardware) (cfg : Settings) (clock : ℕ → ℚ) (activeHeating : Bool) : Gaggia :=
  _initialize hw cfg clock activeHeating initializers

/-! ### Atomic steps and reachable states -/

/-- One atomic step of a constructed controller: a public command or a worker iteration,
with the readings the step takes. -/
inductive Step where
  | powerRegulator (power : Bool)
  | extractOneCup (clock : ℚ)
  | extractTwoCups (clock : ℚ)
  | setSteamMode (steam : Bool)
  | worker (r : Readings)

/-- The effect of one step. -/
def step (cfg : Settings) (g : Gaggia) : Step → Gaggia
  | .powerRegulator power => g.powerRegulator power
  | .extractOneCup clock => g.extractOneCup clock
  | .extractTwoCups clock => g.extractTwoCups clock
  | .setSteamMode steam => setSteamMode cfg g steam
  | .worker r => _worker cfg g r

/-- The effect of a sequence of steps, first step first. -/
def run (cfg : Settings) (g : Gaggia) (steps : List Step) : Gaggia :=
  steps.foldl (step cfg) g

/-- A controller whose `_initialize` went through: `_ready` and `_run` are set, which happens
only after the pump and the regulator reported ready.  Every controller that reports ready
after construction is of this kind, and stays so along all steps (`new_operational`,
`run_operational` below). -/
def Operational (g : Gaggia) : Prop :=
  g._ready = true ∧ g._run = true ∧ g._pumpController._opened = true
    ∧ g._regulator._opened = true

instance (g : Gaggia) : Decidable (Operational g) := by
  unfold Operational; infer_instance

/-- A hardware set on which every component opens. -/
def Hardware.allReady : Hardware :=
  { logger := true, gpio := true, tsic := true, boiler := true, pump := true, tank := true,
    flow := true }

/-- The relation between the extraction timer and the state that the controller is meant to
keep: a running extraction timer goes with one of the three extraction states. -/
def ExtractionTimerInv (g : Gaggia) : Prop :=
  g._extractionTimer.isRunning = true →
    g._currentState = Extracting ∨ g._currentState = ExtractingOneCup
      ∨ g._currentState = ExtractingTwoCups

/-- Whether a step is a call of `powerRegulator`. -/
def Step.isPowerRegulator : Step → Bool
  | .powerRegulator _ => true
  | _ => false

/-! ### Sample controllers and readings -/

/-- A controller constructed with heating on a system where every component opens and no
configuration file exists; every clock reading of the constructor is `0`. -/
def sampleHeating : Gaggia :=
  Gaggia.new Hardware.allReady Settings.loadDefaults (fun _ => 0) true

/-- The sample controller with its current state replaced. -/
def sampleIn (s : State) : Gaggia :=
  { sampleHeating with _currentState := s }

/-- The readings of a tick that runs within one clock instant `now`. -/
def readingsAt (now : ℚ) (flowState : Flow.State) (flowVolume : ℚ) : Readings :=
  { flowState := flowState, flowVolume := flowVolume, clock := fun _ => now }

/-- The sample controller after a tick at 31 s without flow. -/
def sampleActive : Gaggia :=
  _worker Settings.loadDefaults sampleHeating (readingsAt 31 .Stopped 0)

/-- The sample controller, active, after `extractOneCup()` at 40 s. -/
def sampleShot : Gaggia :=
  sampleActive.extractOneCup 40

/-- The sample controller after it became active at 31 s, was powered on again at 39 s and
saw water flowing at the tick at 40 s: a user extraction entered from `Heating`. -/
def sampleReheatedBrew : Gaggia :=
  run Settings.loadDefaults sampleHeating
    [.worker (readingsAt 31 .Stopped 0), .powerRegulator true,
     .worker (readingsAt 40 .Flowing 1)]

/-- The sample controller, still heating, after `extractOneCup()` at 10 s, the tick at 20 s
that finds 8 mL with the pump on, and `powerRegulator(false)`. -/
def samplePoweredOffShot : Gaggia :=
  run Settings.loadDefaults sampleHeating
    [.extractOneCup 10, .worker (readingsAt 20 .Flowing 8), .powerRegulator false]

/-- The sample controller, still heating, after `extractOneCup()` at 10 s. -/
def sampleEarlyShot : Gaggia :=
  sampleHeating.extractOneCup 10

end Gaggia

/-! ## boiler.cpp -/

/-- Class `Boiler`: the members the regulator loop reaches (the PWM pin itself is hardware). -/
structure Boiler where
  _opened : Bool
  _pwmRange : ℕ
  _pwmFrequency : ℕ
  _pwmCurrentPower : ℚ
  deriving DecidableEq, Repr

namespace Boiler

/-- `Boiler::Boiler()` with `_open()`: `pinOk` tells whether the GPIO pin became ready and
accepted the PWM set-up. -/
def new (pinOk : Bool) : Boiler :=
  { _opened := pinOk, _pwmRange := 20000, _pwmFrequency := 10, _pwmCurrentPower := 0 }

/-- `Boiler::ready()`. -/
def ready (b : Boiler) : Bool := b._opened

/-- `Boiler::setPower(value)`; the duty handed to the pin is `value * _pwmRange`. -/
def setPower (b : Boiler) (value : ℚ) : Boiler :=
  if !b._opened then b
  else
    let value := if value < 0 then 0 else value
    let value := if value > 1 then 1 else value
    { b with _pwmCurrentPower := value }

/-- `Boiler::getPower()`. -/
def getPower (b : Boiler) : ℚ :=
  if !b._opened then 0 else b._pwmCurrentPower

end Boiler

/-! ## regulator.cpp: the PID update and the control loop -/

namespace Regulator

/-- `Regulator::_update(error, position, iGain, pGain, dGain)`: the returned drive and the
regulator left behind. -/
def _update (r : Regulator) (error position iGain pGain dGain : ℚ) : ℚ × Regulator :=
  let pTerm := pGain * error
  let iState := r._iState + error
  let iState :=
    if iState > r._iMax then r._iMax else if iState < r._iMin then r._iMin else iState
  let iTerm := iGain * iState
  let dTerm := dGain * (r._dState - position)
  (pTerm + dTerm + iTerm, { r with _iState := iState, _dState := position })

/-- The regulator thread: the `Regulator` members, the boiler it drives, and the locals
`next`, `drive` and `remain` of `_worker` as one iteration leaves them. -/
structure Loop where
  regulator : Regulator
  boiler : Boiler
  next : ℚ
  drive : ℚ
  remain : ℚ
  deriving DecidableEq, Repr

/-- The state in which `Regulator::_worker` enters its loop: `start = next = getClock()`. -/
def Loop.enter (r : Regulator) (b : Boiler) (clock : ℚ) : Loop :=
  { regulator := r, boiler := b, next := clock, drive := 0, remain := 0 }

/-- The second half of an iteration of `Regulator::_worker` (lines 218-240): clamp the drive,
hand it to the boiler, store the latest reading and compute the rest of the time step.
`clock` is the reading of `getClock()` at line 237. -/
def _workerOutput (r : Regulator) (b : Boiler) (next drive latestTemp clock : ℚ) : Loop :=
  let drive : ℚ := if drive > 1 then 1 else if drive < 0 then 0 else drive
  { regulator := { r with _latestTemp := latestTemp, _latestPower := drive }
    boiler := b.setPower drive
    next := next
    drive := drive
    remain := next - clock }

/-- One iteration of the loop of `Regulator::_worker` (lines 191-241), run only while `_run`.
`reading` is what `_temperature->getDegrees( latestTemp )` delivers (value and validity
flag). -/
def _worker (l : Loop) (reading : ℚ × Bool) (clock : ℚ) : Loop :=
  if !l.regulator._run then l
  else
    let latestTemp : ℚ := if !reading.2 then 0 else reading.1
    if l.regulator._power = true ∧ latestTemp > 1 / 2 then
      _workerOutput
        (l.regulator._update (l.regulator._targetTemperature - latestTemp) latestTemp
          l.regulator._iGain l.regulator._pGain l.regulator._dGain).2
        l.boiler (l.next + l.regulator._timeStep)
        (l.regulator._update (l.regulator._targetTemperature - latestTemp) latestTemp
          l.regulator._iGain l.regulator._pGain l.regulator._dGain).1
        latestTemp clock
    else _workerOutput l.regulator l.boiler l.next 0 latestTemp clock

/-- The end of `Regulator::_worker`: the boiler is turned off after the loop. -/
def _workerExit (l : Loop) : Loop :=
  { l with boiler := l.boiler.setPower 0 }

/-- One atomic step of the regulator: a loop iteration or one of the setters. -/
inductive Step where
  | iterate (reading : ℚ × Bool) (clock : ℚ)
  | setPIDGains (pGain iGain dGain : ℚ)
  | setTargetTemperature (targetTemperature : ℚ)
  | setPower (power : Bool)

/-- The effect of one step on the regulator thread. -/
def step (l : Loop) : Step → Loop
  | .iterate reading clock => _worker l reading clock
  | .setPIDGains p i d => { l with regulator := l.regulator.setPIDGains p i d }
  | .setTargetTemperature t => { l with regulator := l.regulator.setTargetTemperature t }
  | .setPower power => { l with regulator := l.regulator.setPower power }

/-- The effect of a sequence of steps, first step first. -/
def run (l : Loop) (steps : List Step) : Loop :=
  steps.foldl step l

/-- The value `x` limited to the interval from `lo` to `hi`. -/
def clamp (x lo hi : ℚ) : ℚ := max lo (min x hi)

end Regulator


namespace Regulator

/-- A sample loop: the regulator and the boiler as opened, the power flag set. -/
def sampleLoop : Loop :=
  Loop.enter ((Regulator.new true true).setPower true) (Boiler.new true) 0

/-- What every opened regulator keeps: the limits of `_open()` and the accumulator between
them. -/
def IntegralInv (r : Regulator) : Prop :=
  r._iMin = 0 ∧ r._iMax = 1 ∧ r._iMin ≤ r._iState ∧ r._iState ≤ r._iMax

end Regulator

/-! ## tsic.cpp -/

/-- The value of a 32-bit two's complement `int` with the given mathematical result. -/
def int32 (x : ℤ) : ℤ := (x + 2 ^ 31) % 2 ^ 32 - 2 ^ 31

/-- Subtraction of two `uint32_t` values. -/
def sub32 (a b : ℕ) : ℕ := (a % 2 ^ 32 + 2 ^ 32 - b % 2 ^ 32) % 2 ^ 32

/-- Class `TSIC` (pin, mutex and `_running`, which the decoder never reads, are left out).
`_word` is an `int`; the model keeps its 32 bits as a natural number. -/
structure TSIC where
  _opened : Bool
  _valid : Bool
  _temperature : ℚ
  _count : ℕ
  _lastLow : ℕ
  _lastHigh : ℕ
  _word : ℕ
  deriving DecidableEq, Repr

namespace TSIC

/-- `TSIC_BITS`. -/
def TSIC_BITS : ℕ := 20

/-- `TSIC_FRAME_US`. -/
def TSIC_FRAME_US : ℕ := 125

/-- `SCALE_FACTOR`. -/
def SCALE_FACTOR : ℤ := 1000

/-- `MIN_TEMP`. -/
def MIN_TEMP : ℤ := -50

/-- `MAX_TEMP`. -/
def MAX_TEMP : ℤ := 150

/-- `INVALID_TEMP`. -/
def INVALID_TEMP : ℤ := -100000

/-- `parity8(value)`, for a value that is not negative. -/
def parity8 (value : ℕ) : ℕ :=
  let value := (value ^^^ (value >>> 4)) &&& 0x0F
  (0x6996 >>> value) &&& 1

/-- `tsicDecode(packet0, packet1)`, for packets that are not negative (the caller masks them
with `0x1FF`).  The arithmetic of the conversion is that of `int`. -/
def tsicDecode (packet0 packet1 : ℕ) : ℤ :=
  let parity0 := packet0 &&& 1
  let packet0 := packet0 >>> 1
  let parity1 := packet1 &&& 1
  let packet1 := packet1 >>> 1
  let valid : Bool := decide (parity0 = parity8 packet0) && decide (parity1 = parity8 packet1)
  if !valid then INVALID_TEMP
  else if packet0 &&& 0xF8 ≠ 0 then INVALID_TEMP
  else
    let raw : ℤ := int32 (((packet0 <<< 8) ||| packet1 : ℕ) : ℤ)
    let temp : ℤ :=
      int32 (Int.tdiv (int32 (int32 ((MAX_TEMP - MIN_TEMP) * SCALE_FACTOR) * raw)) 2047
        + int32 (MIN_TEMP * SCALE_FACTOR))
    if temp ≥ MIN_TEMP * SCALE_FACTOR ∧ temp ≤ MAX_TEMP * SCALE_FACTOR then temp
    else INVALID_TEMP

/-- `TSIC::TSIC(gpio)`, the member initializers. -/
def initializers : TSIC :=
  { _opened := false, _valid := false, _temperature := 0, _count := 0, _lastLow := 0,
    _lastHigh := 0, _word := 0 }

/-- `TSIC::getDegrees(value)`: the value written to the argument and the flag returned. -/
def getDegrees (s : TSIC) : ℚ × Bool := (s._temperature, s._valid)

/-- `TSIC::ready()`. -/
def ready (s : TSIC) : Bool := s._opened

/-- The call of `tsicDecode` in `TSIC::_alertFunction` (tsic.cpp:241-244) on the register.
The shift of the `int` is arithmetic, and the mask `0x1FF` drops the bits where that shows. -/
def decodeWord (word : ℕ) : ℤ := tsicDecode ((word >>> 10) &&& 0x1FF) (word &&& 0x1FF)

/-- The end of the rising-edge branch of `TSIC::_alertFunction` (tsic.cpp:239-264): count the
edge and decode the packet when it is the twentieth. -/
def countEdge (s : TSIC) : TSIC :=
  if (s._count + 1) % 2 ^ 32 = TSIC_BITS then
    if decodeWord s._word ≠ INVALID_TEMP then
      { s with _temperature := (decodeWord s._word : ℚ) / (SCALE_FACTOR : ℚ), _valid := true,
               _count := 0, _word := 0 }
    else { s with _valid := false, _count := 0, _word := 0 }
  else { s with _count := (s._count + 1) % 2 ^ 32 }

/-- `TSIC::_alertFunction(gpio, level, tick)`; `tick` is a `uint32_t`. -/
def _alertFunction (s : TSIC) (level : ℤ) (tick : ℕ) : TSIC :=
  if level = 1 then
    if sub32 tick s._lastLow < TSIC_FRAME_US / 2 then
      countEdge { s with _lastHigh := tick % 2 ^ 32, _word := ((s._word <<< 1) ||| 1) % 2 ^ 32 }
    else if sub32 tick s._lastLow < TSIC_FRAME_US then
      countEdge { s with _lastHigh := tick % 2 ^ 32, _word := (s._word <<< 1) % 2 ^ 32 }
    else if sub32 tick s._lastLow > TSIC_FRAME_US * 2 then
      { s with _lastHigh := tick % 2 ^ 32, _count := 0, _word := 0 }
    else countEdge { s with _lastHigh := tick % 2 ^ 32 }
  else
    if sub32 tick s._lastHigh > TSIC_FRAME_US * 2 then
      { s with _lastLow := tick % 2 ^ 32, _count := 0, _word := 0 }
    else { s with _lastLow := tick % 2 ^ 32 }

/-- The edges delivered to the decoder, one after the other. -/
def run (s : TSIC) (edges : List (ℤ × ℕ)) : TSIC :=
  edges.foldl (fun s e => s._alertFunction e.1 e.2) s

/-- The exclusive or of the eight low bits of `d`, as the sum of the bits modulo 2. -/
def xorOfBits (d : ℕ) : ℕ :=
  (d % 2 + d / 2 % 2 + d / 4 % 2 + d / 8 % 2 + d / 16 % 2 + d / 32 % 2 + d / 64 % 2
    + d / 128 % 2) % 2

/-- The bit that a rising edge at `tick` shifts into the register: 1 after a low period
below `TSIC_FRAME_US / 2`, 0 after a longer one below `TSIC_FRAME_US`, none otherwise. -/
def bitOf (s : TSIC) (tick : ℕ) : Option ℕ :=
  if sub32 tick s._lastLow < TSIC_FRAME_US / 2 then some 1
  else if sub32 tick s._lastLow < TSIC_FRAME_US then some 0
  else none

/-- The bits shifted in by a train of edges in which every rising edge shifts in a bit and no
falling edge ends a high period above two frames; `none` for every other train. -/
def shiftedBits : TSIC → List (ℤ × ℕ) → Option (List ℕ)
  | _, [] => some []
  | s, e :: es =>
    if e.1 = 1 then
      match s.bitOf e.2 with
      | none => none
      | some b => (shiftedBits (s._alertFunction e.1 e.2) es).map (fun bs => b :: bs)
    else if sub32 e.2 s._lastHigh > TSIC_FRAME_US * 2 then none
    else shiftedBits (s._alertFunction e.1 e.2) es

/-- The number whose binary digits are `bits`, the first one most significant, after the
digits of `w`. -/
def wordOf (w : ℕ) (bits : List ℕ) : ℕ := bits.foldl (fun w b => 2 * w + b) w

/-- A decoder state in the middle of a packet, the bus low since tick 1000. -/
def sampleMid : TSIC :=
  { _opened := true, _valid := true, _temperature := 25, _count := 3, _lastLow := 1000,
    _lastHigh := 940, _word := 5 }

/-- A decoder state one edge before the end of a packet, the bus low since tick 1000. -/
def sampleLast : TSIC :=
  { _opened := true, _valid := true, _temperature := 25, _count := 19, _lastLow := 1000,
    _lastHigh := 940, _word := 3072 }

/-- The edges of a bit train that starts with the bus going low at tick `t`: every bit is a
low period of 31 us (a one) or 94 us (a zero) and the bus goes low again 125 us after the
start of the bit. -/
def trainOf (t : ℕ) : List ℕ → List (ℤ × ℕ)
  | [] => []
  | b :: bs => (1, t + (if b = 1 then 31 else 94)) :: (0, t + 125) :: trainOf (t + 125) bs

/-- The first 19 bits of a packet with the data bytes 3 and 0 (raw value 768): start bit,
eight data bits and the parity bit of the first field, then the same of the second field
without its parity bit. -/
def sampleBits : List ℕ := [0, 0, 0, 0, 0, 0, 0, 1, 1, 0, 0, 0, 0, 0, 0, 0, 0, 0, 0]

end TSIC

/-! ## flow.cpp -/

/-- Class `Flow` (pin, thread and mutex are not state of the model).  The four counters are
`unsigned int`. -/
structure Flow where
  _opened : Bool
  _state : Flow.State
  _samplingRate : ℕ
  _speedSamplingRate : ℕ
  _timeout : ℕ
  _count : ℕ
  _flowSpeed : ℚ
  _milliLitrePerCounts : ℚ
  _run : Bool
  deriving DecidableEq, Repr

namespace Flow

/-- `Flow::Flow()` with `_open()`; `pinOk` says whether every step of `_open()` succeeded. -/
def new (pinOk : Bool) : Flow :=
  let f : Flow :=
    { _opened := false, _state := .Stopped, _samplingRate := 50, _speedSamplingRate := 500,
      _timeout := 1000, _count := 0, _flowSpeed := 0,
      _milliLitrePerCounts := 229247353 / 1000000000, _run := false }
  if !pinOk then f else { f with _run := true, _opened := true }

/-- `Flow::ready()`. -/
def ready (f : Flow) : Bool := f._opened

/-- `Flow::getState()`. -/
def getState (f : Flow) : Flow.State := if !f._opened then .Invalid else f._state

/-- `Flow::getMilliLitres()`. -/
def getMilliLitres (f : Flow) : ℚ :=
  if !f._opened then 0 else f._milliLitrePerCounts * (f._count : ℚ)

/-- `Flow::getFlowSpeed()`. -/
def getFlowSpeed (f : Flow) : ℚ := if !f._opened then 0 else f._flowSpeed

/-- `Flow::_alertFunction(pin, level, tick)`. -/
def _alertFunction (f : Flow) : Flow := { f with _count := (f._count + 1) % 2 ^ 32 }

/-- The local variables of `Flow::_worker` that live across iterations (`unsigned int`
apart from `flowing`). -/
structure Locals where
  flowing : Bool
  speedTimer : ℕ
  startCount : ℕ
  idleTime : ℕ
  count : ℕ
  oldCount : ℕ
  deriving DecidableEq, Repr

/-- The locals of `Flow::_worker` before its loop (flow.cpp:148-155). -/
def Locals.enter (f : Flow) : Locals :=
  { flowing := false, speedTimer := 0, startCount := 0, idleTime := 0, count := 0,
    oldCount := f._count }

/-- The block under the first lock of an iteration (flow.cpp:163-183): `speedTimer` has the
sampling interval added, `count` takes the pulse counter, and when the window is full the
speed is computed, with the division of two `unsigned int` before the product with
`1000.0`. -/
def sampleSpeed (f : Flow) (l : Locals) : Flow × Locals :=
  if (l.speedTimer + f._samplingRate) % 2 ^ 32 ≥ f._speedSamplingRate then
    ({ f with
        _flowSpeed := ((sub32 f._count l.startCount / f._speedSamplingRate : ℕ) : ℚ) * 1000 },
     { l with count := f._count, startCount := f._count, speedTimer := 0 })
  else
    (f, { l with count := f._count, speedTimer := (l.speedTimer + f._samplingRate) % 2 ^ 32 })

/-- The assignments of both transitions (flow.cpp:194-199 and 216-221) with the `flowing`
and `idleTime` of that branch and the `oldCount = count` that ends the iteration. -/
def restart (state : Flow.State) (flowing : Bool) (idleTime : ℕ) (f : Flow) (l : Locals) :
    Flow × Locals :=
  ({ f with _state := state, _count := 0, _flowSpeed := 0 },
   { l with flowing := flowing, idleTime := idleTime, count := 0, speedTimer := 0,
            startCount := 0, oldCount := 0 })

/-- The `flowing` of the idle branch (flow.cpp:207-209). -/
def stillFlowing (f : Flow) (l : Locals) : Bool :=
  if l.flowing && decide ((l.idleTime + f._samplingRate) % 2 ^ 32 ≥ f._timeout) then false
  else l.flowing

/-- One iteration of the loop of `Flow::_worker` (flow.cpp:157-225), run only while `_run`. -/
def _worker (f : Flow) (l : Locals) : Flow × Locals :=
  if !f._run then (f, l)
  else if f._count ≠ l.oldCount then
    if true ≠ l.flowing then
      restart .Flowing true 0 (sampleSpeed f l).1 (sampleSpeed f l).2
    else
      ((sampleSpeed f l).1,
       { (sampleSpeed f l).2 with flowing := true, idleTime := 0, oldCount := f._count })
  else
    if stillFlowing f l ≠ l.flowing then
      restart .Stopped (stillFlowing f l) ((l.idleTime + f._samplingRate) % 2 ^ 32)
        (sampleSpeed f l).1 (sampleSpeed f l).2
    else
      ((sampleSpeed f l).1,
       { (sampleSpeed f l).2 with
         flowing := stillFlowing f l, idleTime := (l.idleTime + f._samplingRate) % 2 ^ 32,
         oldCount := f._count })

/-- The atomic steps of the meter: a pulse edge or an iteration of the worker. -/
inductive Step where
  | pulse
  | tick
  deriving DecidableEq, Repr

/-- One atomic step. -/
def step (m : Flow × Locals) : Step → Flow × Locals
  | .pulse => (m.1._alertFunction, m.2)
  | .tick => _worker m.1 m.2

/-- The steps one after the other. -/
def run (m : Flow × Locals) (steps : List Step) : Flow × Locals := steps.foldl step m

/-- The constructed meter with its worker before the first iteration. -/
def start (pinOk : Bool) : Flow × Locals := (Flow.new pinOk, Locals.enter (Flow.new pinOk))

/-- What the steps keep: the published state mirrors the `flowing` of the worker, and the
volume of a pulse is not negative. -/
def StateInv (m : Flow × Locals) : Prop :=
  ((m.1._state = .Flowing ∧ m.2.flowing = true)
      ∨ (m.1._state = .Stopped ∧ m.2.flowing = false))
    ∧ 0 ≤ m.1._milliLitrePerCounts

/-- The meter after `n` pulse edges and one iteration of the worker, from the start. -/
def sampleAfter (n : ℕ) : Flow × Locals :=
  run (start true) (List.replicate n Step.pulse ++ [Step.tick])

/-- A running meter with the rates of the constructor that is flowing and has seen the
count `c` unchanged for `j` iterations in a row. -/
def Idle (j c : ℕ) (m : Flow × Locals) : Prop :=
  m.1._run = true ∧ m.1._samplingRate = 50 ∧ m.1._timeout = 1000 ∧ m.1._state = .Flowing
    ∧ m.2.flowing = true ∧ m.1._count = c ∧ m.2.oldCount = c ∧ m.2.idleTime = 50 * j

/-- The meter that has been stopped for 19 iterations, nine of them since the speed was last
computed, when 500 pulses arrive. -/
def sampleStoppedWindow : Flow × Locals :=
  run (start true) (List.replicate 19 Step.tick ++ List.replicate 500 Step.pulse)

/-- The meter that has been flowing for nine iterations when 500 pulses arrive. -/
def sampleFlowingWindow : Flow × Locals :=
  run (sampleAfter 1) (List.replicate 9 Step.tick ++ List.replicate 500 Step.pulse)

end Flow

/-! ## Double precision -/

/-- Rounding to the nearest integer, a tie to the even one. -/
def roundEven (y : ℚ) : ℤ :=
  if y - ⌊y⌋ < 1 / 2 then ⌊y⌋
  else if y - ⌊y⌋ > 1 / 2 then ⌊y⌋ + 1
  else if ⌊y⌋ % 2 = 0 then ⌊y⌋ else ⌊y⌋ + 1

/-- The `double` nearest to `x` (IEEE 754 binary64, round to nearest, ties to even): the
value of a decimal literal, of a conversion and of the result of an arithmetic operation
whose exact value is `x`.  The 53-bit significand is `x` scaled by a power of two and
rounded; overflow and subnormal numbers (`|x|` outside 2^-1022 … 2^1024) are left out. -/
def roundDouble (x : ℚ) : ℚ :=
  if x = 0 then 0
  else (roundEven (x / 2 ^ (Int.log 2 |x| - 52)) : ℚ) * 2 ^ (Int.log 2 |x| - 52)

/-! ## ranger.cpp -/

/-- Class `Ranger`: the members that the worker and `getRange` use.  `_timeLastRun`,
`_count`, `_timeout` and `_timeStamp` belong to `_measureRange()`, whose results are an
input of the model. -/
structure Ranger where
  _opened : Bool
  _range : ℚ
  _run : Bool
  deriving DecidableEq, Repr

namespace Ranger

/-- `Ranger::Ranger()` with `_open()`; `pinsOk` says whether every step of `_open()`
succeeded. -/
def new (pinsOk : Bool) : Ranger :=
  let r : Ranger := { _opened := false, _range := 0, _run := false }
  if !pinsOk then r else { r with _opened := true, _run := true }

/-- `Ranger::ready()`. -/
def ready (r : Ranger) : Bool := r._opened

/-- `Ranger::getRange(range)`: the flag returned and the value written to the argument,
which is left as it was (`range`) when the ranger is not opened. -/
def getRange (r : Ranger) (range : ℚ) : Bool × ℚ :=
  if !r._opened then (false, range) else (decide (r._range > 0), r._range)

/-- The local variables of `Ranger::_worker` that live across iterations; `measured` counts
the calls of `_measureRange()` and is not a variable of the code. -/
structure Locals where
  currentRange : ℚ
  oldRange : ℚ
  firstTime : Bool
  measured : ℕ
  deriving DecidableEq, Repr

/-- The locals of `Ranger::_worker` before its loop (ranger.cpp:148-151). -/
def Locals.enter : Locals :=
  { currentRange := 0, oldRange := 0, firstTime := true, measured := 0 }

/-- The local `outlier` of an iteration (ranger.cpp:160-162) for the first measurement
`currentRange` and the `oldRange` of the iteration.  The two comparisons are comparisons of
`double`s: each of the two ranges stands for the `double` nearest to it (for a measurement
of `mm` millimetres, `mm / 1000` stands for the result of `(double)mm / 1000.0`), their
difference is rounded, and `0.01` and `0.001` are the `double`s nearest to these
decimals. -/
def outlier (firstTime : Bool) (currentRange oldRange : ℚ) : Bool :=
  (!firstTime
      && decide (|roundDouble (roundDouble currentRange - roundDouble oldRange)|
          > roundDouble (1 / 100)))
    || decide (roundDouble currentRange < roundDouble (1 / 1000))

/-- One iteration of the loop of `Ranger::_worker` (ranger.cpp:153-182), run only while
`_run`.  `measure 0` and `measure 1` are the results of the first and, if there is one, the
second call of `_measureRange()` in this iteration. -/
def _worker (r : Ranger) (l : Locals) (measure : ℕ → ℚ) : Ranger × Locals :=
  if !r._run then (r, l)
  else if outlier l.firstTime (measure 0) l.currentRange then
    ({ r with
        _range := (if l.firstTime then measure 1 else r._range)
          + 1 / 2 * (measure 1 - (if l.firstTime then measure 1 else r._range)) },
     { currentRange := measure 1, oldRange := l.currentRange, firstTime := false,
       measured := l.measured + 2 })
  else
    ({ r with
        _range := (if l.firstTime then measure 0 else r._range)
          + 1 / 2 * (measure 0 - (if l.firstTime then measure 0 else r._range)) },
     { currentRange := measure 0, oldRange := l.currentRange, firstTime := false,
       measured := l.measured + 1 })

/-- The opened ranger after a first iteration that measured 0.30 m. -/
def sampleFirst : Ranger × Locals :=
  _worker (Ranger.new true) Locals.enter (fun _ => 3 / 10)

/-- The measurements of a second iteration: 0.50 m and then 0.31 m. -/
def sampleMeasure : ℕ → ℚ := fun i => if i = 0 then 1 / 2 else 31 / 100

end Ranger

/-! ## gaggia.cpp: the tank level and the extraction amount -/

namespace Gaggia

open Gaggia.State

/-- The scaling of `Gaggia::getWaterTankLevel()` (gaggia.cpp:104-116) for a range that the
tank sensor reported as valid, with `MIN_LEVEL = 0.12` and `MAX_LEVEL = 0.018`. -/
def tankLevel (range : ℚ) : ℚ :=
  if 1 - (range - 18 / 1000) / (12 / 100 - 18 / 1000) < 0 then 0
  else if 1 - (range - 18 / 1000) / (12 / 100 - 18 / 1000) > 1 then 1
  else 1 - (range - 18 / 1000) / (12 / 100 - 18 / 1000)

/-- `Gaggia::getWaterTankLevel()`; the local `level` is 0 when `getRange` is called. -/
def getWaterTankLevel (g : Gaggia) (tankSensor : Ranger) : ℚ :=
  if !g._ready then 0
  else if !(tankSensor.getRange 0).1 then 0
  else tankLevel (tankSensor.getRange 0).2

/-- `Gaggia::getExtractionAmount()`; `flowVolume` is what `_flowSensor->getMilliLitres()`
returns. -/
def getExtractionAmount (g : Gaggia) (flowVolume : ℚ) : ℚ :=
  if !g._ready then 0
  else if g._currentState = ExtractingOneCup then
    if flowVolume - g._flowOffsetOneCup < 0 then 0 else flowVolume - g._flowOffsetOneCup
  else if g._currentState = ExtractingTwoCups then
    if flowVolume - g._flowOffsetTwoCups < 0 then 0 else flowVolume - g._flowOffsetTwoCups
  else if flowVolume < 0 then 0 else flowVolume

/-- The state stored in `_oldState` is none of the three extraction states. -/
def OldStateInv (g : Gaggia) : Prop :=
  g._oldState ≠ Extracting ∧ g._oldState ≠ ExtractingOneCup
    ∧ g._oldState ≠ ExtractingTwoCups

/-- The readings of a tick that stalls for 6 s after it has restarted the idle timer: water
is flowing, the raw volume is 32.5 mL, the clock reads 60 s at the call sites up to the
restart (0 to 5) and 66 s from the debounce read (6) on. -/
def readingsStalled : Readings :=
  { flowState := .Flowing, flowVolume := 65 / 2, clock := fun k => if k ≤ 5 then 60 else 66 }

/-- The sample controller, active since the tick at 31 s, after `powerRegulator(true)`. -/
def sampleRepowered : Gaggia :=
  sampleActive.powerRegulator true

end Gaggia

namespace Regulator

/-- A sample loop with the power flag off: the regulator and the boiler as opened, entered at
clock 0. -/
def sampleOffLoop : Loop :=
  Loop.enter (Regulator.new true true) (Boiler.new true) 0

/-- Iterations of the loop, one for every pair of a sensor reading and the clock reading of
line 237. -/
def iterations (xs : List ((ℚ × Bool) × ℚ)) : List Step :=
  xs.map (fun x => Step.iterate x.1 x.2)

end Regulator

namespace TSIC

/-- What the callback keeps between its calls: at most 19 edges counted, and the register
below 2 to the power of their number. -/
def CountInv (s : TSIC) : Prop :=
  s._count ≤ 19 ∧ s._word < 2 ^ s._count

end TSIC

namespace Ranger

/-- The opened ranger after a first iteration that measured 0.10 m. -/
def sampleTenth : Ranger × Locals :=
  _worker (Ranger.new true) Locals.enter (fun _ => 1 / 10)

end Ranger

/-! ## Symbolic execution of one worker iteration -/

namespace Timer

@[simp] theorem isRunning_reset (t : Timer) (c : ℚ) : (t.reset c).isRunning = false := rfl

@[simp] theorem isRunning_start (t : Timer) (c : ℚ) : (t.start c).isRunning = true := rfl

@[simp] theorem isRunning_stop (t : Timer) (c : ℚ) : (t.stop c).isRunning = false := rfl

@[simp] theorem startTime_start (t : Timer) (c : ℚ) : (t.start c)._startTime = c := rfl

@[simp] theorem startTime_stop (t : Timer) (c : ℚ) : (t.stop c)._startTime = t._startTime := rfl

@[simp] theorem stopTime_stop (t : Timer) (c : ℚ) : (t.stop c)._stopTime = c := rfl

@[simp] theorem getElapsed_start (t : Timer) (c now : ℚ) :
    (t.start c).getElapsed now = now - c := by
  simp [Timer.start, Timer.getElapsed]

@[simp] theorem getElapsed_reset (t : Timer) (c now : ℚ) : (t.reset c).getElapsed now = 0 := by
  simp [Timer.reset, Timer.getElapsed]

@[simp] theorem getElapsed_stop (t : Timer) (c now : ℚ) :
    (t.stop c).getElapsed now = c - t._startTime := by
  simp [Timer.stop, Timer.getElapsed]

end Timer

namespace Gaggia

open Gaggia.State

theorem worker_of_run (cfg : Settings) (g : Gaggia) (r : Readings) (hrun : g._run = true) :
    _worker cfg g r = checkPreHeatingFinish cfg r (flowControl r g (copyCurrentStates r g)).1
      (flowControl r g (copyCurrentStates r g)).2 := by
  simp [_worker, hrun]

theorem flowControl_steam (r : Readings) (g : Gaggia) (l : Locals) (h : l.state = Steam) :
    flowControl r g l = (g, l) := by
  simp [flowControl, h]

theorem flowControl_of_ne_steam (r : Readings) (g : Gaggia) (l : Locals) (h : l.state ≠ Steam) :
    flowControl r g l =
      checkUserExtractionStopped r
        (checkUserExtraction r (checkAutomaticExtraction r g l).1
          (checkAutomaticExtraction r g l).2).1
        (checkUserExtraction r (checkAutomaticExtraction r g l).1
          (checkAutomaticExtraction r g l).2).2 := by
  simp [flowControl, h]

theorem checkAutomaticExtraction_neg (r : Readings) (g : Gaggia) (l : Locals)
    (h : ¬ (l.state = ExtractingOneCup ∨ l.state = ExtractingTwoCups)) :
    checkAutomaticExtraction r g l = (g, l) := by
  unfold checkAutomaticExtraction
  exact if_neg h

theorem checkAutomaticExtraction_pos (r : Readings) (g : Gaggia) (l : Locals)
    (h : l.state = ExtractingOneCup ∨ l.state = ExtractingTwoCups) :
    checkAutomaticExtraction r g l =
      checkTargetVolume r (checkExtractionOffset r g l).1 (checkExtractionOffset r g l).2 := by
  unfold checkAutomaticExtraction
  exact if_pos h

theorem checkExtractionOffset_pos (r : Readings) (g : Gaggia) (l : Locals)
    (h : l.extractionTimerRunning = false
      ∧ (if l.state = ExtractingOneCup then g._flowOffsetOneCup else g._flowOffsetTwoCups)
          ≤ l.flowVolume
      ∧ l.pumpRunning = true) :
    checkExtractionOffset r g l =
      ({ g with _extractionTimer := (g._extractionTimer.reset (r.clock 1)).start (r.clock 2) },
       { l with extractionTimerRunning := true }) := by
  unfold checkExtractionOffset
  exact if_pos h

theorem checkExtractionOffset_neg (r : Readings) (g : Gaggia) (l : Locals)
    (h : ¬ (l.extractionTimerRunning = false
      ∧ (if l.state = ExtractingOneCup then g._flowOffsetOneCup else g._flowOffsetTwoCups)
          ≤ l.flowVolume
      ∧ l.pumpRunning = true)) :
    checkExtractionOffset r g l = (g, l) := by
  unfold checkExtractionOffset
  exact if_neg h

theorem checkTargetVolume_pos (r : Readings) (g : Gaggia) (l : Locals)
    (h : (if l.state = ExtractingOneCup then (25 : ℚ) else 50) ≤ l.flowVolumeCorrected) :
    checkTargetVolume r g l =
      ({ g with
         _pumpController := g._pumpController.setPower false
         _extractionTimer := g._extractionTimer.stop (r.clock 3)
         _idleTimer := (g._idleTimer.reset (r.clock 4)).start (r.clock 5)
         _currentState := g._oldState },
       { l with pumpRunning := false, extractionTimerRunning := false, state := g._oldState }) := by
  unfold checkTargetVolume
  exact if_pos h

theorem checkTargetVolume_neg (r : Readings) (g : Gaggia) (l : Locals)
    (h : ¬ (if l.state = ExtractingOneCup then (25 : ℚ) else 50) ≤ l.flowVolumeCorrected) :
    checkTargetVolume r g l = (g, l) := by
  unfold checkTargetVolume
  exact if_neg h

theorem checkUserExtraction_pos (r : Readings) (g : Gaggia) (l : Locals)
    (h : l.flowState = Flow.State.Flowing ∧ l.state ≠ Extracting
      ∧ l.state ≠ ExtractingOneCup ∧ l.state ≠ ExtractingTwoCups)
    (hidle : 5 ≤ g._idleTimer.getElapsed (r.clock 6)) :
    checkUserExtraction r g l =
      ({ g with
         _oldState := g._currentState
         _currentState := Extracting
         _extractionTimer := (g._extractionTimer.reset (r.clock 7)).start (r.clock 8) },
       { l with state := Extracting, extractionTimerRunning := true }) := by
  unfold checkUserExtraction
  rw [if_pos h]
  exact if_pos hidle

theorem checkUserExtraction_neg (r : Readings) (g : Gaggia) (l : Locals)
    (h : ¬ ((l.flowState = Flow.State.Flowing ∧ l.state ≠ Extracting
      ∧ l.state ≠ ExtractingOneCup ∧ l.state ≠ ExtractingTwoCups)
      ∧ 5 ≤ g._idleTimer.getElapsed (r.clock 6))) :
    checkUserExtraction r g l = (g, l) := by
  unfold checkUserExtraction
  by_cases h1 : l.flowState = Flow.State.Flowing ∧ l.state ≠ Extracting
      ∧ l.state ≠ ExtractingOneCup ∧ l.state ≠ ExtractingTwoCups
  · rw [if_pos h1]
    exact if_neg fun h2 => h ⟨h1, h2⟩
  · exact if_neg h1

theorem checkUserExtractionStopped_pos (r : Readings) (g : Gaggia) (l : Locals)
    (h : l.state = Extracting ∧ l.flowState ≠ Flow.State.Flowing) :
    checkUserExtractionStopped r g l =
      ({ g with
         _currentState := g._oldState
         _extractionTimer := g._extractionTimer.stop (r.clock 9)
         _idleTimer := (g._idleTimer.reset (r.clock 10)).start (r.clock 11) },
       { l with state := g._oldState, extractionTimerRunning := false }) := by
  unfold checkUserExtractionStopped
  exact if_pos h

theorem checkUserExtractionStopped_neg (r : Readings) (g : Gaggia) (l : Locals)
    (h : ¬ (l.state = Extracting ∧ l.flowState ≠ Flow.State.Flowing)) :
    checkUserExtractionStopped r g l = (g, l) := by
  unfold checkUserExtractionStopped
  exact if_neg h

theorem checkPreHeatingFinish_pos (cfg : Settings) (r : Readings) (g : Gaggia) (l : Locals)
    (h : l.state = Heating ∧ g._preHeatingTime ≤ l.systemTime) :
    checkPreHeatingFinish cfg r g l =
      _setRegulatorSettings cfg
        { g with
          _currentState := Active
          _idleTimer := (g._idleTimer.reset (r.clock 12)).start (r.clock 13) } := by
  unfold checkPreHeatingFinish
  exact if_pos h

theorem checkPreHeatingFinish_neg (cfg : Settings) (r : Readings) (g : Gaggia) (l : Locals)
    (h : ¬ (l.state = Heating ∧ g._preHeatingTime ≤ l.systemTime)) :
    checkPreHeatingFinish cfg r g l = g := by
  unfold checkPreHeatingFinish
  exact if_neg h

/-! `_setRegulatorSettings` writes the regulator only, and never its `_opened` flag. -/

@[simp] theorem _setRegulatorSettings_currentState (cfg : Settings) (g : Gaggia) :
    (_setRegulatorSettings cfg g)._currentState = g._currentState := rfl

@[simp] theorem _setRegulatorSettings_oldState (cfg : Settings) (g : Gaggia) :
    (_setRegulatorSettings cfg g)._oldState = g._oldState := rfl

@[simp] theorem _setRegulatorSettings_extractionTimer (cfg : Settings) (g : Gaggia) :
    (_setRegulatorSettings cfg g)._extractionTimer = g._extractionTimer := rfl

@[simp] theorem _setRegulatorSettings_idleTimer (cfg : Settings) (g : Gaggia) :
    (_setRegulatorSettings cfg g)._idleTimer = g._idleTimer := rfl

@[simp] theorem _setRegulatorSettings_systemTimer (cfg : Settings) (g : Gaggia) :
    (_setRegulatorSettings cfg g)._systemTimer = g._systemTimer := rfl

@[simp] theorem _setRegulatorSettings_pumpController (cfg : Settings) (g : Gaggia) :
    (_setRegulatorSettings cfg g)._pumpController = g._pumpController := rfl

@[simp] theorem _setRegulatorSettings_ready (cfg : Settings) (g : Gaggia) :
    (_setRegulatorSettings cfg g)._ready = g._ready := rfl

@[simp] theorem _setRegulatorSettings_run (cfg : Settings) (g : Gaggia) :
    (_setRegulatorSettings cfg g)._run = g._run := rfl

@[simp] theorem _setRegulatorSettings_preHeatingTime (cfg : Settings) (g : Gaggia) :
    (_setRegulatorSettings cfg g)._preHeatingTime = g._preHeatingTime := rfl

@[simp] theorem _setRegulatorSettings_opened (cfg : Settings) (g : Gaggia) :
    (_setRegulatorSettings cfg g)._regulator._opened = g._regulator._opened := by
  simp only [_setRegulatorSettings, Regulator.setPIDGains, Regulator.setTargetTemperature]
  split_ifs <;> simp_all

theorem checkAutomaticExtraction_reached (r : Readings) (g : Gaggia) (l : Locals)
    (hs : l.state = ExtractingOneCup ∨ l.state = ExtractingTwoCups)
    (ht : (if l.state = ExtractingOneCup then (25 : ℚ) else 50) ≤ l.flowVolumeCorrected) :
    checkAutomaticExtraction r g l =
      ({ g with
         _pumpController := g._pumpController.setPower false
         _extractionTimer := (checkExtractionOffset r g l).1._extractionTimer.stop (r.clock 3)
         _idleTimer := (g._idleTimer.reset (r.clock 4)).start (r.clock 5)
         _currentState := g._oldState },
       { l with pumpRunning := false, extractionTimerRunning := false, state := g._oldState }) := by
  rw [checkAutomaticExtraction_pos r g l hs]
  by_cases hC : l.extractionTimerRunning = false
      ∧ (if l.state = ExtractingOneCup then g._flowOffsetOneCup else g._flowOffsetTwoCups)
          ≤ l.flowVolume
      ∧ l.pumpRunning = true
  · rw [checkExtractionOffset_pos r g l hC, checkTargetVolume_pos]
    exact ht
  · rw [checkExtractionOffset_neg r g l hC, checkTargetVolume_pos]
    exact ht

theorem checkAutomaticExtraction_below (r : Readings) (g : Gaggia) (l : Locals)
    (hs : l.state = ExtractingOneCup ∨ l.state = ExtractingTwoCups)
    (ht : ¬ (if l.state = ExtractingOneCup then (25 : ℚ) else 50) ≤ l.flowVolumeCorrected) :
    checkAutomaticExtraction r g l = checkExtractionOffset r g l := by
  rw [checkAutomaticExtraction_pos r g l hs]
  by_cases hC : l.extractionTimerRunning = false
      ∧ (if l.state = ExtractingOneCup then g._flowOffsetOneCup else g._flowOffsetTwoCups)
          ≤ l.flowVolume
      ∧ l.pumpRunning = true
  · rw [checkExtractionOffset_pos r g l hC, checkTargetVolume_neg]
    exact ht
  · rw [checkExtractionOffset_neg r g l hC, checkTargetVolume_neg]
    exact ht

/-- The offset check writes the extraction timer only and keeps the copied state. -/
theorem checkExtractionOffset_frame (r : Readings) (g : Gaggia) (l : Locals) :
    checkExtractionOffset r g l =
      ({ g with _extractionTimer := (checkExtractionOffset r g l).1._extractionTimer },
       { l with
         extractionTimerRunning := (checkExtractionOffset r g l).2.extractionTimerRunning }) := by
  by_cases hC : l.extractionTimerRunning = false
      ∧ (if l.state = ExtractingOneCup then g._flowOffsetOneCup else g._flowOffsetTwoCups)
          ≤ l.flowVolume
      ∧ l.pumpRunning = true
  · rw [checkExtractionOffset_pos r g l hC]
  · rw [checkExtractionOffset_neg r g l hC]

/-- A tick in an automatic extraction below its target: only the offset check acts. -/
theorem worker_auto_below (cfg : Settings) (g : Gaggia) (r : Readings) (hrun : g._run = true)
    (hs : g._currentState = ExtractingOneCup ∨ g._currentState = ExtractingTwoCups)
    (ht : ¬ (if g._currentState = ExtractingOneCup then (25 : ℚ) else 50)
        ≤ (copyCurrentStates r g).flowVolumeCorrected) :
    _worker cfg g r = (checkExtractionOffset r g (copyCurrentStates r g)).1 := by
  have hne : (copyCurrentStates r g).state ≠ Steam := by
    rcases hs with h | h <;> simp [copyCurrentStates, h]
  rw [worker_of_run cfg g r hrun, flowControl_of_ne_steam r g _ hne,
    checkAutomaticExtraction_below r g _ hs ht, checkExtractionOffset_frame]
  rw [checkUserExtraction_neg, checkUserExtractionStopped_neg, checkPreHeatingFinish_neg]
  · rcases hs with h | h <;> simp [copyCurrentStates, h]
  · rcases hs with h | h <;> simp [copyCurrentStates, h]
  · rcases hs with h | h <;> simp [copyCurrentStates, h]

/-- A tick in which an automatic extraction reaches its target, when fewer than 5 s pass
between the restart of the idle timer and the debounce reading of the same tick. -/
theorem worker_auto_reached (cfg : Settings) (g : Gaggia) (r : Readings) (hrun : g._run = true)
    (hs : g._currentState = ExtractingOneCup ∨ g._currentState = ExtractingTwoCups)
    (ht : (if g._currentState = ExtractingOneCup then (25 : ℚ) else 50)
        ≤ (copyCurrentStates r g).flowVolumeCorrected)
    (hprompt : r.clock 6 - r.clock 5 < 5) :
    _worker cfg g r =
      if g._oldState = Extracting ∧ r.flowState ≠ Flow.State.Flowing then
        { (checkAutomaticExtraction r g (copyCurrentStates r g)).1 with
          _currentState := g._oldState
          _extractionTimer :=
            (checkAutomaticExtraction r g (copyCurrentStates r g)).1._extractionTimer.stop
              (r.clock 9)
          _idleTimer :=
            ((checkAutomaticExtraction r g (copyCurrentStates r g)).1._idleTimer.reset
              (r.clock 10)).start (r.clock 11) }
      else if g._oldState = Heating
          ∧ g._preHeatingTime ≤ g._systemTimer.getElapsed (r.clock 0) then
        _setRegulatorSettings cfg
          { (checkAutomaticExtraction r g (copyCurrentStates r g)).1 with
            _currentState := Active
            _idleTimer :=
              ((checkAutomaticExtraction r g (copyCurrentStates r g)).1._idleTimer.reset
                (r.clock 12)).start (r.clock 13) }
      else (checkAutomaticExtraction r g (copyCurrentStates r g)).1 := by
  have hne : (copyCurrentStates r g).state ≠ Steam := by
    rcases hs with h | h <;> simp [copyCurrentStates, h]
  have hA := checkAutomaticExtraction_reached r g (copyCurrentStates r g) hs ht
  rw [worker_of_run cfg g r hrun, flowControl_of_ne_steam r g _ hne]
  rw [checkUserExtraction_neg]
  · by_cases hS : g._oldState = Extracting ∧ r.flowState ≠ Flow.State.Flowing
    · rw [if_pos hS, checkUserExtractionStopped_pos, checkPreHeatingFinish_neg]
      · rw [hA]
      · rw [hA]; simp [hS.1]
      · rw [hA]; simpa [copyCurrentStates] using hS
    · rw [if_neg hS, checkUserExtractionStopped_neg]
      · by_cases hH : g._oldState = Heating
            ∧ g._preHeatingTime ≤ g._systemTimer.getElapsed (r.clock 0)
        · rw [if_pos hH, checkPreHeatingFinish_pos]
          rw [hA]; simpa [copyCurrentStates] using hH
        · rw [if_neg hH, checkPreHeatingFinish_neg]
          rw [hA]; simpa [copyCurrentStates] using hH
      · rw [hA]; simpa [copyCurrentStates] using hS
  · rw [hA]
    have : ¬ (5 ≤ r.clock 6 - r.clock 5) := not_le.mpr hprompt
    simp [this]

/-- A tick of a steaming controller changes nothing. -/
theorem worker_steam (cfg : Settings) (g : Gaggia) (r : Readings)
    (hs : g._currentState = Steam) : _worker cfg g r = g := by
  by_cases hrun : g._run = true
  · rw [worker_of_run cfg g r hrun,
      flowControl_steam r g _ (by simpa [copyCurrentStates] using hs),
      checkPreHeatingFinish_neg]
    simp [copyCurrentStates, hs]
  · simp [_worker, hrun]

/-- A tick during a user extraction with the water still flowing changes nothing. -/
theorem worker_extracting_flowing (cfg : Settings) (g : Gaggia) (r : Readings)
    (hs : g._currentState = Extracting) (hf : r.flowState = Flow.State.Flowing) :
    _worker cfg g r = g := by
  by_cases hrun : g._run = true
  · have hne : (copyCurrentStates r g).state ≠ Steam := by simp [copyCurrentStates, hs]
    rw [worker_of_run cfg g r hrun, flowControl_of_ne_steam r g _ hne,
      checkAutomaticExtraction_neg, checkUserExtraction_neg, checkUserExtractionStopped_neg,
      checkPreHeatingFinish_neg]
    · simp [copyCurrentStates, hs]
    · simp [copyCurrentStates, hf]
    · simp [copyCurrentStates, hs]
    · simp [copyCurrentStates, hs]
  · simp [_worker, hrun]

/-- A tick during a user extraction after the water stopped flowing. -/
theorem worker_extracting_stopped (cfg : Settings) (g : Gaggia) (r : Readings)
    (hrun : g._run = true) (hs : g._currentState = Extracting)
    (hf : r.flowState ≠ Flow.State.Flowing) :
    _worker cfg g r =
      if g._oldState = Heating ∧ g._preHeatingTime ≤ g._systemTimer.getElapsed (r.clock 0) then
        _setRegulatorSettings cfg
          { g with
            _currentState := Active
            _extractionTimer := g._extractionTimer.stop (r.clock 9)
            _idleTimer :=
              (((g._idleTimer.reset (r.clock 10)).start (r.clock 11)).reset (r.clock 12)).start
                (r.clock 13) }
      else
        { g with
          _currentState := g._oldState
          _extractionTimer := g._extractionTimer.stop (r.clock 9)
          _idleTimer := (g._idleTimer.reset (r.clock 10)).start (r.clock 11) } := by
  have hne : (copyCurrentStates r g).state ≠ Steam := by simp [copyCurrentStates, hs]
  rw [worker_of_run cfg g r hrun, flowControl_of_ne_steam r g _ hne,
    checkAutomaticExtraction_neg, checkUserExtraction_neg, checkUserExtractionStopped_pos]
  · by_cases hH : g._oldState = Heating
        ∧ g._preHeatingTime ≤ g._systemTimer.getElapsed (r.clock 0)
    · rw [if_pos hH, checkPreHeatingFinish_pos]
      simpa [copyCurrentStates] using hH
    · rw [if_neg hH, checkPreHeatingFinish_neg]
      simpa [copyCurrentStates] using hH
  · simpa [copyCurrentStates, hs] using hf
  · simp [copyCurrentStates, hs]
  · simp [copyCurrentStates, hs]

/-- The automatic-extraction check keeps the copied state equal to `_currentState`. -/
theorem checkAutomaticExtraction_sync (r : Readings) (g : Gaggia) (l : Locals)
    (h : l.state = g._currentState) :
    (checkAutomaticExtraction r g l).2.state
      = (checkAutomaticExtraction r g l).1._currentState := by
  by_cases hs : l.state = ExtractingOneCup ∨ l.state = ExtractingTwoCups
  · by_cases ht : (if l.state = ExtractingOneCup then (25 : ℚ) else 50) ≤ l.flowVolumeCorrected
    · rw [checkAutomaticExtraction_reached r g l hs ht]
    · rw [checkAutomaticExtraction_below r g l hs ht, checkExtractionOffset_frame]
      exact h
  · rw [checkAutomaticExtraction_neg r g l hs]
    exact h

/-- The automatic-extraction check leaves the copied flow state and system time alone. -/
theorem checkAutomaticExtraction_locals (r : Readings) (g : Gaggia) (l : Locals) :
    (checkAutomaticExtraction r g l).2.flowState = l.flowState
    ∧ (checkAutomaticExtraction r g l).2.systemTime = l.systemTime
    ∧ (checkAutomaticExtraction r g l).1._preHeatingTime = g._preHeatingTime := by
  by_cases hs : l.state = ExtractingOneCup ∨ l.state = ExtractingTwoCups
  · by_cases ht : (if l.state = ExtractingOneCup then (25 : ℚ) else 50) ≤ l.flowVolumeCorrected
    · rw [checkAutomaticExtraction_reached r g l hs ht]
      exact ⟨rfl, rfl, rfl⟩
    · rw [checkAutomaticExtraction_below r g l hs ht, checkExtractionOffset_frame]
      exact ⟨rfl, rfl, rfl⟩
  · rw [checkAutomaticExtraction_neg r g l hs]
    exact ⟨rfl, rfl, rfl⟩

/-! ### The sample controllers in closed form -/

theorem sampleHeating_eq :
    sampleHeating =
      { _ready := true
        _systemTimer := { _startTime := 0, _stopTime := 0, _running := true }
        _extractionTimer := { _startTime := 0, _stopTime := 0, _running := false }
        _idleTimer := { _startTime := 0, _stopTime := 0, _running := false }
        _regulator :=
          { _opened := true, _run := true, _power := true, _timeStep := 1, _latestTemp := 20,
            _latestPower := 0, _targetTemperature := 100, _dState := 0, _iState := 0,
            _iMax := 1, _iMin := 0, _iGain := 5 / 100, _pGain := 7 / 100, _dGain := 90 / 100 }
        _pumpController := { _opened := true, _power := false }
        _currentState := Heating
        _oldState := Heating
        _preHeatingTime := 30
        _flowOffsetOneCup := 15 / 2
        _flowOffsetTwoCups := 15
        _run := true } := by
  rfl

theorem sampleActive_eq :
    sampleActive =
      { _ready := true
        _systemTimer := { _startTime := 0, _stopTime := 0, _running := true }
        _extractionTimer := { _startTime := 0, _stopTime := 0, _running := false }
        _idleTimer := { _startTime := 31, _stopTime := 31, _running := true }
        _regulator :=
          { _opened := true, _run := true, _power := true, _timeStep := 1, _latestTemp := 20,
            _latestPower := 0, _targetTemperature := 93, _dState := 0, _iState := 0,
            _iMax := 1, _iMin := 0, _iGain := 5 / 100, _pGain := 7 / 100, _dGain := 90 / 100 }
        _pumpController := { _opened := true, _power := false }
        _currentState := Active
        _oldState := Heating
        _preHeatingTime := 30
        _flowOffsetOneCup := 15 / 2
        _flowOffsetTwoCups := 15
        _run := true } := by
  have h : (30 : ℚ) ≤ 31 := by norm_num
  simp [sampleActive, sampleHeating_eq, readingsAt, _worker, copyCurrentStates, flowControl,
    checkAutomaticExtraction, checkUserExtraction, checkUserExtractionStopped,
    checkPreHeatingFinish, _setRegulatorSettings, Settings.loadDefaults,
    Settings.getRegulatorSettings, Settings.getPreHeatingSettings, Regulator.setPIDGains,
    Regulator.setTargetTemperature, Timer.reset, Timer.start, Timer.getElapsed, h]

theorem sampleShot_eq :
    sampleShot =
      { _ready := true
        _systemTimer := { _startTime := 0, _stopTime := 0, _running := true }
        _extractionTimer := { _startTime := 40, _stopTime := 40, _running := false }
        _idleTimer := { _startTime := 31, _stopTime := 31, _running := true }
        _regulator :=
          { _opened := true, _run := true, _power := true, _timeStep := 1, _latestTemp := 20,
            _latestPower := 0, _targetTemperature := 93, _dState := 0, _iState := 0,
            _iMax := 1, _iMin := 0, _iGain := 5 / 100, _pGain := 7 / 100, _dGain := 90 / 100 }
        _pumpController := { _opened := true, _power := true }
        _currentState := ExtractingOneCup
        _oldState := Active
        _preHeatingTime := 30
        _flowOffsetOneCup := 15 / 2
        _flowOffsetTwoCups := 15
        _run := true } := by
  simp [sampleShot, sampleActive_eq, extractOneCup, Timer.reset, Pump.setPower]

theorem sampleEarlyShot_eq :
    sampleEarlyShot =
      { _ready := true
        _systemTimer := { _startTime := 0, _stopTime := 0, _running := true }
        _extractionTimer := { _startTime := 10, _stopTime := 10, _running := false }
        _idleTimer := { _startTime := 0, _stopTime := 0, _running := false }
        _regulator :=
          { _opened := true, _run := true, _power := true, _timeStep := 1, _latestTemp := 20,
            _latestPower := 0, _targetTemperature := 100, _dState := 0, _iState := 0,
            _iMax := 1, _iMin := 0, _iGain := 5 / 100, _pGain := 7 / 100, _dGain := 90 / 100 }
        _pumpController := { _opened := true, _power := true }
        _currentState := ExtractingOneCup
        _oldState := Heating
        _preHeatingTime := 30
        _flowOffsetOneCup := 15 / 2
        _flowOffsetTwoCups := 15
        _run := true } := by
  rfl

theorem sampleReheatedBrew_eq :
    sampleReheatedBrew =
      { _ready := true
        _systemTimer := { _startTime := 0, _stopTime := 0, _running := true }
        _extractionTimer := { _startTime := 40, _stopTime := 40, _running := true }
        _idleTimer := { _startTime := 31, _stopTime := 31, _running := true }
        _regulator :=
          { _opened := true, _run := true, _power := true, _timeStep := 1, _latestTemp := 20,
            _latestPower := 0, _targetTemperature := 93, _dState := 0, _iState := 0,
            _iMax := 1, _iMin := 0, _iGain := 5 / 100, _pGain := 7 / 100, _dGain := 90 / 100 }
        _pumpController := { _opened := true, _power := false }
        _currentState := Extracting
        _oldState := Heating
        _preHeatingTime := 30
        _flowOffsetOneCup := 15 / 2
        _flowOffsetTwoCups := 15
        _run := true } := by
  have h : (5 : ℚ) ≤ 40 - 31 := by norm_num
  have h1 : _worker Settings.loadDefaults sampleHeating (readingsAt 31 .Stopped 0)
      = sampleActive := rfl
  simp only [sampleReheatedBrew, run, List.foldl, step, h1]
  simp [sampleActive_eq, powerRegulator, Regulator.setPower, readingsAt, _worker,
    copyCurrentStates, flowControl,
    checkAutomaticExtraction, checkUserExtraction, checkUserExtractionStopped,
    checkPreHeatingFinish, Timer.reset, Timer.start, Timer.getElapsed, h]

/-- The extraction timer after the offset check of a tick. -/
theorem checkExtractionOffset_timer (r : Readings) (g : Gaggia) :
    (checkExtractionOffset r g (copyCurrentStates r g)).1._extractionTimer =
      if g._extractionTimer.isRunning = false
          ∧ (if g._currentState = ExtractingOneCup then g._flowOffsetOneCup
             else g._flowOffsetTwoCups) ≤ r.flowVolume
          ∧ g._pumpController.getPower = true
      then (g._extractionTimer.reset (r.clock 1)).start (r.clock 2)
      else g._extractionTimer := by
  by_cases hC : g._extractionTimer.isRunning = false
      ∧ (if g._currentState = ExtractingOneCup then g._flowOffsetOneCup
         else g._flowOffsetTwoCups) ≤ r.flowVolume
      ∧ g._pumpController.getPower = true
  · rw [if_pos hC, checkExtractionOffset_pos r g _ hC]
  · rw [if_neg hC, checkExtractionOffset_neg r g _ hC]

/-- The corrected volume copied by a tick of an automatic extraction. -/
theorem copyCurrentStates_corrected (r : Readings) (g : Gaggia)
    (hs : g._currentState = ExtractingOneCup ∨ g._currentState = ExtractingTwoCups) :
    (copyCurrentStates r g).flowVolumeCorrected
      = r.flowVolume - (if g._currentState = ExtractingOneCup then g._flowOffsetOneCup
          else g._flowOffsetTwoCups) := by
  rcases hs with h | h <;> simp [copyCurrentStates, h]

/-- The rest of a tick after the automatic-extraction check, entered in a state that is not
an extraction state: the user-extraction check decides alone whether the tick ends in
`Extracting`. -/
theorem userExtraction_tail (cfg : Settings) (r : Readings) (g : Gaggia) (l : Locals)
    (hsync : l.state = g._currentState)
    (hs : l.state ≠ Extracting ∧ l.state ≠ ExtractingOneCup
      ∧ l.state ≠ ExtractingTwoCups) :
    ((checkPreHeatingFinish cfg r
        (checkUserExtractionStopped r (checkUserExtraction r g l).1
          (checkUserExtraction r g l).2).1
        (checkUserExtractionStopped r (checkUserExtraction r g l).1
          (checkUserExtraction r g l).2).2)._currentState = Extracting
      ↔ l.flowState = Flow.State.Flowing ∧ 5 ≤ g._idleTimer.getElapsed (r.clock 6))
    ∧ (l.flowState = Flow.State.Flowing → 5 ≤ g._idleTimer.getElapsed (r.clock 6) →
        checkPreHeatingFinish cfg r
          (checkUserExtractionStopped r (checkUserExtraction r g l).1
            (checkUserExtraction r g l).2).1
          (checkUserExtractionStopped r (checkUserExtraction r g l).1
            (checkUserExtraction r g l).2).2
        = { g with
            _oldState := g._currentState
            _currentState := Extracting
            _extractionTimer := (g._extractionTimer.reset (r.clock 7)).start (r.clock 8) }) := by
  have hentry : l.flowState = Flow.State.Flowing → 5 ≤ g._idleTimer.getElapsed (r.clock 6) →
      checkPreHeatingFinish cfg r
        (checkUserExtractionStopped r (checkUserExtraction r g l).1
          (checkUserExtraction r g l).2).1
        (checkUserExtractionStopped r (checkUserExtraction r g l).1
          (checkUserExtraction r g l).2).2
      = { g with
          _oldState := g._currentState
          _currentState := Extracting
          _extractionTimer := (g._extractionTimer.reset (r.clock 7)).start (r.clock 8) } := by
    intro hf hi
    rw [checkUserExtraction_pos r g l ⟨hf, hs⟩ hi, checkUserExtractionStopped_neg,
      checkPreHeatingFinish_neg]
    · simp
    · simp [hf]
  refine ⟨⟨fun h => ?_, fun h => ?_⟩, hentry⟩
  · by_contra hno
    have hno2 : ¬ ((l.flowState = Flow.State.Flowing ∧ l.state ≠ Extracting
        ∧ l.state ≠ ExtractingOneCup ∧ l.state ≠ ExtractingTwoCups)
        ∧ 5 ≤ g._idleTimer.getElapsed (r.clock 6)) := fun hc => hno ⟨hc.1.1, hc.2⟩
    rw [checkUserExtraction_neg r g l hno2, checkUserExtractionStopped_neg] at h
    · by_cases hH : l.state = Heating ∧ g._preHeatingTime ≤ l.systemTime
      · rw [checkPreHeatingFinish_pos cfg r g l hH] at h
        simp at h
      · rw [checkPreHeatingFinish_neg cfg r g l hH] at h
        exact hs.1 (hsync.trans h)
    · simp [hs.1]
  · rw [hentry h.1 h.2]

/-! ### The extraction timer along the steps other than `powerRegulator` -/

theorem checkAutomaticExtraction_inv (r : Readings) (g : Gaggia) (l : Locals)
    (hsync : l.state = g._currentState) (hinv : ExtractionTimerInv g) :
    ExtractionTimerInv (checkAutomaticExtraction r g l).1 := by
  by_cases hs : l.state = ExtractingOneCup ∨ l.state = ExtractingTwoCups
  · by_cases ht : (if l.state = ExtractingOneCup then (25 : ℚ) else 50) ≤ l.flowVolumeCorrected
    · rw [checkAutomaticExtraction_reached r g l hs ht]
      intro h
      simp at h
    · rw [checkAutomaticExtraction_below r g l hs ht, checkExtractionOffset_frame]
      intro _
      rw [hsync] at hs
      exact Or.inr hs
  · rw [checkAutomaticExtraction_neg r g l hs]
    exact hinv

theorem checkUserExtraction_inv (r : Readings) (g : Gaggia) (l : Locals)
    (hsync : l.state = g._currentState) (hinv : ExtractionTimerInv g) :
    (checkUserExtraction r g l).2.state = (checkUserExtraction r g l).1._currentState
      ∧ ExtractionTimerInv (checkUserExtraction r g l).1 := by
  by_cases h : (l.flowState = Flow.State.Flowing ∧ l.state ≠ Extracting
      ∧ l.state ≠ ExtractingOneCup ∧ l.state ≠ ExtractingTwoCups)
      ∧ 5 ≤ g._idleTimer.getElapsed (r.clock 6)
  · rw [checkUserExtraction_pos r g l h.1 h.2]
    exact ⟨rfl, fun _ => Or.inl rfl⟩
  · rw [checkUserExtraction_neg r g l h]
    exact ⟨hsync, hinv⟩

theorem checkUserExtractionStopped_inv (r : Readings) (g : Gaggia) (l : Locals)
    (hsync : l.state = g._currentState) (hinv : ExtractionTimerInv g) :
    (checkUserExtractionStopped r g l).2.state
        = (checkUserExtractionStopped r g l).1._currentState
      ∧ ExtractionTimerInv (checkUserExtractionStopped r g l).1 := by
  by_cases h : l.state = Extracting ∧ l.flowState ≠ Flow.State.Flowing
  · rw [checkUserExtractionStopped_pos r g l h]
    refine ⟨rfl, fun h => ?_⟩
    simp at h
  · rw [checkUserExtractionStopped_neg r g l h]
    exact ⟨hsync, hinv⟩

theorem checkPreHeatingFinish_inv (cfg : Settings) (r : Readings) (g : Gaggia) (l : Locals)
    (hsync : l.state = g._currentState) (hinv : ExtractionTimerInv g) :
    ExtractionTimerInv (checkPreHeatingFinish cfg r g l) := by
  by_cases h : l.state = Heating ∧ g._preHeatingTime ≤ l.systemTime
  · rw [checkPreHeatingFinish_pos cfg r g l h]
    intro hrun
    have hcur : g._currentState = Heating := hsync.symm.trans h.1
    have := hinv (by simpa using hrun)
    rw [hcur] at this
    simp at this
  · rw [checkPreHeatingFinish_neg cfg r g l h]
    exact hinv

/-- A worker iteration keeps the relation between extraction timer and state. -/
theorem worker_inv (cfg : Settings) (g : Gaggia) (r : Readings) (hinv : ExtractionTimerInv g) :
    ExtractionTimerInv (_worker cfg g r) := by
  by_cases hrun : g._run = true
  · by_cases hs : g._currentState = Steam
    · rw [worker_steam cfg g r hs]
      exact hinv
    · rw [worker_of_run cfg g r hrun,
        flowControl_of_ne_steam r g _ (by simpa [copyCurrentStates] using hs)]
      have h1 := checkAutomaticExtraction_inv r g (copyCurrentStates r g) rfl hinv
      have s1 := checkAutomaticExtraction_sync r g (copyCurrentStates r g) rfl
      have h2 := checkUserExtraction_inv r _ _ s1 h1
      have h3 := checkUserExtractionStopped_inv r _ _ h2.1 h2.2
      exact checkPreHeatingFinish_inv cfg r _ _ h3.1 h3.2
  · have : _worker cfg g r = g := by simp [_worker, hrun]
    rw [this]
    exact hinv

/-- The constructor leaves the extraction timer stopped. -/
theorem new_extractionTimer (hw : Hardware) (cfg : Settings) (clock : ℕ → ℚ) (a : Bool) :
    (Gaggia.new hw cfg clock a)._extractionTimer.isRunning = false := by
  obtain ⟨h1, h2, h3, h4, h5, h6, h7⟩ := hw
  cases h1 <;> cases h2 <;> cases h3 <;> cases h4 <;> cases h5 <;> cases h6 <;>
    cases h7 <;> cases a <;> rfl

/-- Every step other than `powerRegulator` keeps the relation between extraction timer and
state. -/
theorem step_inv (cfg : Settings) (g : Gaggia) (s : Step) (hs : s.isPowerRegulator = false)
    (hinv : ExtractionTimerInv g) : ExtractionTimerInv (step cfg g s) := by
  cases s with
  | powerRegulator power => simp [Step.isPowerRegulator] at hs
  | extractOneCup clock =>
    simp only [step, extractOneCup]
    split_ifs
    · exact hinv
    · exact hinv
    · intro h
      simp at h
  | extractTwoCups clock =>
    simp only [step, extractTwoCups]
    split_ifs
    · exact hinv
    · exact hinv
    · intro h
      simp at h
  | setSteamMode steam =>
    simp only [step, setSteamMode]
    by_cases h1 : (!g._ready) = true
    · rw [if_pos h1]
      exact hinv
    · rw [if_neg h1]
      by_cases h2 : g._currentState = Deactivated ∨ g._currentState = Extracting
          ∨ g._currentState = ExtractingOneCup ∨ g._currentState = ExtractingTwoCups
      · rw [if_pos h2]
        exact hinv
      · rw [if_neg h2]
        intro h
        have hrun : g._extractionTimer.isRunning = true := by
          cases steam <;> simpa using h
        rcases hinv hrun with h3 | h3 | h3
        · exact absurd (Or.inr (Or.inl h3)) h2
        · exact absurd (Or.inr (Or.inr (Or.inl h3))) h2
        · exact absurd (Or.inr (Or.inr (Or.inr h3))) h2
  | worker r => exact worker_inv cfg g r hinv

/-- In every state reached from construction by `extractOneCup`, `extractTwoCups`,
`setSteamMode` and worker iterations - no `powerRegulator` among them - a running extraction
timer goes with an extraction state. -/
theorem run_inv_without_powerRegulator (hw : Hardware) (cfg : Settings) (clock : ℕ → ℚ)
    (a : Bool) (steps : List Step) (hsteps : ∀ s ∈ steps, s.isPowerRegulator = false) :
    ExtractionTimerInv (run cfg (Gaggia.new hw cfg clock a) steps) := by
  have hgen : ∀ (steps : List Step) (g : Gaggia),
      (∀ s ∈ steps, s.isPowerRegulator = false) →
      ExtractionTimerInv g → ExtractionTimerInv (run cfg g steps) := by
    intro steps
    induction steps with
    | nil => intro g _ hinv; exact hinv
    | cons s rest ih =>
      intro g hs hinv
      have h1 := step_inv cfg g s (hs s (List.mem_cons_self s rest)) hinv
      exact ih (step cfg g s) (fun t ht => hs t (List.mem_cons_of_mem s ht)) h1
  refine hgen steps _ hsteps ?_
  intro h
  rw [new_extractionTimer] at h
  exact absurd h (by decide)

/-- The constructor reports ready only for an operational controller. -/
theorem new_operational (hw : Hardware) (cfg : Settings) (clock : ℕ → ℚ) (a : Bool)
    (h : (Gaggia.new hw cfg clock a)._ready = true) :
    Operational (Gaggia.new hw cfg clock a) := by
  unfold Gaggia.new _initialize at h ⊢
  simp only [Operational]
  by_cases h1 : hw.logger <;> by_cases h2 : hw.gpio <;> by_cases h3 : hw.tsic <;>
    by_cases h4 : hw.boiler <;> by_cases h5 : hw.pump <;> by_cases h6 : hw.tank <;>
    by_cases h7 : hw.flow <;> cases a <;>
    simp_all [initializers, Pump.new, Pump.ready, Regulator.new, Regulator.ready,
      _setRegulatorSettings, Regulator.setPower, Regulator.setPIDGains,
      Regulator.setTargetTemperature]

/-! ### Readiness along the steps -/

theorem pump_setPower_opened (p : Pump) (b : Bool) : (p.setPower b)._opened = p._opened := by
  unfold Pump.setPower
  split_ifs <;> rfl

theorem checkAutomaticExtraction_operational (r : Readings) (g : Gaggia) (l : Locals)
    (h : Operational g) : Operational (checkAutomaticExtraction r g l).1 := by
  by_cases hs : l.state = ExtractingOneCup ∨ l.state = ExtractingTwoCups
  · by_cases ht : (if l.state = ExtractingOneCup then (25 : ℚ) else 50) ≤ l.flowVolumeCorrected
    · rw [checkAutomaticExtraction_reached r g l hs ht]
      exact ⟨h.1, h.2.1, (pump_setPower_opened _ _).trans h.2.2.1, h.2.2.2⟩
    · rw [checkAutomaticExtraction_below r g l hs ht, checkExtractionOffset_frame]
      exact h
  · rw [checkAutomaticExtraction_neg r g l hs]
    exact h

theorem checkUserExtraction_operational (r : Readings) (g : Gaggia) (l : Locals)
    (h : Operational g) : Operational (checkUserExtraction r g l).1 := by
  by_cases hc : (l.flowState = Flow.State.Flowing ∧ l.state ≠ Extracting
      ∧ l.state ≠ ExtractingOneCup ∧ l.state ≠ ExtractingTwoCups)
      ∧ 5 ≤ g._idleTimer.getElapsed (r.clock 6)
  · rw [checkUserExtraction_pos r g l hc.1 hc.2]
    exact h
  · rw [checkUserExtraction_neg r g l hc]
    exact h

theorem checkUserExtractionStopped_operational (r : Readings) (g : Gaggia) (l : Locals)
    (h : Operational g) : Operational (checkUserExtractionStopped r g l).1 := by
  by_cases hc : l.state = Extracting ∧ l.flowState ≠ Flow.State.Flowing
  · rw [checkUserExtractionStopped_pos r g l hc]
    exact h
  · rw [checkUserExtractionStopped_neg r g l hc]
    exact h

theorem checkPreHeatingFinish_operational (cfg : Settings) (r : Readings) (g : Gaggia)
    (l : Locals) (h : Operational g) : Operational (checkPreHeatingFinish cfg r g l) := by
  by_cases hc : l.state = Heating ∧ g._preHeatingTime ≤ l.systemTime
  · rw [checkPreHeatingFinish_pos cfg r g l hc]
    exact ⟨h.1, h.2.1, h.2.2.1, (_setRegulatorSettings_opened cfg _).trans h.2.2.2⟩
  · rw [checkPreHeatingFinish_neg cfg r g l hc]
    exact h

/-- A worker iteration of an operational controller leaves it operational. -/
theorem worker_operational (cfg : Settings) (g : Gaggia) (r : Readings) (h : Operational g) :
    Operational (_worker cfg g r) := by
  by_cases hs : g._currentState = Steam
  · rw [worker_steam cfg g r hs]
    exact h
  · rw [worker_of_run cfg g r h.2.1,
      flowControl_of_ne_steam r g _ (by simpa [copyCurrentStates] using hs)]
    exact checkPreHeatingFinish_operational cfg r _ _
      (checkUserExtractionStopped_operational r _ _
        (checkUserExtraction_operational r _ _
          (checkAutomaticExtraction_operational r g _ h)))

/-- Every step of an operational controller leaves it operational. -/
theorem step_operational (cfg : Settings) (g : Gaggia) (s : Step) (h : Operational g) :
    Operational (step cfg g s) := by
  obtain ⟨hr, hrun, hp, hreg⟩ := h
  cases s with
  | powerRegulator power =>
    cases power <;>
      simp [step, powerRegulator, Operational, hr, hrun, hp, hreg, Regulator.setPower]
  | extractOneCup clock =>
    simp only [step, extractOneCup]
    split_ifs
    · exact ⟨hr, hrun, hp, hreg⟩
    · exact ⟨hr, hrun, hp, hreg⟩
    · exact ⟨hr, hrun, (pump_setPower_opened _ _).trans hp, hreg⟩
  | extractTwoCups clock =>
    simp only [step, extractTwoCups]
    split_ifs
    · exact ⟨hr, hrun, hp, hreg⟩
    · exact ⟨hr, hrun, hp, hreg⟩
    · exact ⟨hr, hrun, (pump_setPower_opened _ _).trans hp, hreg⟩
  | setSteamMode steam =>
    simp only [step, setSteamMode]
    by_cases h1 : (!g._ready) = true
    · rw [if_pos h1]
      exact ⟨hr, hrun, hp, hreg⟩
    · rw [if_neg h1]
      by_cases h2 : g._currentState = Deactivated ∨ g._currentState = Extracting
          ∨ g._currentState = ExtractingOneCup ∨ g._currentState = ExtractingTwoCups
      · rw [if_pos h2]
        exact ⟨hr, hrun, hp, hreg⟩
      · rw [if_neg h2]
        cases steam
        · exact ⟨hr, hrun, hp, (_setRegulatorSettings_opened cfg _).trans hreg⟩
        · exact ⟨hr, hrun, hp, (_setRegulatorSettings_opened cfg _).trans hreg⟩
  | worker r => exact worker_operational cfg g r ⟨hr, hrun, hp, hreg⟩

/-- Every state reached from a ready constructed controller is operational. -/
theorem run_operational (hw : Hardware) (cfg : Settings) (clock : ℕ → ℚ) (a : Bool)
    (steps : List Step) (h : (Gaggia.new hw cfg clock a)._ready = true) :
    Operational (run cfg (Gaggia.new hw cfg clock a) steps) := by
  have hgen : ∀ (steps : List Step) (g : Gaggia), Operational g →
      Operational (run cfg g steps) := by
    intro steps
    induction steps with
    | nil => intro g hg; exact hg
    | cons s rest ih => intro g hg; exact ih (step cfg g s) (step_operational cfg g s hg)
  exact hgen steps _ (new_operational hw cfg clock a h)

end Gaggia

/-! ## The regulator loop -/

namespace Regulator

/-- The integral accumulator that `_update` leaves behind, in closed form. -/
theorem _update_iState (r : Regulator) (error position iGain pGain dGain : ℚ) :
    (r._update error position iGain pGain dGain).2._iState
      = if r._iState + error > r._iMax then r._iMax
        else if r._iState + error < r._iMin then r._iMin else r._iState + error := rfl

/-- `_update` keeps the accumulator between the limits when these are ordered. -/
theorem _update_iState_bounds (r : Regulator) (error position iGain pGain dGain : ℚ)
    (h : r._iMin ≤ r._iMax) :
    r._iMin ≤ (r._update error position iGain pGain dGain).2._iState
      ∧ (r._update error position iGain pGain dGain).2._iState ≤ r._iMax := by
  rw [_update_iState]
  split_ifs with h1 h2
  · exact ⟨h, le_refl _⟩
  · exact ⟨le_refl _, h⟩
  · exact ⟨not_lt.mp h2, not_lt.mp h1⟩

/-- `_update` writes `_iState` and `_dState` only. -/
theorem _update_limits (r : Regulator) (error position iGain pGain dGain : ℚ) :
    (r._update error position iGain pGain dGain).2._iMin = r._iMin
      ∧ (r._update error position iGain pGain dGain).2._iMax = r._iMax
      ∧ (r._update error position iGain pGain dGain).2._opened = r._opened
      ∧ (r._update error position iGain pGain dGain).2._run = r._run :=
  ⟨rfl, rfl, rfl, rfl⟩

/-- The three-way limiter of `_update` is the usual clamp when the limits are ordered. -/
theorem clamp_eq (x lo hi : ℚ) (h : lo ≤ hi) :
    (if x > hi then hi else if x < lo then lo else x) = clamp x lo hi := by
  unfold clamp
  split_ifs with h1 h2
  · rw [min_eq_right (le_of_lt h1), max_eq_right h]
  · rw [min_eq_left (not_lt.mp h1), max_eq_left (le_of_lt h2)]
  · rw [min_eq_left (not_lt.mp h1), max_eq_right (not_lt.mp h2)]

/-- An iteration with the power flag set and a reading above 0.5 degrees. -/
theorem _worker_pos (l : Loop) (reading : ℚ × Bool) (clock : ℚ)
    (hrun : l.regulator._run = true)
    (h : l.regulator._power = true ∧ (if !reading.2 then 0 else reading.1) > 1 / 2) :
    _worker l reading clock =
      _workerOutput
        (l.regulator._update
          (l.regulator._targetTemperature - (if !reading.2 then 0 else reading.1))
          (if !reading.2 then 0 else reading.1)
          l.regulator._iGain l.regulator._pGain l.regulator._dGain).2
        l.boiler (l.next + l.regulator._timeStep)
        (l.regulator._update
          (l.regulator._targetTemperature - (if !reading.2 then 0 else reading.1))
          (if !reading.2 then 0 else reading.1)
          l.regulator._iGain l.regulator._pGain l.regulator._dGain).1
        (if !reading.2 then 0 else reading.1) clock := by
  unfold _worker
  rw [if_neg (by simp [hrun])]
  exact if_pos h

/-- An iteration with the power flag off or a reading that is invalid or at most 0.5. -/
theorem _worker_neg (l : Loop) (reading : ℚ × Bool) (clock : ℚ)
    (hrun : l.regulator._run = true)
    (h : ¬ (l.regulator._power = true ∧ (if !reading.2 then 0 else reading.1) > 1 / 2)) :
    _worker l reading clock =
      _workerOutput l.regulator l.boiler l.next 0 (if !reading.2 then 0 else reading.1)
        clock := by
  unfold _worker
  rw [if_neg (by simp [hrun])]
  exact if_neg h

/-- The drive that `_workerOutput` hands to the boiler lies between 0 and 1, and an opened
boiler stores it. -/
theorem _workerOutput_drive (r : Regulator) (b : Boiler) (next drive latestTemp clock : ℚ) :
    (_workerOutput r b next drive latestTemp clock).drive = clamp drive 0 1
      ∧ 0 ≤ (_workerOutput r b next drive latestTemp clock).drive
      ∧ (_workerOutput r b next drive latestTemp clock).drive ≤ 1
      ∧ (_workerOutput r b next drive latestTemp clock).boiler
          = b.setPower (_workerOutput r b next drive latestTemp clock).drive
      ∧ (_workerOutput r b next drive latestTemp clock).regulator._latestPower
          = (_workerOutput r b next drive latestTemp clock).drive := by
  have h : (_workerOutput r b next drive latestTemp clock).drive
      = if drive > 1 then 1 else if drive < 0 then 0 else drive := rfl
  refine ⟨?_, ?_, ?_, rfl, rfl⟩
  · rw [h, clamp_eq drive 0 1 zero_le_one]
  · rw [h]
    split_ifs with h1 h2
    · exact zero_le_one
    · exact le_refl _
    · exact not_lt.mp h2
  · rw [h]
    split_ifs with h1 h2
    · exact le_refl _
    · exact zero_le_one
    · exact not_lt.mp h1

/-- An opened boiler stores a value between 0 and 1 as it is. -/
theorem boiler_setPower_of_mem (b : Boiler) (v : ℚ) (hb : b._opened = true)
    (h0 : 0 ≤ v) (h1 : v ≤ 1) :
    (b.setPower v)._pwmCurrentPower = v ∧ (b.setPower v).getPower = v
      ∧ (b.setPower v)._opened = true := by
  simp [Boiler.setPower, Boiler.getPower, hb, not_lt.mpr h0, not_lt.mpr h1]

/-- Every step of the loop keeps `IntegralInv`. -/
theorem step_integralInv (l : Loop) (s : Step) (h : IntegralInv l.regulator) :
    IntegralInv (step l s).regulator := by
  cases s with
  | iterate reading clock =>
    show IntegralInv (_worker l reading clock).regulator
    by_cases hrun : l.regulator._run = true
    · by_cases hc : l.regulator._power = true ∧ (if !reading.2 then 0 else reading.1) > 1 / 2
      · rw [_worker_pos l reading clock hrun hc]
        obtain ⟨h1, h2, h3, h4⟩ := h
        have hb := _update_iState_bounds l.regulator
          (l.regulator._targetTemperature - (if !reading.2 then 0 else reading.1))
          (if !reading.2 then 0 else reading.1)
          l.regulator._iGain l.regulator._pGain l.regulator._dGain (le_trans h3 h4)
        exact ⟨h1, h2, hb.1, hb.2⟩
      · rw [_worker_neg l reading clock hrun hc]
        exact h
    · unfold _worker
      rw [if_pos (by simpa using hrun)]
      exact h
  | setPIDGains p i d =>
    show IntegralInv (l.regulator.setPIDGains p i d)
    unfold setPIDGains
    split_ifs
    · exact h
    · exact h
  | setTargetTemperature t =>
    show IntegralInv (l.regulator.setTargetTemperature t)
    unfold setTargetTemperature
    split_ifs
    · exact h
    · exact h
  | setPower power =>
    show IntegralInv (l.regulator.setPower power)
    unfold setPower
    split_ifs
    · exact h
    · exact h

/-- Every run of the loop keeps `IntegralInv`. -/
theorem run_integralInv (steps : List Step) (l : Loop) (h : IntegralInv l.regulator) :
    IntegralInv (run l steps).regulator := by
  induction steps generalizing l with
  | nil => exact h
  | cons s rest ih => exact ih (step l s) (step_integralInv l s h)

/-- The opened regulator starts with `IntegralInv`. -/
theorem new_integralInv : IntegralInv (Regulator.new true true) := by
  simp [IntegralInv, Regulator.new]

end Regulator

/-! ## The temperature sensor -/

namespace TSIC

set_option maxRecDepth 100000 in
/-- `parity8` is the exclusive or of the eight bits of a byte. -/
theorem parity8_eq : ∀ d < 256, parity8 d = xorOfBits d := by decide

set_option maxRecDepth 100000 in
/-- The prefix test of `tsicDecode` on a byte. -/
theorem prefix_eq : ∀ d < 256, (d &&& 0xF8 = 0 ↔ d / 8 % 32 = 0) := by decide

theorem shiftLeft_one_or (w : ℕ) : (w <<< 1) ||| 1 = 2 * w + 1 := by
  rw [Nat.shiftLeft_eq, mul_comm]
  exact (Nat.mul_add_lt_is_or (by decide : 1 < 2 ^ 1) w).symm

theorem shiftLeft_eight_or (a b : ℕ) (h : b < 256) : (a <<< 8) ||| b = 256 * a + b := by
  rw [Nat.shiftLeft_eq, mul_comm]
  exact (Nat.mul_add_lt_is_or (by simpa using h : b < 2 ^ 8) a).symm

theorem int32_eq (x : ℤ) (h1 : -2 ^ 31 ≤ x) (h2 : x < 2 ^ 31) : int32 x = x := by
  unfold int32
  omega

/-- The conversion of `tsicDecode` for an 11-bit raw value: no `int` operation overflows. -/
theorem decode_arith (raw : ℕ) (h : raw ≤ 2047) :
    int32 (Int.tdiv (int32 (int32 ((MAX_TEMP - MIN_TEMP) * SCALE_FACTOR) * int32 (raw : ℤ)))
        2047 + int32 (MIN_TEMP * SCALE_FACTOR))
      = Int.tdiv (200000 * (raw : ℤ)) 2047 - 50000 := by
  have e1 : int32 ((MAX_TEMP - MIN_TEMP) * SCALE_FACTOR) = 200000 := by decide
  have e2 : int32 (MIN_TEMP * SCALE_FACTOR) = -50000 := by decide
  have e3 : int32 (raw : ℤ) = raw := int32_eq _ (by omega) (by omega)
  have e4 : int32 (200000 * (raw : ℤ)) = 200000 * raw := int32_eq _ (by omega) (by omega)
  have e5 : Int.tdiv (200000 * (raw : ℤ)) 2047 = 200000 * (raw : ℤ) / 2047 :=
    Int.tdiv_eq_ediv (by omega) (by decide)
  rw [e1, e2, e3, e4, e5]
  apply int32_eq <;> omega

/-- The converted value of an 11-bit raw value lies in the range of the sensor. -/
theorem decode_range (raw : ℕ) (h : raw ≤ 2047) :
    Int.tdiv (200000 * (raw : ℤ)) 2047 - 50000 ≥ MIN_TEMP * SCALE_FACTOR
      ∧ Int.tdiv (200000 * (raw : ℤ)) 2047 - 50000 ≤ MAX_TEMP * SCALE_FACTOR := by
  have e5 : Int.tdiv (200000 * (raw : ℤ)) 2047 = 200000 * (raw : ℤ) / 2047 :=
    Int.tdiv_eq_ediv (by omega) (by decide)
  have e6 : MIN_TEMP * SCALE_FACTOR = -50000 := by decide
  have e7 : MAX_TEMP * SCALE_FACTOR = 150000 := by decide
  rw [e5, e6, e7]
  constructor <;> omega

/-- `tsicDecode` on two 9-bit fields, in closed form. -/
theorem tsicDecode_eq (p0 p1 : ℕ) (h0 : p0 < 512) (h1 : p1 < 512) :
    tsicDecode p0 p1 =
      if p0 % 2 = xorOfBits (p0 >>> 1) ∧ p1 % 2 = xorOfBits (p1 >>> 1)
          ∧ (p0 >>> 1) / 8 % 32 = 0 then
        Int.tdiv ((200000 : ℤ) * ((256 * (p0 >>> 1) + (p1 >>> 1) : ℕ) : ℤ)) 2047 - 50000
      else INVALID_TEMP := by
  have hd0 : p0 >>> 1 < 256 := by
    rw [Nat.shiftRight_eq_div_pow]
    omega
  have hd1 : p1 >>> 1 < 256 := by
    rw [Nat.shiftRight_eq_div_pow]
    omega
  unfold tsicDecode
  simp only [Nat.and_one_is_mod, parity8_eq _ hd0, parity8_eq _ hd1]
  by_cases hp0 : p0 % 2 = xorOfBits (p0 >>> 1)
  · by_cases hp1 : p1 % 2 = xorOfBits (p1 >>> 1)
    · by_cases hpre : (p0 >>> 1) / 8 % 32 = 0
      · have hand : (p0 >>> 1) &&& 0xF8 = 0 := (prefix_eq _ hd0).2 hpre
        have hraw : 256 * (p0 >>> 1) + (p1 >>> 1) ≤ 2047 := by omega
        rw [shiftLeft_eight_or _ _ hd1, decode_arith _ hraw, if_neg, if_neg,
          if_pos (decode_range _ hraw), if_pos ⟨hp0, hp1, hpre⟩]
        · exact fun h => h hand
        · simp [hp0, hp1]
      · have hand : ¬ (p0 >>> 1) &&& 0xF8 = 0 := fun h => hpre ((prefix_eq _ hd0).1 h)
        rw [if_neg, if_pos hand, if_neg (fun h => hpre h.2.2)]
        simp [hp0, hp1]
    · rw [if_pos, if_neg (fun h => hp1 h.2.1)]
      simp [hp1]
  · rw [if_pos, if_neg (fun h => hp0 h.1)]
    simp [hp0]

/-- A decoded temperature is never the marker `INVALID_TEMP`. -/
theorem decode_ne_invalid (raw : ℕ) (h : raw ≤ 2047) :
    Int.tdiv (200000 * (raw : ℤ)) 2047 - 50000 ≠ INVALID_TEMP := by
  have h1 := (decode_range raw h).1
  have e6 : MIN_TEMP * SCALE_FACTOR = -50000 := by decide
  have e7 : INVALID_TEMP = -100000 := rfl
  rw [e6] at h1
  rw [e7]
  omega

end TSIC

namespace TSIC

/-- The difference of two tick values is the elapsed time, also across the wraparound. -/
theorem sub32_wrap (a d : ℕ) (ha : a < 2 ^ 32) (hd : d < 2 ^ 32) :
    sub32 ((a + d) % 2 ^ 32) a = d := by
  unfold sub32
  omega

theorem sub32_mod (a b : ℕ) : sub32 (a % 2 ^ 32) b = sub32 a b := by
  unfold sub32
  omega

/-- A rising edge after a low period below 62 us. -/
theorem alert_one (s : TSIC) (tick : ℕ) (h : sub32 tick s._lastLow < 62) :
    s._alertFunction 1 tick
      = countEdge { s with _lastHigh := tick % 2 ^ 32,
                           _word := ((s._word <<< 1) ||| 1) % 2 ^ 32 } := by
  unfold _alertFunction
  simp only [TSIC_FRAME_US]
  rw [if_pos trivial, if_pos (by omega)]

/-- A rising edge after a low period of 62 us or more, below 125 us. -/
theorem alert_zero (s : TSIC) (tick : ℕ) (h1 : 62 ≤ sub32 tick s._lastLow)
    (h2 : sub32 tick s._lastLow < 125) :
    s._alertFunction 1 tick
      = countEdge { s with _lastHigh := tick % 2 ^ 32,
                           _word := (s._word <<< 1) % 2 ^ 32 } := by
  unfold _alertFunction
  simp only [TSIC_FRAME_US]
  rw [if_pos trivial, if_neg (by omega), if_pos h2]

/-- A rising edge after a low period above 250 us. -/
theorem alert_long (s : TSIC) (tick : ℕ) (h : 250 < sub32 tick s._lastLow) :
    s._alertFunction 1 tick
      = { s with _lastHigh := tick % 2 ^ 32, _count := 0, _word := 0 } := by
  unfold _alertFunction
  simp only [TSIC_FRAME_US]
  rw [if_pos trivial, if_neg (by omega), if_neg (by omega), if_pos (by omega)]

/-- A falling edge (any level other than 1). -/
theorem alert_falling (s : TSIC) (level : ℤ) (tick : ℕ) (hl : level ≠ 1) :
    s._alertFunction level tick
      = if sub32 tick s._lastHigh > 250 then
          { s with _lastLow := tick % 2 ^ 32, _count := 0, _word := 0 }
        else { s with _lastLow := tick % 2 ^ 32 } := by
  unfold _alertFunction
  rw [if_neg hl]
  rfl

/-- Counting an edge that does not complete the packet. -/
theorem countEdge_neg (s : TSIC) (h : (s._count + 1) % 2 ^ 32 ≠ 20) :
    countEdge s = { s with _count := (s._count + 1) % 2 ^ 32 } := by
  unfold countEdge
  exact if_neg h

/-- Counting the edge that completes the packet. -/
theorem countEdge_pos (s : TSIC) (h : (s._count + 1) % 2 ^ 32 = 20) :
    countEdge s
      = if decodeWord s._word ≠ INVALID_TEMP then
          { s with _temperature := (decodeWord s._word : ℚ) / (SCALE_FACTOR : ℚ),
                   _valid := true, _count := 0, _word := 0 }
        else { s with _valid := false, _count := 0, _word := 0 } := by
  unfold countEdge
  exact if_pos h

end TSIC

namespace TSIC

/-- A rising edge that shifts in a bit, before the edge is counted. -/
theorem alert_bit_raw (s : TSIC) (tick b : ℕ) (hb : s.bitOf tick = some b)
    (hw : s._word < 2 ^ 31) :
    b ≤ 1 ∧ s._alertFunction 1 tick
      = countEdge { s with _lastHigh := tick % 2 ^ 32, _word := 2 * s._word + b } := by
  have hw1 : ((s._word <<< 1) ||| 1) % 2 ^ 32 = 2 * s._word + 1 := by
    rw [shiftLeft_one_or]
    omega
  have hw0 : (s._word <<< 1) % 2 ^ 32 = 2 * s._word + 0 := by
    rw [Nat.shiftLeft_eq]
    omega
  unfold bitOf at hb
  simp only [TSIC_FRAME_US] at hb
  by_cases h1 : sub32 tick s._lastLow < 62
  · rw [if_pos (by omega)] at hb
    have hb1 : b = 1 := (Option.some.inj hb).symm
    rw [alert_one s tick h1, hw1, hb1]
    exact ⟨le_refl _, rfl⟩
  · rw [if_neg (by omega)] at hb
    by_cases h2 : sub32 tick s._lastLow < 125
    · rw [if_pos h2] at hb
      have hb0 : b = 0 := (Option.some.inj hb).symm
      rw [alert_zero s tick (not_lt.mp h1) h2, hw0, hb0]
      exact ⟨Nat.zero_le _, rfl⟩
    · rw [if_neg h2] at hb
      exact absurd hb (by simp)

/-- A rising edge that shifts in a bit and does not complete the packet. -/
theorem alert_bit (s : TSIC) (tick b : ℕ) (hb : s.bitOf tick = some b)
    (hc : s._count < 19) (hw : s._word < 2 ^ 31) :
    b ≤ 1 ∧ s._alertFunction 1 tick
      = { s with _lastHigh := tick % 2 ^ 32, _word := 2 * s._word + b,
                 _count := s._count + 1 } := by
  obtain ⟨h1, h2⟩ := alert_bit_raw s tick b hb hw
  refine ⟨h1, ?_⟩
  have e2 : (s._count + 1) % 2 ^ 32 = s._count + 1 := by omega
  rw [h2, countEdge_neg]
  · show ({ s with _lastHigh := tick % 2 ^ 32, _word := 2 * s._word + b,
                   _count := (s._count + 1) % 2 ^ 32 } : TSIC) = _
    rw [e2]
  · show (s._count + 1) % 2 ^ 32 ≠ 20
    omega

theorem run_cons (s : TSIC) (e : ℤ × ℕ) (es : List (ℤ × ℕ)) :
    s.run (e :: es) = (s._alertFunction e.1 e.2).run es := rfl

theorem wordOf_append (w : ℕ) (bits : List ℕ) (b : ℕ) :
    wordOf w (bits ++ [b]) = 2 * wordOf w bits + b := by
  simp [wordOf, List.foldl_append]

/-- A train of bit-shifting edges that does not complete the packet: the counter counts the
rising edges, the register collects the bits, the sample is not touched. -/
theorem run_shiftedBits (es : List (ℤ × ℕ)) : ∀ (s : TSIC) (bits : List ℕ),
    shiftedBits s es = some bits → s._count + bits.length ≤ 19 → s._word < 2 ^ s._count →
    (s.run es)._count = s._count + bits.length
      ∧ (s.run es)._word = wordOf s._word bits
      ∧ (s.run es)._word < 2 ^ (s.run es)._count
      ∧ (s.run es).getDegrees = s.getDegrees := by
  induction es with
  | nil =>
    intro s bits h hc hw
    have hb : bits = [] := by
      simpa [shiftedBits] using h.symm
    subst hb
    exact ⟨rfl, rfl, hw, rfl⟩
  | cons e es ih =>
    intro s bits h hc hw
    rw [run_cons]
    unfold shiftedBits at h
    by_cases he : e.1 = 1
    · rw [if_pos he] at h
      cases hbit : s.bitOf e.2 with
      | none =>
        rw [hbit] at h
        exact absurd h (by simp)
      | some b =>
        rw [hbit] at h
        cases hrest : shiftedBits (s._alertFunction e.1 e.2) es with
        | none =>
          rw [hrest] at h
          exact absurd h (by simp)
        | some bs =>
          rw [hrest] at h
          have hbs : bits = b :: bs := by
            simpa using h.symm
          subst hbs
          have hlen : s._count + (bs.length + 1) ≤ 19 := by simpa using hc
          have hp : 2 ^ s._count ≤ 2 ^ 18 := Nat.pow_le_pow_right (by decide) (by omega)
          have hw31 : s._word < 2 ^ 31 := by
            have : (2 : ℕ) ^ 18 < 2 ^ 31 := by decide
            omega
          rw [he] at hrest ⊢
          obtain ⟨hb1, hA⟩ := alert_bit s e.2 b hbit (by omega) hw31
          rw [hA] at hrest ⊢
          have hw2 : 2 * s._word + b < 2 ^ (s._count + 1) := by
            rw [pow_succ]
            omega
          obtain ⟨i1, i2, i3, i4⟩ := ih _ bs hrest (by show s._count + 1 + bs.length ≤ 19; omega)
            hw2
          refine ⟨?_, ?_, i3, ?_⟩
          · rw [i1]
            show s._count + 1 + bs.length = s._count + (bs.length + 1)
            omega
          · rw [i2]
            rfl
          · rw [i4]
            rfl
    · rw [if_neg he] at h
      by_cases hh : sub32 e.2 s._lastHigh > TSIC_FRAME_US * 2
      · rw [if_pos hh] at h
        exact absurd h (by simp)
      · rw [if_neg hh] at h
        have hA : s._alertFunction e.1 e.2 = { s with _lastLow := e.2 % 2 ^ 32 } := by
          rw [alert_falling s e.1 e.2 he]
          exact if_neg hh
        rw [hA] at h ⊢
        exact ih _ bits h hc hw

/-- Every beginning of a train of bit-shifting edges is such a train, with no more bits. -/
theorem shiftedBits_take (es : List (ℤ × ℕ)) : ∀ (s : TSIC) (bits : List ℕ) (k : ℕ),
    shiftedBits s es = some bits →
    ∃ bs, shiftedBits s (es.take k) = some bs ∧ bs.length ≤ bits.length := by
  induction es with
  | nil =>
    intro s bits k h
    exact ⟨bits, by simpa using h, le_refl _⟩
  | cons e es ih =>
    intro s bits k h
    cases k with
    | zero => exact ⟨[], rfl, Nat.zero_le _⟩
    | succ k =>
      rw [List.take_succ_cons]
      unfold shiftedBits at h ⊢
      by_cases he : e.1 = 1
      · rw [if_pos he] at h ⊢
        cases hbit : s.bitOf e.2 with
        | none =>
          rw [hbit] at h
          exact absurd h (by simp)
        | some b =>
          rw [hbit] at h
          cases hrest : shiftedBits (s._alertFunction e.1 e.2) es with
          | none =>
            rw [hrest] at h
            exact absurd h (by simp)
          | some bs =>
            rw [hrest] at h
            have hbs : bits = b :: bs := by
              simpa using h.symm
            obtain ⟨bs2, h1, h2⟩ := ih _ bs k hrest
            refine ⟨b :: bs2, ?_, ?_⟩
            · simp [h1]
            · rw [hbs]
              simpa using h2
      · rw [if_neg he] at h ⊢
        by_cases hh : sub32 e.2 s._lastHigh > TSIC_FRAME_US * 2
        · rw [if_pos hh] at h
          exact absurd h (by simp)
        · rw [if_neg hh] at h ⊢
          exact ih _ bits k h

end TSIC

/-! ## The flow meter -/

namespace Flow

theorem sampleSpeed_frame (f : Flow) (l : Locals) :
    (sampleSpeed f l).1._state = f._state ∧ (sampleSpeed f l).1._count = f._count
      ∧ (sampleSpeed f l).1._opened = f._opened
      ∧ (sampleSpeed f l).1._milliLitrePerCounts = f._milliLitrePerCounts
      ∧ (sampleSpeed f l).1._run = f._run
      ∧ (sampleSpeed f l).1._samplingRate = f._samplingRate
      ∧ (sampleSpeed f l).1._timeout = f._timeout
      ∧ (sampleSpeed f l).1._speedSamplingRate = f._speedSamplingRate := by
  unfold sampleSpeed
  split_ifs <;> exact ⟨rfl, rfl, rfl, rfl, rfl, rfl, rfl, rfl⟩

/-- The speed window is full: the speed is computed and the window restarts. -/
theorem sampleSpeed_pos (f : Flow) (l : Locals)
    (h : (l.speedTimer + f._samplingRate) % 2 ^ 32 ≥ f._speedSamplingRate) :
    (sampleSpeed f l).1._flowSpeed
        = ((sub32 f._count l.startCount / f._speedSamplingRate : ℕ) : ℚ) * 1000
      ∧ (sampleSpeed f l).2.startCount = f._count ∧ (sampleSpeed f l).2.speedTimer = 0 := by
  unfold sampleSpeed
  rw [if_pos h]
  exact ⟨rfl, rfl, rfl⟩

/-- The speed window is not full: the speed is left as it is. -/
theorem sampleSpeed_neg (f : Flow) (l : Locals)
    (h : ¬ (l.speedTimer + f._samplingRate) % 2 ^ 32 ≥ f._speedSamplingRate) :
    (sampleSpeed f l).1._flowSpeed = f._flowSpeed
      ∧ (sampleSpeed f l).2.startCount = l.startCount
      ∧ (sampleSpeed f l).2.speedTimer = (l.speedTimer + f._samplingRate) % 2 ^ 32 := by
  unfold sampleSpeed
  rw [if_neg h]
  exact ⟨rfl, rfl, rfl⟩

/-- The count has changed and the worker was not flowing: the meter starts to flow. -/
theorem worker_start (f : Flow) (l : Locals) (hrun : f._run = true)
    (hc : f._count ≠ l.oldCount) (hf : l.flowing = false) :
    _worker f l = restart .Flowing true 0 (sampleSpeed f l).1 (sampleSpeed f l).2 := by
  unfold _worker
  rw [if_neg (by simp [hrun]), if_pos hc, if_pos (by simp [hf])]

/-- The count has changed and the worker was flowing. -/
theorem worker_flow (f : Flow) (l : Locals) (hrun : f._run = true)
    (hc : f._count ≠ l.oldCount) (hf : l.flowing = true) :
    _worker f l
      = ((sampleSpeed f l).1,
         { (sampleSpeed f l).2 with flowing := true, idleTime := 0, oldCount := f._count }) := by
  unfold _worker
  rw [if_neg (by simp [hrun]), if_pos hc, if_neg (by simp [hf])]

/-- The count has not changed, the worker was flowing and the idle time is up. -/
theorem worker_stop (f : Flow) (l : Locals) (hrun : f._run = true)
    (hc : f._count = l.oldCount) (hf : l.flowing = true)
    (ht : (l.idleTime + f._samplingRate) % 2 ^ 32 ≥ f._timeout) :
    _worker f l
      = restart .Stopped false ((l.idleTime + f._samplingRate) % 2 ^ 32)
          (sampleSpeed f l).1 (sampleSpeed f l).2 := by
  have hs : stillFlowing f l = false := by
    unfold stillFlowing
    rw [hf, if_pos]
    simp only [Bool.true_and, decide_eq_true_eq]
    exact ht
  unfold _worker
  rw [if_neg (by simp [hrun]), if_neg (by simp [hc]), hs, if_pos (by simp [hf])]

/-- The count has not changed and the worker was idle or the idle time is not up. -/
theorem worker_idle (f : Flow) (l : Locals) (hrun : f._run = true)
    (hc : f._count = l.oldCount)
    (ht : l.flowing = false ∨ ¬ (l.idleTime + f._samplingRate) % 2 ^ 32 ≥ f._timeout) :
    _worker f l
      = ((sampleSpeed f l).1,
         { (sampleSpeed f l).2 with
           flowing := l.flowing, idleTime := (l.idleTime + f._samplingRate) % 2 ^ 32,
           oldCount := f._count }) := by
  have hs : stillFlowing f l = l.flowing := by
    unfold stillFlowing
    rcases ht with ht | ht
    · rw [ht]
      rfl
    · rw [if_neg]
      intro hh
      simp only [Bool.and_eq_true, decide_eq_true_eq] at hh
      exact ht hh.2
  unfold _worker
  rw [if_neg (by simp [hrun]), if_neg (by simp [hc]), hs, if_neg (by simp)]

/-- A worker that does not run changes nothing. -/
theorem worker_off (f : Flow) (l : Locals) (hrun : f._run = false) : _worker f l = (f, l) := by
  unfold _worker
  rw [if_pos (by simp [hrun])]

/-- One iteration of the worker: the invariant, the unwritten members, and the counter. -/
theorem worker_spec (f : Flow) (l : Locals) (h : StateInv (f, l)) :
    StateInv (_worker f l)
      ∧ (_worker f l).1._opened = f._opened
      ∧ (_worker f l).1._milliLitrePerCounts = f._milliLitrePerCounts
      ∧ ((_worker f l).1._state ≠ f._state →
          (_worker f l).1._count = 0
          ∧ ((f._state = .Stopped ∧ (_worker f l).1._state = .Flowing)
              ∨ (f._state = .Flowing ∧ (_worker f l).1._state = .Stopped)))
      ∧ ((_worker f l).1._state = f._state → (_worker f l).1._count = f._count) := by
  obtain ⟨hst, hm⟩ := h
  obtain ⟨s1, s2, s3, s4, -⟩ := sampleSpeed_frame f l
  by_cases hrun : f._run = true
  · by_cases hc : f._count ≠ l.oldCount
    · rcases hst with ⟨hs, hf⟩ | ⟨hs, hf⟩
      · rw [worker_flow f l hrun hc hf]
        refine ⟨⟨Or.inl ⟨s1.trans hs, rfl⟩, ?_⟩, s3, s4, fun hn => absurd s1 hn, fun _ => s2⟩
        show 0 ≤ (sampleSpeed f l).1._milliLitrePerCounts
        rw [s4]
        exact hm
      · rw [worker_start f l hrun hc hf]
        refine ⟨⟨Or.inl ⟨rfl, rfl⟩, ?_⟩, s3, s4, fun _ => ⟨rfl, Or.inl ⟨hs, rfl⟩⟩, fun he => ?_⟩
        · show 0 ≤ (sampleSpeed f l).1._milliLitrePerCounts
          rw [s4]
          exact hm
        · rw [hs] at he
          have he2 : State.Flowing = State.Stopped := he
          cases he2
    · rw [not_not] at hc
      by_cases ht : l.flowing = true ∧ (l.idleTime + f._samplingRate) % 2 ^ 32 ≥ f._timeout
      · rw [worker_stop f l hrun hc ht.1 ht.2]
        have hs : f._state = .Flowing := by
          rcases hst with ⟨hs, -⟩ | ⟨-, hf⟩
          · exact hs
          · rw [ht.1] at hf
            exact absurd hf (by decide)
        refine ⟨⟨Or.inr ⟨rfl, rfl⟩, ?_⟩, s3, s4, fun _ => ⟨rfl, Or.inr ⟨hs, rfl⟩⟩, fun he => ?_⟩
        · show 0 ≤ (sampleSpeed f l).1._milliLitrePerCounts
          rw [s4]
          exact hm
        · rw [hs] at he
          have he2 : State.Stopped = State.Flowing := he
          cases he2
      · have ht2 : l.flowing = false ∨ ¬ (l.idleTime + f._samplingRate) % 2 ^ 32 ≥ f._timeout := by
          by_cases hf : l.flowing = true
          · exact Or.inr (fun h2 => ht ⟨hf, h2⟩)
          · exact Or.inl (by simpa using hf)
        rw [worker_idle f l hrun hc ht2]
        refine ⟨⟨?_, ?_⟩, s3, s4, fun hn => absurd s1 hn, fun _ => s2⟩
        · rcases hst with ⟨hs, hf⟩ | ⟨hs, hf⟩
          · exact Or.inl ⟨s1.trans hs, hf⟩
          · exact Or.inr ⟨s1.trans hs, hf⟩
        · show 0 ≤ (sampleSpeed f l).1._milliLitrePerCounts
          rw [s4]
          exact hm
  · rw [worker_off f l (by simpa using hrun)]
    exact ⟨⟨hst, hm⟩, rfl, rfl, fun hn => absurd rfl hn, fun _ => rfl⟩

/-- Every step keeps the invariant and the members that are never written. -/
theorem step_stateInv (m : Flow × Locals) (s : Step) (h : StateInv m) :
    StateInv (step m s) ∧ (step m s).1._opened = m.1._opened
      ∧ (step m s).1._milliLitrePerCounts = m.1._milliLitrePerCounts := by
  cases s with
  | pulse => exact ⟨h, rfl, rfl⟩
  | tick =>
    obtain ⟨h1, h2, h3, -⟩ := worker_spec m.1 m.2 h
    exact ⟨h1, h2, h3⟩

/-- Every run keeps the invariant. -/
theorem run_stateInv (steps : List Step) : ∀ m : Flow × Locals, StateInv m →
    StateInv (run m steps) ∧ (run m steps).1._opened = m.1._opened
      ∧ (run m steps).1._milliLitrePerCounts = m.1._milliLitrePerCounts := by
  induction steps with
  | nil => exact fun m h => ⟨h, rfl, rfl⟩
  | cons s rest ih =>
    intro m h
    obtain ⟨h1, h2, h3⟩ := step_stateInv m s h
    obtain ⟨i1, i2, i3⟩ := ih (step m s) h1
    exact ⟨i1, i2.trans h2, i3.trans h3⟩

theorem start_stateInv (pinOk : Bool) : StateInv (start pinOk) := by
  cases pinOk
  · simp [StateInv, start, Flow.new, Locals.enter]
    norm_num
  · simp [StateInv, start, Flow.new, Locals.enter]
    norm_num

/-- A step that leaves the state as it is, with the counter below its maximum, does not
lower the counter. -/
theorem step_count_le (m : Flow × Locals) (s : Step) (h : StateInv m)
    (hs : (step m s).1._state = m.1._state) (hc : m.1._count + 1 < 2 ^ 32) :
    m.1._count ≤ (step m s).1._count := by
  cases s with
  | pulse =>
    show m.1._count ≤ (m.1._count + 1) % 2 ^ 32
    omega
  | tick => exact le_of_eq ((worker_spec m.1 m.2 h).2.2.2.2 hs).symm

/-- Along steps that leave the state as it is, with the counter below its maximum, the
counter does not fall. -/
theorem run_count_le (more : List Step) : ∀ m : Flow × Locals, StateInv m →
    (∀ k : ℕ, k ≤ more.length →
      (run m (more.take k)).1._state = m.1._state
        ∧ (run m (more.take k)).1._count + 1 < 2 ^ 32) →
    m.1._count ≤ (run m more).1._count := by
  induction more with
  | nil => exact fun m _ _ => le_refl _
  | cons s rest ih =>
    intro m h hk
    have h0 := hk 0 (Nat.zero_le _)
    have h1 := hk 1 (by simp)
    have hs : (step m s).1._state = m.1._state := h1.1
    have hle := step_count_le m s h hs h0.2
    refine le_trans hle (ih (step m s) (step_stateInv m s h).1 ?_)
    intro k hkl
    have h2 := hk (k + 1) (by simpa using hkl)
    exact ⟨h2.1.trans hs.symm, h2.2⟩

/-- The volume grows with the counter. -/
theorem getMilliLitres_mono (f g : Flow) (ho : g._opened = f._opened)
    (hm : g._milliLitrePerCounts = f._milliLitrePerCounts) (h0 : 0 ≤ f._milliLitrePerCounts)
    (hc : f._count ≤ g._count) : f.getMilliLitres ≤ g.getMilliLitres := by
  unfold getMilliLitres
  rw [ho, hm]
  split_ifs
  · exact le_refl _
  · exact mul_le_mul_of_nonneg_left (by exact_mod_cast hc) h0

end Flow

namespace Flow

/-- One iteration of the worker and the speed: a transition publishes 0 and restarts the
window, every other iteration publishes what the window block has left. -/
theorem worker_speed (f : Flow) (l : Locals) (h : StateInv (f, l)) (hrun : f._run = true) :
    ((_worker f l).1._state ≠ f._state →
        (_worker f l).1._flowSpeed = 0 ∧ (_worker f l).2.speedTimer = 0
          ∧ (_worker f l).2.startCount = 0)
      ∧ ((_worker f l).1._state = f._state →
        (_worker f l).1._flowSpeed = (sampleSpeed f l).1._flowSpeed
          ∧ (_worker f l).2.speedTimer = (sampleSpeed f l).2.speedTimer
          ∧ (_worker f l).2.startCount = (sampleSpeed f l).2.startCount) := by
  obtain ⟨hst, -⟩ := h
  obtain ⟨s1, -⟩ := sampleSpeed_frame f l
  by_cases hc : f._count ≠ l.oldCount
  · rcases hst with ⟨hs, hf⟩ | ⟨hs, hf⟩
    · rw [worker_flow f l hrun hc hf]
      exact ⟨fun hn => absurd s1 hn, fun _ => ⟨rfl, rfl, rfl⟩⟩
    · rw [worker_start f l hrun hc hf]
      refine ⟨fun _ => ⟨rfl, rfl, rfl⟩, fun he => ?_⟩
      rw [hs] at he
      have he2 : State.Flowing = State.Stopped := he
      cases he2
  · rw [not_not] at hc
    by_cases ht : l.flowing = true ∧ (l.idleTime + f._samplingRate) % 2 ^ 32 ≥ f._timeout
    · rw [worker_stop f l hrun hc ht.1 ht.2]
      have hs : f._state = .Flowing := by
        rcases hst with ⟨hs, -⟩ | ⟨-, hf⟩
        · exact hs
        · rw [ht.1] at hf
          exact absurd hf (by decide)
      refine ⟨fun _ => ⟨rfl, rfl, rfl⟩, fun he => ?_⟩
      rw [hs] at he
      have he2 : State.Stopped = State.Flowing := he
      cases he2
    · have ht2 : l.flowing = false ∨ ¬ (l.idleTime + f._samplingRate) % 2 ^ 32 ≥ f._timeout := by
        by_cases hf : l.flowing = true
        · exact Or.inr (fun h2 => ht ⟨hf, h2⟩)
        · exact Or.inl (by simpa using hf)
      rw [worker_idle f l hrun hc ht2]
      exact ⟨fun hn => absurd s1 hn, fun _ => ⟨rfl, rfl, rfl⟩⟩

/-- The rates and the run flag are never written. -/
theorem step_rates (m : Flow × Locals) (s : Step) :
    (step m s).1._samplingRate = m.1._samplingRate ∧ (step m s).1._timeout = m.1._timeout
      ∧ (step m s).1._speedSamplingRate = m.1._speedSamplingRate
      ∧ (step m s).1._run = m.1._run := by
  cases s with
  | pulse => exact ⟨rfl, rfl, rfl, rfl⟩
  | tick =>
    obtain ⟨-, -, -, -, s5, s6, s7, s8⟩ := sampleSpeed_frame m.1 m.2
    show (_worker m.1 m.2).1._samplingRate = _ ∧ (_worker m.1 m.2).1._timeout = _
      ∧ (_worker m.1 m.2).1._speedSamplingRate = _ ∧ (_worker m.1 m.2).1._run = _
    unfold _worker restart
    split_ifs <;> first | exact ⟨rfl, rfl, rfl, rfl⟩ | exact ⟨s6, s7, s8, s5⟩

theorem run_rates (steps : List Step) : ∀ m : Flow × Locals,
    (run m steps).1._samplingRate = m.1._samplingRate
      ∧ (run m steps).1._timeout = m.1._timeout
      ∧ (run m steps).1._speedSamplingRate = m.1._speedSamplingRate
      ∧ (run m steps).1._run = m.1._run := by
  induction steps with
  | nil => exact fun m => ⟨rfl, rfl, rfl, rfl⟩
  | cons s rest ih =>
    intro m
    obtain ⟨h1, h2, h3, h4⟩ := step_rates m s
    obtain ⟨i1, i2, i3, i4⟩ := ih (step m s)
    exact ⟨i1.trans h1, i2.trans h2, i3.trans h3, i4.trans h4⟩

theorem run_tick_succ (m : Flow × Locals) (k : ℕ) :
    run m (List.replicate (k + 1) Step.tick)
      = _worker (run m (List.replicate k Step.tick)).1 (run m (List.replicate k Step.tick)).2 := by
  unfold run
  rw [List.replicate_succ', List.foldl_append]
  rfl

/-- An unchanged iteration of a flowing meter before the idle time is up. -/
theorem idle_tick (j c : ℕ) (m : Flow × Locals) (h : Idle j c m) (hj : j + 1 < 20) :
    Idle (j + 1) c (_worker m.1 m.2) := by
  obtain ⟨h1, h2, h3, h4, h5, h6, h7, h8⟩ := h
  obtain ⟨s1, s2, -, -, s5, s6, s7, -⟩ := sampleSpeed_frame m.1 m.2
  have hidle : (m.2.idleTime + m.1._samplingRate) % 2 ^ 32 = 50 * (j + 1) := by
    rw [h8, h2]
    omega
  rw [worker_idle m.1 m.2 h1 (h6.trans h7.symm) (Or.inr (by rw [hidle, h3]; omega))]
  exact ⟨s5.trans h1, s6.trans h2, s7.trans h3, s1.trans h4, h5, s2.trans h6, h6, hidle⟩

/-- The unchanged iteration of a flowing meter at which the idle time is up. -/
theorem idle_stop (c : ℕ) (m : Flow × Locals) (h : Idle 19 c m) :
    (_worker m.1 m.2).1._state = .Stopped ∧ (_worker m.1 m.2).1._count = 0
      ∧ (_worker m.1 m.2).2.flowing = false := by
  obtain ⟨h1, h2, h3, h4, h5, h6, h7, h8⟩ := h
  have hidle : (m.2.idleTime + m.1._samplingRate) % 2 ^ 32 = 1000 := by
    rw [h8, h2]
    rfl
  rw [worker_stop m.1 m.2 h1 (h6.trans h7.symm) h5 (by rw [hidle, h3])]
  exact ⟨rfl, rfl, rfl⟩

/-- Unchanged iterations of a flowing meter before the idle time is up. -/
theorem idle_run (c : ℕ) (m : Flow × Locals) (h : Idle 0 c m) :
    ∀ k : ℕ, k < 20 → Idle k c (run m (List.replicate k Step.tick)) := by
  intro k
  induction k with
  | zero => exact fun _ => h
  | succ k ih =>
    intro hk
    rw [run_tick_succ]
    exact idle_tick k c _ (ih (by omega)) hk

end Flow

/-! ## Double precision -/

theorem roundEven_err (y : ℚ) : |(roundEven y : ℚ) - y| ≤ 1 / 2 := by
  have h1 : (⌊y⌋ : ℚ) ≤ y := Int.floor_le y
  have h2 : y < (⌊y⌋ : ℚ) + 1 := Int.lt_floor_add_one y
  unfold roundEven
  rw [abs_le]
  split_ifs with a b c
  · constructor <;> linarith
  · push_cast
    constructor <;> linarith
  · constructor <;> linarith
  · push_cast
    constructor <;> linarith

/-- A number less than one half away from an integer is rounded to it. -/
theorem roundEven_eq (y : ℚ) (n : ℤ) (h : |y - n| < 1 / 2) : roundEven y = n := by
  rw [abs_lt] at h
  have hf : ⌊y⌋ = n ∨ ⌊y⌋ = n - 1 := by
    by_cases hc : (n : ℚ) ≤ y
    · left
      rw [Int.floor_eq_iff]
      constructor
      · exact hc
      · linarith
    · right
      rw [Int.floor_eq_iff]
      push_cast
      constructor <;> linarith
  unfold roundEven
  rcases hf with hf | hf
  · rw [hf, if_pos (by linarith)]
  · rw [hf]
    push_cast
    rw [if_neg (by linarith), if_pos (by linarith)]
    ring

theorem roundDouble_zero : roundDouble 0 = 0 := by
  unfold roundDouble
  exact if_pos rfl

/-- The exponent that `roundDouble` uses. -/
theorem log_two_eq (r : ℚ) (k : ℤ) (hr : 0 < r) (h1 : (2 : ℚ) ^ k ≤ r) (h2 : r < (2 : ℚ) ^ (k + 1)) :
    Int.log 2 r = k := by
  have a : k ≤ Int.log 2 r := (Int.zpow_le_iff_le_log (by decide) hr).1 (by exact_mod_cast h1)
  have b : Int.log 2 r < k + 1 := (Int.lt_zpow_iff_log_lt (by decide) hr).1 (by exact_mod_cast h2)
  omega

/-- The value of `roundDouble` at a number below 1: with `j` such that `|x| * 2^j` lies in
the range of the significand, and `n` the integer less than one half away from it. -/
theorem roundDouble_eq (x : ℚ) (j : ℕ) (n : ℤ) (h1 : (2 : ℚ) ^ 52 ≤ |x| * 2 ^ j)
    (h2 : |x| * 2 ^ j < (2 : ℚ) ^ 53) (h3 : |x * 2 ^ j - n| < 1 / 2) :
    roundDouble x = n / 2 ^ j := by
  have hj : (0 : ℚ) < 2 ^ j := by positivity
  have hx : 0 < |x| := by
    by_contra hc
    have : |x| = 0 := le_antisymm (not_lt.mp hc) (abs_nonneg x)
    rw [this, zero_mul] at h1
    norm_num at h1
  have hx0 : x ≠ 0 := abs_pos.mp hx
  have hz : ((2 : ℚ) ^ (52 - (j : ℤ))) = 2 ^ 52 / 2 ^ j := by
    rw [zpow_sub₀ (by norm_num : (2 : ℚ) ≠ 0)]
    norm_cast
  have hz1 : ((2 : ℚ) ^ (52 - (j : ℤ) + 1)) = 2 ^ 53 / 2 ^ j := by
    rw [show (52 - (j : ℤ) + 1) = 53 - (j : ℤ) by ring, zpow_sub₀ (by norm_num : (2 : ℚ) ≠ 0)]
    norm_cast
  have hlog : Int.log 2 |x| = 52 - (j : ℤ) := by
    apply log_two_eq _ _ hx
    · rw [hz, div_le_iff₀ hj]
      exact h1
    · rw [hz1, lt_div_iff₀ hj]
      exact h2
  have hk : ((2 : ℚ) ^ (52 - (j : ℤ) - 52)) = 1 / 2 ^ j := by
    rw [show (52 - (j : ℤ) - 52) = -(j : ℤ) by ring, zpow_neg, one_div]
    norm_cast
  unfold roundDouble
  rw [if_neg hx0, hlog, hk]
  have hy : x / (1 / 2 ^ j) = x * 2 ^ j := by
    field_simp
  rw [hy, roundEven_eq _ n h3]
  ring

/-- The relative error of `roundDouble` is at most 2^-53. -/
theorem roundDouble_err (x : ℚ) : |roundDouble x - x| ≤ |x| / 2 ^ 53 := by
  by_cases hx0 : x = 0
  · rw [hx0, roundDouble_zero]
    simp
  · have hx : 0 < |x| := abs_pos.mpr hx0
    have hlo : (2 : ℚ) ^ (Int.log 2 |x|) ≤ |x| := by
      have := Int.zpow_log_le_self (b := 2) (by decide) hx
      exact_mod_cast this
    have hp : (0 : ℚ) < 2 ^ (Int.log 2 |x| - 52) := by positivity
    have hsplit : (2 : ℚ) ^ (Int.log 2 |x|) = 2 ^ (Int.log 2 |x| - 52) * 2 ^ 52 := by
      rw [show ((2 : ℚ) ^ 52) = (2 : ℚ) ^ ((52 : ℕ) : ℤ) by norm_cast,
        ← zpow_add₀ (by norm_num : (2 : ℚ) ≠ 0)]
      congr 1
      push_cast
      ring
    have herr := roundEven_err (x / 2 ^ (Int.log 2 |x| - 52))
    unfold roundDouble
    rw [if_neg hx0]
    have hrew : (roundEven (x / 2 ^ (Int.log 2 |x| - 52)) : ℚ) * 2 ^ (Int.log 2 |x| - 52) - x
        = ((roundEven (x / 2 ^ (Int.log 2 |x| - 52)) : ℚ) - x / 2 ^ (Int.log 2 |x| - 52))
          * 2 ^ (Int.log 2 |x| - 52) := by
      field_simp
    rw [hrew, abs_mul, abs_of_pos hp]
    have h3 : |(roundEven (x / 2 ^ (Int.log 2 |x| - 52)) : ℚ) - x / 2 ^ (Int.log 2 |x| - 52)|
        * 2 ^ (Int.log 2 |x| - 52) ≤ 1 / 2 * 2 ^ (Int.log 2 |x| - 52) :=
      mul_le_mul_of_nonneg_right herr (le_of_lt hp)
    have h4 : (1 : ℚ) / 2 * 2 ^ (Int.log 2 |x| - 52) ≤ |x| / 2 ^ 53 := by
      rw [le_div_iff₀ (by positivity)]
      rw [hsplit] at hlo
      have : (1 : ℚ) / 2 * 2 ^ (Int.log 2 |x| - 52) * 2 ^ 53
          = 2 ^ (Int.log 2 |x| - 52) * 2 ^ 52 := by ring
      rw [this]
      exact hlo
    exact le_trans h3 h4

/-- The `double` that the literal `0.01` denotes. -/
theorem roundDouble_hundredth : roundDouble (1 / 100) = 5764607523034235 / 2 ^ 59 := by
  have h := roundDouble_eq (1 / 100) 59 5764607523034235
    (by rw [abs_of_pos (by norm_num)]; norm_num)
    (by rw [abs_of_pos (by norm_num)]; norm_num)
    (by rw [abs_lt]; constructor <;> norm_num)
  rw [h]
  norm_num

/-- The `double` that the literal `0.001` denotes. -/
theorem roundDouble_thousandth : roundDouble (1 / 1000) = 4611686018427388 / 2 ^ 62 := by
  have h := roundDouble_eq (1 / 1000) 62 4611686018427388
    (by rw [abs_of_pos (by norm_num)]; norm_num)
    (by rw [abs_of_pos (by norm_num)]; norm_num)
    (by rw [abs_lt]; constructor <;> norm_num)
  rw [h]
  norm_num

/-! ## The ranger -/

namespace Ranger

/-- An iteration in which the first measurement looks dubious. -/
theorem worker_pos (r : Ranger) (l : Locals) (measure : ℕ → ℚ) (hrun : r._run = true)
    (h : outlier l.firstTime (measure 0) l.currentRange = true) :
    _worker r l measure
      = ({ r with
            _range := (if l.firstTime then measure 1 else r._range)
              + 1 / 2 * (measure 1 - (if l.firstTime then measure 1 else r._range)) },
         { currentRange := measure 1, oldRange := l.currentRange, firstTime := false,
           measured := l.measured + 2 }) := by
  unfold _worker
  rw [if_neg (by simp [hrun]), if_pos h]

/-- An iteration in which the first measurement looks dubious measures twice. -/
theorem worker_twice (r : Ranger) (l : Locals) (measure : ℕ → ℚ) (hrun : r._run = true)
    (h : outlier l.firstTime (measure 0) l.currentRange = true) :
    (_worker r l measure).2.measured = l.measured + 2 := by
  rw [worker_pos r l measure hrun h]

/-- An iteration in which the first measurement is taken as it is. -/
theorem worker_neg (r : Ranger) (l : Locals) (measure : ℕ → ℚ) (hrun : r._run = true)
    (h : outlier l.firstTime (measure 0) l.currentRange = false) :
    _worker r l measure
      = ({ r with
            _range := (if l.firstTime then measure 0 else r._range)
              + 1 / 2 * (measure 0 - (if l.firstTime then measure 0 else r._range)) },
         { currentRange := measure 0, oldRange := l.currentRange, firstTime := false,
           measured := l.measured + 1 }) := by
  unfold _worker
  rw [if_neg (by simp [hrun]), if_neg (by simp [h])]

/-- The local `outlier` in words. -/
theorem outlier_iff (firstTime : Bool) (currentRange oldRange : ℚ) :
    outlier firstTime currentRange oldRange = true
      ↔ (firstTime = false
          ∧ |roundDouble (roundDouble currentRange - roundDouble oldRange)|
              > roundDouble (1 / 100))
          ∨ roundDouble currentRange < roundDouble (1 / 1000) := by
  unfold outlier
  cases firstTime <;> simp

/-- A measurement of `p` millimetres is below the `double` 0.001 exactly when `p ≤ 0`. -/
theorem below_iff (p : ℤ) :
    roundDouble ((p : ℚ) / 1000) < roundDouble (1 / 1000) ↔ p ≤ 0 := by
  have he := roundDouble_err ((p : ℚ) / 1000)
  rw [abs_le] at he
  rw [roundDouble_thousandth]
  constructor
  · intro h
    by_contra hp
    have hp1 : 1 ≤ p := by omega
    by_cases h1 : p = 1
    · rw [h1] at h
      have e : (((1 : ℤ) : ℚ) / 1000) = 1 / 1000 := by norm_num
      rw [e, roundDouble_thousandth] at h
      exact lt_irrefl _ h
    · have hp2 : (2 : ℚ) ≤ (p : ℚ) := by
        have : (2 : ℤ) ≤ p := by omega
        exact_mod_cast this
      have ha : |(p : ℚ) / 1000| = (p : ℚ) / 1000 := abs_of_nonneg (by linarith)
      rw [ha] at he
      norm_num at he h
      linarith
  · intro hp
    have hp0 : (p : ℚ) ≤ 0 := by exact_mod_cast hp
    have ha : |(p : ℚ) / 1000| = -((p : ℚ) / 1000) := abs_of_nonpos (by linarith)
    rw [ha] at he
    norm_num at he ⊢
    linarith

/-- Two measurements of whole millimetres that are at least 11 mm apart differ, as
`double`s, by more than the `double` 0.01. -/
theorem far_apart (p q : ℤ) (hp0 : 0 ≤ p) (hp : p ≤ 10 ^ 9) (hq0 : 0 ≤ q) (hq : q ≤ 10 ^ 9)
    (h : 11 ≤ |p - q|) :
    |roundDouble (roundDouble ((p : ℚ) / 1000) - roundDouble ((q : ℚ) / 1000))|
      > roundDouble (1 / 100) := by
  have ha := roundDouble_err ((p : ℚ) / 1000)
  have hb := roundDouble_err ((q : ℚ) / 1000)
  have hd := roundDouble_err (roundDouble ((p : ℚ) / 1000) - roundDouble ((q : ℚ) / 1000))
  have p0 : (0 : ℚ) ≤ p := by exact_mod_cast hp0
  have p1 : (p : ℚ) ≤ 10 ^ 9 := by exact_mod_cast hp
  have q0 : (0 : ℚ) ≤ q := by exact_mod_cast hq0
  have q1 : (q : ℚ) ≤ 10 ^ 9 := by exact_mod_cast hq
  rw [abs_of_nonneg (by linarith : (0 : ℚ) ≤ (p : ℚ) / 1000), abs_le] at ha
  rw [abs_of_nonneg (by linarith : (0 : ℚ) ≤ (q : ℚ) / 1000), abs_le] at hb
  rw [roundDouble_hundredth]
  generalize roundDouble ((p : ℚ) / 1000) = a at ha hb hd ⊢
  generalize roundDouble ((q : ℚ) / 1000) = b at hb hd ⊢
  generalize roundDouble (a - b) = d at hd ⊢
  norm_num at ha hb p1 q1
  rcases le_abs.mp h with h1 | h1
  · have hpq : (11 : ℚ) ≤ (p : ℚ) - q := by exact_mod_cast h1
    have hx : 0 ≤ a - b := by linarith
    rw [abs_of_nonneg hx, abs_le] at hd
    norm_num at hd ⊢
    have : d ≤ |d| := le_abs_self d
    linarith
  · have hpq : (11 : ℚ) ≤ (q : ℚ) - p := by
      have : (11 : ℤ) ≤ q - p := by omega
      exact_mod_cast this
    have hx : a - b ≤ 0 := by linarith
    rw [abs_of_nonpos hx, abs_le] at hd
    norm_num at hd ⊢
    have : -d ≤ |d| := neg_le_abs d
    linarith

/-- Two measurements of whole millimetres that are at most 9 mm apart do not differ, as
`double`s, by more than the `double` 0.01. -/
theorem near_by (p q : ℤ) (hp0 : 0 ≤ p) (hp : p ≤ 10 ^ 9) (hq0 : 0 ≤ q) (hq : q ≤ 10 ^ 9)
    (h : |p - q| ≤ 9) :
    ¬ |roundDouble (roundDouble ((p : ℚ) / 1000) - roundDouble ((q : ℚ) / 1000))|
      > roundDouble (1 / 100) := by
  have ha := roundDouble_err ((p : ℚ) / 1000)
  have hb := roundDouble_err ((q : ℚ) / 1000)
  have hd := roundDouble_err (roundDouble ((p : ℚ) / 1000) - roundDouble ((q : ℚ) / 1000))
  have p0 : (0 : ℚ) ≤ p := by exact_mod_cast hp0
  have p1 : (p : ℚ) ≤ 10 ^ 9 := by exact_mod_cast hp
  have q0 : (0 : ℚ) ≤ q := by exact_mod_cast hq0
  have q1 : (q : ℚ) ≤ 10 ^ 9 := by exact_mod_cast hq
  rw [abs_of_nonneg (by linarith : (0 : ℚ) ≤ (p : ℚ) / 1000), abs_le] at ha
  rw [abs_of_nonneg (by linarith : (0 : ℚ) ≤ (q : ℚ) / 1000), abs_le] at hb
  rw [roundDouble_hundredth]
  generalize roundDouble ((p : ℚ) / 1000) = a at ha hb hd ⊢
  generalize roundDouble ((q : ℚ) / 1000) = b at hb hd ⊢
  generalize roundDouble (a - b) = d at hd ⊢
  obtain ⟨h1, h2⟩ := abs_le.mp h
  have hpq1 : (-9 : ℚ) ≤ (p : ℚ) - q := by exact_mod_cast h1
  have hpq2 : (p : ℚ) - q ≤ 9 := by exact_mod_cast h2
  norm_num at ha hb p1 q1
  have hx : |a - b| ≤ 9 / 1000 + 1 / 1000000 := by
    rw [abs_le]
    constructor <;> linarith
  rw [abs_le] at hd
  have hd1 : |d| ≤ |a - b| + |a - b| / 2 ^ 53 := by
    rw [abs_le]
    have := neg_abs_le (a - b)
    have := le_abs_self (a - b)
    constructor <;> linarith
  norm_num at hd1 ⊢
  linarith

/-- The `double`s of 0.30 m and 0.31 m differ by more than the `double` 0.01. -/
theorem ten_millimetres_up :
    |roundDouble (roundDouble (31 / 100) - roundDouble (3 / 10))| > roundDouble (1 / 100) := by
  have h1 : roundDouble (31 / 100) = 5584463537939415 / 2 ^ 54 :=
    (roundDouble_eq (31 / 100) 54 5584463537939415
      (by rw [abs_of_pos (by norm_num)]; norm_num)
      (by rw [abs_of_pos (by norm_num)]; norm_num)
      (by rw [abs_lt]; constructor <;> norm_num)).trans (by norm_num)
  have h2 : roundDouble (3 / 10) = 5404319552844595 / 2 ^ 54 :=
    (roundDouble_eq (3 / 10) 54 5404319552844595
      (by rw [abs_of_pos (by norm_num)]; norm_num)
      (by rw [abs_of_pos (by norm_num)]; norm_num)
      (by rw [abs_lt]; constructor <;> norm_num)).trans (by norm_num)
  have h3 : roundDouble (5584463537939415 / 2 ^ 54 - 5404319552844595 / 2 ^ 54)
      = 5764607523034240 / 2 ^ 59 :=
    (roundDouble_eq _ 59 5764607523034240
      (by rw [abs_of_pos (by norm_num)]; norm_num)
      (by rw [abs_of_pos (by norm_num)]; norm_num)
      (by rw [abs_lt]; constructor <;> norm_num)).trans (by norm_num)
  rw [h1, h2, h3, roundDouble_hundredth, abs_of_pos (by norm_num)]
  norm_num

/-- The `double`s of 0.01 m and 0.02 m differ by exactly the `double` 0.01. -/
theorem ten_millimetres_low :
    ¬ |roundDouble (roundDouble (2 / 100) - roundDouble (1 / 100))| > roundDouble (1 / 100) := by
  have h1 : roundDouble (2 / 100) = 5764607523034235 / 2 ^ 58 :=
    (roundDouble_eq (2 / 100) 58 5764607523034235
      (by rw [abs_of_pos (by norm_num)]; norm_num)
      (by rw [abs_of_pos (by norm_num)]; norm_num)
      (by rw [abs_lt]; constructor <;> norm_num)).trans (by norm_num)
  have h3 : roundDouble (5764607523034235 / 2 ^ 58 - 5764607523034235 / 2 ^ 59)
      = 5764607523034235 / 2 ^ 59 :=
    (roundDouble_eq _ 59 5764607523034235
      (by rw [abs_of_pos (by norm_num)]; norm_num)
      (by rw [abs_of_pos (by norm_num)]; norm_num)
      (by rw [abs_lt]; constructor <;> norm_num)).trans (by norm_num)
  rw [h1, roundDouble_hundredth, h3, abs_of_pos (by norm_num)]
  exact lt_irrefl _

/-- The first iteration of a running worker that measures at least 1 mm: no second
measurement, and the filter starts at the measurement. -/
theorem worker_first (r : Ranger) (measure : ℕ → ℚ) (p : ℤ) (hrun : r._run = true)
    (hp : 1 ≤ p) (hm : measure 0 = (p : ℚ) / 1000) :
    _worker r Locals.enter measure
      = ({ r with _range := measure 0 },
         { currentRange := measure 0, oldRange := 0, firstTime := false, measured := 1 }) := by
  have ho : outlier Locals.enter.firstTime (measure 0) Locals.enter.currentRange = false := by
    rw [← Bool.not_eq_true, outlier_iff, hm, below_iff]
    rintro (h | h)
    · exact absurd h.1 (by decide)
    · omega
  rw [worker_neg r Locals.enter measure hrun ho]
  have e : (if Locals.enter.firstTime = true then measure 0 else r._range)
      + 1 / 2 * (measure 0 - (if Locals.enter.firstTime = true then measure 0 else r._range))
      = measure 0 := by
    have ht : Locals.enter.firstTime = true := rfl
    rw [if_pos ht]
    ring
  rw [e]
  rfl

/-- The sample after its first iteration, in closed form. -/
theorem sampleFirst_eq :
    sampleFirst
      = ({ _opened := true, _range := 3 / 10, _run := true },
         { currentRange := 3 / 10, oldRange := 0, firstTime := false, measured := 1 }) := by
  unfold sampleFirst
  rw [worker_first (Ranger.new true) (fun _ => 3 / 10) 300 rfl (by decide) (by norm_num)]
  rfl

/-- The second measurement of the sample is 200 mm away from the first, which as a
difference of `double`s is more than the `double` 0.01. -/
theorem sample_jump :
    sampleFirst.2.firstTime = false
      ∧ |roundDouble (roundDouble (sampleMeasure 0) - roundDouble sampleFirst.2.currentRange)|
          > roundDouble (1 / 100) := by
  rw [sampleFirst_eq]
  refine ⟨rfl, ?_⟩
  have e1 : sampleMeasure 0 = ((500 : ℤ) : ℚ) / 1000 := by
    simp [sampleMeasure]
    norm_num
  have e2 : (3 / 10 : ℚ) = ((300 : ℤ) : ℚ) / 1000 := by norm_num
  show |roundDouble (roundDouble (sampleMeasure 0) - roundDouble (3 / 10))| > _
  rw [e1, e2]
  exact far_apart 500 300 (by decide) (by decide) (by decide) (by decide) (by decide)

end Ranger

/-! ## The tank level and the extraction amount -/

namespace Gaggia

/-- The scaled range before it is limited, as a linear function. -/
theorem tankScale_eq (range : ℚ) :
    1 - (range - 18 / 1000) / (12 / 100 - 18 / 1000) = (60 - 500 * range) / 51 := by
  ring

/-- The two-sided limiter of `getWaterTankLevel` is the usual clamp. -/
theorem tankLevel_eq (range : ℚ) :
    tankLevel range
      = max 0 (min (1 - (range - 18 / 1000) / (12 / 100 - 18 / 1000)) 1) := by
  unfold tankLevel
  split_ifs with h1 h2
  · rw [min_eq_left (by linarith), max_eq_left (le_of_lt h1)]
  · rw [min_eq_right (le_of_lt h2), max_eq_right zero_le_one]
  · rw [min_eq_left (not_lt.mp h2), max_eq_right (not_lt.mp h1)]

theorem tankLevel_bounds (range : ℚ) : 0 ≤ tankLevel range ∧ tankLevel range ≤ 1 := by
  rw [tankLevel_eq]
  exact ⟨le_max_left _ _, max_le zero_le_one (min_le_right _ _)⟩

theorem tankLevel_anti (r1 r2 : ℚ) (h : r1 ≤ r2) : tankLevel r2 ≤ tankLevel r1 := by
  rw [tankLevel_eq, tankLevel_eq, tankScale_eq, tankScale_eq]
  have h2 : (60 - 500 * r2) / 51 ≤ (60 - 500 * r1) / 51 := by linarith
  exact max_le_max (le_refl _) (min_le_min h2 (le_refl _))

theorem tankLevel_empty (range : ℚ) (h : range ≥ 12 / 100) : tankLevel range = 0 := by
  rw [tankLevel_eq, tankScale_eq]
  have h2 : (60 - 500 * range) / 51 ≤ 0 := by linarith
  rw [min_eq_left (by linarith), max_eq_left h2]

theorem tankLevel_full (range : ℚ) (h : range ≤ 18 / 1000) : tankLevel range = 1 := by
  rw [tankLevel_eq, tankScale_eq]
  have h2 : 1 ≤ (60 - 500 * range) / 51 := by linarith
  rw [min_eq_right h2, max_eq_right zero_le_one]

end Gaggia

/-! ## The deadline of the regulator loop -/

namespace Regulator

/-- An iteration that runs the PID update moves the deadline on by the time step. -/
theorem _worker_next_pos (l : Loop) (reading : ℚ × Bool) (clock : ℚ)
    (hrun : l.regulator._run = true)
    (h : l.regulator._power = true ∧ (if !reading.2 then 0 else reading.1) > 1 / 2) :
    (_worker l reading clock).next = l.next + l.regulator._timeStep
      ∧ (_worker l reading clock).remain = l.next + l.regulator._timeStep - clock := by
  rw [_worker_pos l reading clock hrun h]
  exact ⟨rfl, rfl⟩

/-- An iteration that does not run the PID update leaves the deadline where it is. -/
theorem _worker_next_neg (l : Loop) (reading : ℚ × Bool) (clock : ℚ)
    (hrun : l.regulator._run = true)
    (h : ¬ (l.regulator._power = true ∧ (if !reading.2 then 0 else reading.1) > 1 / 2)) :
    (_worker l reading clock).next = l.next
      ∧ (_worker l reading clock).remain = l.next - clock
      ∧ (_worker l reading clock).regulator._power = l.regulator._power
      ∧ (_worker l reading clock).regulator._run = l.regulator._run := by
  rw [_worker_neg l reading clock hrun h]
  exact ⟨rfl, rfl, rfl, rfl⟩

/-- With the power flag off no number of iterations moves the deadline. -/
theorem run_power_off (xs : List ((ℚ × Bool) × ℚ)) : ∀ l : Loop,
    l.regulator._run = true → l.regulator._power = false →
    (run l (iterations xs)).next = l.next := by
  induction xs with
  | nil => exact fun l _ _ => rfl
  | cons x rest ih =>
    intro l hrun hp
    have hn : ¬ (l.regulator._power = true ∧ (if !x.1.2 then 0 else x.1.1) > 1 / 2) := by
      rw [hp]
      exact fun h => absurd h.1 (by decide)
    obtain ⟨h1, -, h3, h4⟩ := _worker_next_neg l x.1 x.2 hrun hn
    show (run (_worker l x.1 x.2) (iterations rest)).next = l.next
    rw [ih _ (h4.trans hrun) (h3.trans hp), h1]

end Regulator

/-! ## The counter and the register of the temperature sensor -/

namespace TSIC

/-- A rising edge after a low period from 125 us to 250 us: no bit is shifted in, the edge
is counted. -/
theorem alert_gap (s : TSIC) (tick : ℕ) (h1 : 125 ≤ sub32 tick s._lastLow)
    (h2 : sub32 tick s._lastLow ≤ 250) :
    s._alertFunction 1 tick = countEdge { s with _lastHigh := tick % 2 ^ 32 } := by
  unfold _alertFunction
  simp only [TSIC_FRAME_US]
  rw [if_pos trivial, if_neg (by omega), if_neg (by omega), if_neg (by omega)]

/-- Counting an edge keeps the bounds when the register has at most one bit more than edges
were counted. -/
theorem countEdge_countInv (s : TSIC) (hc : s._count ≤ 19) (hw : s._word < 2 ^ (s._count + 1)) :
    CountInv (countEdge s) := by
  by_cases h : (s._count + 1) % 2 ^ 32 = 20
  · rw [countEdge_pos s h]
    split_ifs <;> exact ⟨Nat.zero_le _, Nat.one_pos⟩
  · rw [countEdge_neg s h]
    have e : (s._count + 1) % 2 ^ 32 = s._count + 1 := by omega
    show (s._count + 1) % 2 ^ 32 ≤ 19 ∧ s._word < 2 ^ ((s._count + 1) % 2 ^ 32)
    rw [e]
    exact ⟨by omega, hw⟩

/-- Counting an edge changes the published sample only when it is the twentieth, and counts
at most one edge. -/
theorem countEdge_sample (s : TSIC) (hc : s._count ≤ 19) :
    ((countEdge s).getDegrees ≠ s.getDegrees → s._count = 19 ∧ (countEdge s)._count = 0)
      ∧ (countEdge s)._count ≤ s._count + 1 := by
  by_cases h : (s._count + 1) % 2 ^ 32 = 20
  · rw [countEdge_pos s h]
    have h19 : s._count = 19 := by omega
    constructor
    · intro _
      refine ⟨h19, ?_⟩
      split_ifs <;> rfl
    · split_ifs <;> exact Nat.zero_le _
  · rw [countEdge_neg s h]
    constructor
    · intro hn
      exact absurd rfl hn
    · show (s._count + 1) % 2 ^ 32 ≤ s._count + 1
      omega

/-- The register of a state within the bounds has room for one more bit. -/
theorem countInv_room (s : TSIC) (h : CountInv s) :
    s._word < 2 ^ 19 ∧ (s._word <<< 1 ||| 1) < 2 ^ 20
      ∧ ((s._word <<< 1) ||| 1) % 2 ^ 32 < 2 ^ (s._count + 1)
      ∧ (s._word <<< 1) % 2 ^ 32 < 2 ^ (s._count + 1) := by
  obtain ⟨hc, hw⟩ := h
  have hp : 2 ^ s._count ≤ 2 ^ 19 := Nat.pow_le_pow_right (by decide) hc
  have e1 : (s._word <<< 1) ||| 1 = 2 * s._word + 1 := shiftLeft_one_or _
  have e0 : s._word <<< 1 = 2 * s._word := by
    rw [Nat.shiftLeft_eq]
    omega
  have h19 : (2 : ℕ) ^ 19 = 524288 := by decide
  rw [e1, e0, pow_succ]
  omega

/-- Every callback keeps the bounds of counter and register. -/
theorem alert_countInv (s : TSIC) (level : ℤ) (tick : ℕ) (h : CountInv s) :
    CountInv (s._alertFunction level tick) := by
  obtain ⟨-, -, r1, r0⟩ := countInv_room s h
  obtain ⟨hc, hw⟩ := h
  by_cases hl : level = 1
  · rw [hl]
    by_cases h1 : sub32 tick s._lastLow < 62
    · rw [alert_one s tick h1]
      exact countEdge_countInv _ hc r1
    · by_cases h2 : sub32 tick s._lastLow < 125
      · rw [alert_zero s tick (not_lt.mp h1) h2]
        exact countEdge_countInv _ hc r0
      · by_cases h3 : 250 < sub32 tick s._lastLow
        · rw [alert_long s tick h3]
          exact ⟨Nat.zero_le _, Nat.one_pos⟩
        · rw [alert_gap s tick (not_lt.mp h2) (not_lt.mp h3)]
          refine countEdge_countInv _ hc ?_
          show s._word < 2 ^ (s._count + 1)
          rw [pow_succ]
          omega
  · rw [alert_falling s level tick hl]
    split_ifs
    · exact ⟨Nat.zero_le _, Nat.one_pos⟩
    · exact ⟨hc, hw⟩

/-- A callback changes the published sample only when it is a rising edge that finds 19
edges counted, and it counts at most one edge. -/
theorem alert_sample (s : TSIC) (level : ℤ) (tick : ℕ) (h : CountInv s) :
    ((s._alertFunction level tick).getDegrees ≠ s.getDegrees →
        level = 1 ∧ s._count = 19 ∧ (s._alertFunction level tick)._count = 0)
      ∧ (s._alertFunction level tick)._count ≤ s._count + 1 := by
  obtain ⟨hc, -⟩ := h
  by_cases hl : level = 1
  · rw [hl]
    have key : ∀ t : TSIC, t._count = s._count → t.getDegrees = s.getDegrees →
        ((countEdge t).getDegrees ≠ s.getDegrees →
          (1 : ℤ) = 1 ∧ s._count = 19 ∧ (countEdge t)._count = 0)
        ∧ (countEdge t)._count ≤ s._count + 1 := by
      intro t ht hd
      obtain ⟨k1, k2⟩ := countEdge_sample t (by rw [ht]; exact hc)
      rw [ht] at k1 k2
      rw [hd] at k1
      exact ⟨fun hn => ⟨rfl, k1 hn⟩, k2⟩
    by_cases h1 : sub32 tick s._lastLow < 62
    · rw [alert_one s tick h1]
      exact key _ rfl rfl
    · by_cases h2 : sub32 tick s._lastLow < 125
      · rw [alert_zero s tick (not_lt.mp h1) h2]
        exact key _ rfl rfl
      · by_cases h3 : 250 < sub32 tick s._lastLow
        · rw [alert_long s tick h3]
          exact ⟨fun hn => absurd rfl hn, Nat.zero_le _⟩
        · rw [alert_gap s tick (not_lt.mp h2) (not_lt.mp h3)]
          exact key _ rfl rfl
  · rw [alert_falling s level tick hl]
    split_ifs
    · exact ⟨fun hn => absurd rfl hn, Nat.zero_le _⟩
    · exact ⟨fun hn => absurd rfl hn, Nat.le_succ _⟩

/-- Every train of edges keeps the bounds of counter and register. -/
theorem run_countInv (edges : List (ℤ × ℕ)) : ∀ s : TSIC, CountInv s → CountInv (s.run edges) := by
  induction edges with
  | nil => exact fun s h => h
  | cons e es ih =>
    intro s h
    rw [run_cons]
    exact ih _ (alert_countInv s e.1 e.2 h)

theorem initializers_countInv : CountInv initializers := ⟨Nat.zero_le _, Nat.one_pos⟩

/-- The two fields that `decodeWord` cuts out of the register. -/
theorem decodeWord_fields (w : ℕ) :
    (w >>> 10) &&& 0x1FF = w / 2 ^ 10 % 2 ^ 9 ∧ w &&& 0x1FF = w % 2 ^ 9 := by
  constructor
  · rw [Nat.shiftRight_eq_div_pow]
    exact Nat.and_pow_two_sub_one_eq_mod _ 9
  · exact Nat.and_pow_two_sub_one_eq_mod _ 9

end TSIC

/-! ## A failed measurement of the ranger -/

namespace Ranger

/-- An iteration whose two measurements fail: the second one is taken, and the filter halves
the published range (the first iteration publishes 0). -/
theorem worker_failed (r : Ranger) (l : Locals) (measure : ℕ → ℚ) (hrun : r._run = true)
    (h0 : measure 0 = 0) (h1 : measure 1 = 0) :
    _worker r l measure
      = ({ r with _range := if l.firstTime then 0 else r._range / 2 },
         { currentRange := 0, oldRange := l.currentRange, firstTime := false,
           measured := l.measured + 2 }) := by
  have ho : outlier l.firstTime (measure 0) l.currentRange = true := by
    rw [outlier_iff, h0, roundDouble_zero, roundDouble_thousandth]
    exact Or.inr (by norm_num)
  rw [worker_pos r l measure hrun ho, h1]
  have e : (if l.firstTime = true then (0 : ℚ) else r._range)
      + 1 / 2 * (0 - (if l.firstTime = true then (0 : ℚ) else r._range))
      = if l.firstTime = true then 0 else r._range / 2 := by
    split_ifs <;> ring
  rw [e]

/-- The sample whose filter holds 0.10 m, in closed form. -/
theorem sampleTenth_eq :
    sampleTenth
      = ({ _opened := true, _range := 1 / 10, _run := true },
         { currentRange := 1 / 10, oldRange := 0, firstTime := false, measured := 1 }) := by
  unfold sampleTenth
  rw [worker_first (Ranger.new true) (fun _ => 1 / 10) 100 rfl (by decide) (by norm_num)]
  rfl

end Ranger

namespace Gaggia

/-- The level that a ready controller reports for an opened ranger. -/
theorem getWaterTankLevel_opened (g : Gaggia) (t : Ranger) (hg : g._ready = true)
    (ho : t._opened = true) :
    g.getWaterTankLevel t = if t._range > 0 then tankLevel t._range else 0 := by
  unfold getWaterTankLevel Ranger.getRange
  rw [if_neg (by simp [hg])]
  simp only [ho, Bool.not_true, Bool.false_eq_true, if_false]
  by_cases h : t._range > 0
  · simp [h]
  · simp [h]

end Gaggia

/-! ## The stored state of the controller -/

namespace Gaggia

open Gaggia.State

theorem oldStateInv_of_eq (g h : Gaggia) (he : h._oldState = g._oldState)
    (hi : OldStateInv g) : OldStateInv h := by
  unfold OldStateInv
  rw [he]
  exact hi

theorem checkAutomaticExtraction_oldState (r : Readings) (g : Gaggia) (l : Locals) :
    (checkAutomaticExtraction r g l).1._oldState = g._oldState := by
  by_cases hs : l.state = ExtractingOneCup ∨ l.state = ExtractingTwoCups
  · by_cases ht : (if l.state = ExtractingOneCup then (25 : ℚ) else 50) ≤ l.flowVolumeCorrected
    · rw [checkAutomaticExtraction_reached r g l hs ht]
    · rw [checkAutomaticExtraction_below r g l hs ht, checkExtractionOffset_frame]
  · rw [checkAutomaticExtraction_neg r g l hs]

/-- The start of a user extraction stores a state that is no extraction state. -/
theorem checkUserExtraction_oldInv (r : Readings) (g : Gaggia) (l : Locals)
    (hsync : l.state = g._currentState) (h : OldStateInv g) :
    OldStateInv (checkUserExtraction r g l).1 := by
  by_cases hc : (l.flowState = Flow.State.Flowing ∧ l.state ≠ Extracting
      ∧ l.state ≠ ExtractingOneCup ∧ l.state ≠ ExtractingTwoCups)
      ∧ 5 ≤ g._idleTimer.getElapsed (r.clock 6)
  · rw [checkUserExtraction_pos r g l hc.1 hc.2]
    show g._currentState ≠ Extracting ∧ g._currentState ≠ ExtractingOneCup
      ∧ g._currentState ≠ ExtractingTwoCups
    rw [← hsync]
    exact hc.1.2
  · rw [checkUserExtraction_neg r g l hc]
    exact h

theorem checkUserExtractionStopped_oldState (r : Readings) (g : Gaggia) (l : Locals) :
    (checkUserExtractionStopped r g l).1._oldState = g._oldState := by
  by_cases h : l.state = Extracting ∧ l.flowState ≠ Flow.State.Flowing
  · rw [checkUserExtractionStopped_pos r g l h]
  · rw [checkUserExtractionStopped_neg r g l h]

theorem checkPreHeatingFinish_oldState (cfg : Settings) (r : Readings) (g : Gaggia)
    (l : Locals) : (checkPreHeatingFinish cfg r g l)._oldState = g._oldState := by
  by_cases h : l.state = Heating ∧ g._preHeatingTime ≤ l.systemTime
  · rw [checkPreHeatingFinish_pos cfg r g l h]
    rfl
  · rw [checkPreHeatingFinish_neg cfg r g l h]

/-- A worker iteration keeps `OldStateInv`. -/
theorem worker_oldInv (cfg : Settings) (g : Gaggia) (r : Readings) (h : OldStateInv g) :
    OldStateInv (_worker cfg g r) := by
  by_cases hrun : g._run = true
  · by_cases hs : g._currentState = Steam
    · rw [worker_steam cfg g r hs]
      exact h
    · rw [worker_of_run cfg g r hrun,
        flowControl_of_ne_steam r g _ (by simpa [copyCurrentStates] using hs)]
      have h1 : OldStateInv (checkAutomaticExtraction r g (copyCurrentStates r g)).1 :=
        oldStateInv_of_eq g _ (checkAutomaticExtraction_oldState r g _) h
      have s1 := checkAutomaticExtraction_sync r g (copyCurrentStates r g) rfl
      have h2 := checkUserExtraction_oldInv r _ _ s1 h1
      have h3 : OldStateInv (checkUserExtractionStopped r
          (checkUserExtraction r (checkAutomaticExtraction r g (copyCurrentStates r g)).1
            (checkAutomaticExtraction r g (copyCurrentStates r g)).2).1
          (checkUserExtraction r (checkAutomaticExtraction r g (copyCurrentStates r g)).1
            (checkAutomaticExtraction r g (copyCurrentStates r g)).2).2).1 :=
        oldStateInv_of_eq _ _ (checkUserExtractionStopped_oldState r _ _) h2
      exact oldStateInv_of_eq _ _ (checkPreHeatingFinish_oldState cfg r _ _) h3
  · have : _worker cfg g r = g := by simp [_worker, hrun]
    rw [this]
    exact h

/-- Every step keeps `OldStateInv`. -/
theorem step_oldInv (cfg : Settings) (g : Gaggia) (s : Step) (h : OldStateInv g) :
    OldStateInv (step cfg g s) := by
  cases s with
  | powerRegulator power =>
    simp only [step, powerRegulator]
    split_ifs <;> exact h
  | extractOneCup clock =>
    simp only [step, extractOneCup]
    split_ifs with h1 h2
    · exact h
    · exact h
    · exact ⟨fun e => h2 (Or.inl e), fun e => h2 (Or.inr (Or.inl e)),
        fun e => h2 (Or.inr (Or.inr (Or.inl e)))⟩
  | extractTwoCups clock =>
    simp only [step, extractTwoCups]
    split_ifs with h1 h2
    · exact h
    · exact h
    · exact ⟨fun e => h2 (Or.inl e), fun e => h2 (Or.inr (Or.inl e)),
        fun e => h2 (Or.inr (Or.inr (Or.inl e)))⟩
  | setSteamMode steam =>
    simp only [step, setSteamMode]
    by_cases h1 : (!g._ready) = true
    · rw [if_pos h1]
      exact h
    · rw [if_neg h1]
      by_cases h2 : g._currentState = Deactivated ∨ g._currentState = Extracting
          ∨ g._currentState = ExtractingOneCup ∨ g._currentState = ExtractingTwoCups
      · rw [if_pos h2]
        exact h
      · rw [if_neg h2]
        cases steam
        · exact h
        · exact ⟨fun e => h2 (Or.inr (Or.inl e)), fun e => h2 (Or.inr (Or.inr (Or.inl e))),
            fun e => h2 (Or.inr (Or.inr (Or.inr e)))⟩
  | worker r => exact worker_oldInv cfg g r h

/-- The constructor leaves `_oldState` at its initialiser. -/
theorem new_oldState (hw : Hardware) (cfg : Settings) (clock : ℕ → ℚ) (a : Bool) :
    (Gaggia.new hw cfg clock a)._oldState = Heating := by
  obtain ⟨h1, h2, h3, h4, h5, h6, h7⟩ := hw
  cases h1 <;> cases h2 <;> cases h3 <;> cases h4 <;> cases h5 <;> cases h6 <;>
    cases h7 <;> cases a <;> rfl

/-- Every run from construction keeps `OldStateInv`. -/
theorem run_oldInv (hw : Hardware) (cfg : Settings) (clock : ℕ → ℚ) (a : Bool)
    (steps : List Step) : OldStateInv (run cfg (Gaggia.new hw cfg clock a) steps) := by
  have hgen : ∀ (steps : List Step) (g : Gaggia), OldStateInv g →
      OldStateInv (run cfg g steps) := by
    intro steps
    induction steps with
    | nil => exact fun g hg => hg
    | cons s rest ih => exact fun g hg => ih (step cfg g s) (step_oldInv cfg g s hg)
  refine hgen steps _ ?_
  unfold OldStateInv
  rw [new_oldState]
  decide

/-- An accepted `setSteamMode(true)`. -/
theorem setSteamMode_true_eq (cfg : Settings) (g : Gaggia) (hr : g._ready = true)
    (hacc : ¬ (g._currentState = Deactivated ∨ g._currentState = Extracting
      ∨ g._currentState = ExtractingOneCup ∨ g._currentState = ExtractingTwoCups)) :
    setSteamMode cfg g true
      = _setRegulatorSettings cfg
          { g with _oldState := g._currentState, _currentState := Steam } := by
  unfold setSteamMode
  rw [if_neg (by simp [hr]), if_neg hacc]
  rfl

/-- An accepted `setSteamMode(false)`. -/
theorem setSteamMode_false_eq (cfg : Settings) (g : Gaggia) (hr : g._ready = true)
    (hacc : ¬ (g._currentState = Deactivated ∨ g._currentState = Extracting
      ∨ g._currentState = ExtractingOneCup ∨ g._currentState = ExtractingTwoCups)) :
    setSteamMode cfg g false
      = _setRegulatorSettings cfg { g with _currentState := g._oldState } := by
  unfold setSteamMode
  rw [if_neg (by simp [hr]), if_neg hacc]
  rfl

/-- In the state Steam `_setRegulatorSettings()` selects the steam gains and target. -/
theorem _setRegulatorSettings_steam (cfg : Settings) (g : Gaggia) (hc : cfg._opened = true)
    (hreg : g._regulator._opened = true) (hs : g._currentState = Steam) :
    (_setRegulatorSettings cfg g)._regulator._pGain = cfg._pSteamGain
      ∧ (_setRegulatorSettings cfg g)._regulator._iGain = cfg._iSteamGain
      ∧ (_setRegulatorSettings cfg g)._regulator._dGain = cfg._dSteamGain
      ∧ (_setRegulatorSettings cfg g)._regulator._targetTemperature
          = cfg._steamTargetTemperature := by
  simp [_setRegulatorSettings, hs, hc, hreg, Settings.getRegulatorSettings,
    Regulator.setPIDGains, Regulator.setTargetTemperature]

end Gaggia

/-! ## The claims about the supervisory controller -/

/-- C1: in the states Extracting, ExtractingOneCup, ExtractingTwoCups and Steam the commands
`extractOneCup()` and `extractTwoCups()` return the controller as it was, so the current
state, `_oldState`, the pump power and the extraction timer are all unchanged (this part of
the code does not even depend on the controller being ready). -/
theorem C1_extract_rejected (g : Gaggia) (clock : ℚ)
    (hstate : g._currentState = .Extracting ∨ g._currentState = .ExtractingOneCup
      ∨ g._currentState = .ExtractingTwoCups ∨ g._currentState = .Steam) :
    g.extractOneCup clock = g ∧ g.extractTwoCups clock = g := by
  constructor
  · unfold Gaggia.extractOneCup
    split_ifs <;> rfl
  · unfold Gaggia.extractTwoCups
    split_ifs <;> rfl

/-- The rejection of C1 at a ready controller that is steaming. -/
theorem C1_extract_rejected_witness :
    Gaggia.Operational (Gaggia.sampleIn .Steam)
      ∧ (Gaggia.sampleIn .Steam).extractOneCup 7 = Gaggia.sampleIn .Steam
      ∧ (Gaggia.sampleIn .Steam).extractTwoCups 7 = Gaggia.sampleIn .Steam :=
  ⟨by decide, C1_extract_rejected (Gaggia.sampleIn .Steam) 7 (by decide)⟩

/-- C2: on a ready controller whose state is none of Extracting, ExtractingOneCup,
ExtractingTwoCups, Steam, `extractOneCup()` (resp. `extractTwoCups()`) stores the state held
before the call in `_oldState`, makes ExtractingOneCup (resp. ExtractingTwoCups) the current
state, leaves the extraction timer reset (not running, elapsed time 0 at every later clock
reading) and the pump switched on. -/
theorem C2_extract_accepted (g : Gaggia) (clock : ℚ) (hop : g.Operational)
    (hstate : ¬ (g._currentState = .Extracting ∨ g._currentState = .ExtractingOneCup
      ∨ g._currentState = .ExtractingTwoCups ∨ g._currentState = .Steam)) :
    ((g.extractOneCup clock)._oldState = g._currentState
      ∧ (g.extractOneCup clock)._currentState = .ExtractingOneCup
      ∧ (g.extractOneCup clock)._extractionTimer.isRunning = false
      ∧ (∀ now, (g.extractOneCup clock)._extractionTimer.getElapsed now = 0)
      ∧ (g.extractOneCup clock)._pumpController.getPower = true)
    ∧ ((g.extractTwoCups clock)._oldState = g._currentState
      ∧ (g.extractTwoCups clock)._currentState = .ExtractingTwoCups
      ∧ (g.extractTwoCups clock)._extractionTimer.isRunning = false
      ∧ (∀ now, (g.extractTwoCups clock)._extractionTimer.getElapsed now = 0)
      ∧ (g.extractTwoCups clock)._pumpController.getPower = true) := by
  obtain ⟨hr, -, hp, -⟩ := hop
  simp [Gaggia.extractOneCup, Gaggia.extractTwoCups, hr, hp, hstate, Timer.reset,
    Timer.isRunning, Timer.getElapsed, Pump.setPower, Pump.getPower]

/-- The acceptance of C2 at ready controllers in Heating, Active and Deactivated. -/
theorem C2_extract_accepted_witness :
    (Gaggia.sampleIn .Active).Operational
      ∧ ((Gaggia.sampleIn .Active).extractOneCup 7)._currentState = .ExtractingOneCup
      ∧ ((Gaggia.sampleIn .Active).extractOneCup 7)._oldState = .Active
      ∧ ((Gaggia.sampleIn .Heating).extractTwoCups 7)._currentState = .ExtractingTwoCups
      ∧ ((Gaggia.sampleIn .Deactivated).extractOneCup 7)._pumpController.getPower = true :=
  ⟨by decide,
   (C2_extract_accepted (Gaggia.sampleIn .Active) 7 (by decide) (by decide)).1.2.1,
   (C2_extract_accepted (Gaggia.sampleIn .Active) 7 (by decide) (by decide)).1.1,
   (C2_extract_accepted (Gaggia.sampleIn .Heating) 7 (by decide) (by decide)).2.2.1,
   (C2_extract_accepted (Gaggia.sampleIn .Deactivated) 7 (by decide) (by decide)).1.2.2.2.2⟩

/-- C3: `powerRegulator(power)` is accepted in every state of a ready controller.  With
`true` the current state becomes Heating and the regulator's power flag is set; with `false`
the current state becomes Deactivated and the flag is cleared; `_oldState` is not written. -/
theorem C3_powerRegulator (g : Gaggia) (hop : g.Operational) :
    ((g.powerRegulator true)._currentState = .Heating
      ∧ (g.powerRegulator true)._regulator._power = true
      ∧ (g.powerRegulator true).getPowerRegulator = true
      ∧ (g.powerRegulator true)._oldState = g._oldState)
    ∧ ((g.powerRegulator false)._currentState = .Deactivated
      ∧ (g.powerRegulator false)._regulator._power = false
      ∧ (g.powerRegulator false).getPowerRegulator = false
      ∧ (g.powerRegulator false)._oldState = g._oldState) := by
  obtain ⟨hr, -, -, hreg⟩ := hop
  simp [Gaggia.powerRegulator, Gaggia.getPowerRegulator, hr, hreg, Regulator.setPower,
    Regulator.getPower]

/-- C3 at a ready controller in the middle of an automatic extraction. -/
theorem C3_powerRegulator_witness :
    (Gaggia.sampleIn .ExtractingOneCup).Operational
      ∧ ((Gaggia.sampleIn .ExtractingOneCup).powerRegulator false)._currentState
          = .Deactivated
      ∧ ((Gaggia.sampleIn .ExtractingOneCup).powerRegulator true)._currentState
          = .Heating :=
  ⟨by decide,
   (C3_powerRegulator (Gaggia.sampleIn .ExtractingOneCup) (by decide)).2.1,
   (C3_powerRegulator (Gaggia.sampleIn .ExtractingOneCup) (by decide)).1.1⟩

/-- C4: on a ready controller with the settings loaded, `setSteamMode(true)` returns the
controller as it was (state, `_oldState` and the regulator included) when the current state
is Deactivated, Extracting, ExtractingOneCup or ExtractingTwoCups; in every other state it
stores the state held before the call in `_oldState`, makes Steam the current state and
gives the regulator the steam gains and the steam target temperature of the settings. -/
theorem C4_setSteamMode_true (cfg : Settings) (g : Gaggia) (hop : g.Operational)
    (hcfg : cfg.ready = true) :
    ((g._currentState = .Deactivated ∨ g._currentState = .Extracting
        ∨ g._currentState = .ExtractingOneCup ∨ g._currentState = .ExtractingTwoCups) →
      Gaggia.setSteamMode cfg g true = g)
    ∧ (¬ (g._currentState = .Deactivated ∨ g._currentState = .Extracting
        ∨ g._currentState = .ExtractingOneCup ∨ g._currentState = .ExtractingTwoCups) →
      (Gaggia.setSteamMode cfg g true)._oldState = g._currentState
      ∧ (Gaggia.setSteamMode cfg g true)._currentState = .Steam
      ∧ (Gaggia.setSteamMode cfg g true)._regulator._pGain = cfg._pSteamGain
      ∧ (Gaggia.setSteamMode cfg g true)._regulator._iGain = cfg._iSteamGain
      ∧ (Gaggia.setSteamMode cfg g true)._regulator._dGain = cfg._dSteamGain
      ∧ (Gaggia.setSteamMode cfg g true)._regulator._targetTemperature
          = cfg._steamTargetTemperature
      ∧ (Gaggia.setSteamMode cfg g true)._regulator.getTargetTemperature
          = cfg._steamTargetTemperature) := by
  obtain ⟨hr, -, -, hreg⟩ := hop
  have hc : cfg._opened = true := hcfg
  constructor
  · intro h
    simp [Gaggia.setSteamMode, hr, h]
  · intro h
    simp [Gaggia.setSteamMode, Gaggia._setRegulatorSettings, hr, hreg, hc, h,
      Settings.getRegulatorSettings, Regulator.setPIDGains, Regulator.setTargetTemperature,
      Regulator.getTargetTemperature]

/-- C4 at ready controllers: rejected while Deactivated, accepted while Active. -/
theorem C4_setSteamMode_true_witness :
    (Gaggia.sampleIn .Active).Operational ∧ Settings.loadDefaults.ready = true
      ∧ Gaggia.setSteamMode Settings.loadDefaults (Gaggia.sampleIn .Deactivated) true
          = Gaggia.sampleIn .Deactivated
      ∧ (Gaggia.setSteamMode Settings.loadDefaults (Gaggia.sampleIn .Active) true)._currentState
          = .Steam :=
  ⟨by decide, by decide,
   (C4_setSteamMode_true Settings.loadDefaults (Gaggia.sampleIn .Deactivated) (by decide)
      (by decide)).1 (by decide),
   ((C4_setSteamMode_true Settings.loadDefaults (Gaggia.sampleIn .Active) (by decide)
      (by decide)).2 (by decide)).2.1⟩

/-- C5 as stated fails: a controller still heating that ran `extractOneCup()` at 10 s and
whose shot reaches 32.5 mL (corrected 25 mL) at the tick at 40 s does not end that tick in
its `_oldState` Heating; the pre-heating check of the same tick moves it on to Active. -/
theorem C5_counterexample :
    Gaggia.sampleEarlyShot.Operational
      ∧ Gaggia.sampleEarlyShot._currentState = .ExtractingOneCup
      ∧ Gaggia.sampleEarlyShot._oldState = .Heating
      ∧ (25 : ℚ) ≤ (Gaggia.readingsAt 40 .Flowing (65 / 2)).flowVolume
          - Gaggia.sampleEarlyShot._flowOffsetOneCup
      ∧ (Gaggia._worker Settings.loadDefaults Gaggia.sampleEarlyShot
          (Gaggia.readingsAt 40 .Flowing (65 / 2)))._currentState = .Active
      ∧ (Gaggia._worker Settings.loadDefaults Gaggia.sampleEarlyShot
          (Gaggia.readingsAt 40 .Flowing (65 / 2)))._currentState
          ≠ Gaggia.sampleEarlyShot._oldState := by
  have hA : (Gaggia._worker Settings.loadDefaults Gaggia.sampleEarlyShot
      (Gaggia.readingsAt 40 .Flowing (65 / 2)))._currentState = .Active := by
    simp [Gaggia.sampleEarlyShot_eq, Gaggia.readingsAt, Gaggia._worker,
      Gaggia.copyCurrentStates, Gaggia.flowControl, Gaggia.checkAutomaticExtraction,
      Gaggia.checkExtractionOffset, Gaggia.checkTargetVolume, Gaggia.checkUserExtraction,
      Gaggia.checkUserExtractionStopped, Gaggia.checkPreHeatingFinish, Timer.reset,
      Timer.start, Timer.stop, Timer.isRunning, Timer.getElapsed, Pump.setPower,
      Pump.getPower]
    norm_num
  refine ⟨by decide, by decide, by decide, ?_, hA, ?_⟩
  · simp [Gaggia.sampleEarlyShot_eq, Gaggia.readingsAt]
    norm_num
  · rw [hA]
    decide

/-- C5 (amended): a tick of a ready controller whose copied state is ExtractingOneCup (resp.
ExtractingTwoCups), with fewer than 5 s between the idle-timer restart and the debounce
reading of that tick.  If the raw volume minus that size's offset is at least 25 mL (resp.
50 mL) the tick leaves the pump off, the extraction timer stopped and the idle timer running
from a reading of this tick, and the current state is `_oldState` - or Active when
`_oldState` is Heating and the copied system time has reached `_preHeatingTime`.  Below the
target the tick changes neither the pump nor the current state. -/
theorem C5_automatic_extraction_end (cfg : Settings) (g : Gaggia) (r : Gaggia.Readings)
    (hop : g.Operational)
    (hstate : g._currentState = .ExtractingOneCup ∨ g._currentState = .ExtractingTwoCups)
    (hprompt : r.clock 6 - r.clock 5 < 5) :
    ((if g._currentState = .ExtractingOneCup then (25 : ℚ) else 50)
        ≤ r.flowVolume
          - (if g._currentState = .ExtractingOneCup then g._flowOffsetOneCup
             else g._flowOffsetTwoCups) →
      (Gaggia._worker cfg g r)._pumpController.getPower = false
      ∧ (Gaggia._worker cfg g r)._extractionTimer.isRunning = false
      ∧ (Gaggia._worker cfg g r)._idleTimer.isRunning = true
      ∧ ((Gaggia._worker cfg g r)._idleTimer._startTime = r.clock 5
          ∨ (Gaggia._worker cfg g r)._idleTimer._startTime = r.clock 11
          ∨ (Gaggia._worker cfg g r)._idleTimer._startTime = r.clock 13)
      ∧ (Gaggia._worker cfg g r)._currentState
          = if g._oldState = .Heating
              ∧ g._preHeatingTime ≤ g._systemTimer.getElapsed (r.clock 0)
            then .Active else g._oldState)
    ∧ (r.flowVolume
          - (if g._currentState = .ExtractingOneCup then g._flowOffsetOneCup
             else g._flowOffsetTwoCups)
        < (if g._currentState = .ExtractingOneCup then (25 : ℚ) else 50) →
      (Gaggia._worker cfg g r)._pumpController = g._pumpController
      ∧ (Gaggia._worker cfg g r)._currentState = g._currentState) := by
  obtain ⟨-, hrun, hp, -⟩ := hop
  have hcorr : (Gaggia.copyCurrentStates r g).flowVolumeCorrected
      = r.flowVolume - (if g._currentState = .ExtractingOneCup then g._flowOffsetOneCup
             else g._flowOffsetTwoCups) := by
    rcases hstate with h | h <;> simp [Gaggia.copyCurrentStates, h]
  constructor
  · intro ht
    rw [← hcorr] at ht
    have hA := Gaggia.checkAutomaticExtraction_reached r g (Gaggia.copyCurrentStates r g)
      hstate ht
    rw [Gaggia.worker_auto_reached cfg g r hrun hstate ht hprompt, hA]
    by_cases h1 : g._oldState = .Extracting ∧ r.flowState ≠ Flow.State.Flowing
    · have h2 : ¬ (g._oldState = .Heating
          ∧ g._preHeatingTime ≤ g._systemTimer.getElapsed (r.clock 0)) := by
        simp [h1.1]
      rw [if_pos h1, if_neg h2]
      simp [Pump.setPower, Pump.getPower, hp]
    · rw [if_neg h1]
      by_cases h2 : g._oldState = .Heating
          ∧ g._preHeatingTime ≤ g._systemTimer.getElapsed (r.clock 0)
      · rw [if_pos h2, if_pos h2]
        simp [Pump.setPower, Pump.getPower, hp]
      · rw [if_neg h2, if_neg h2]
        simp [Pump.setPower, Pump.getPower, hp]
  · intro ht
    rw [← hcorr] at ht
    rw [Gaggia.worker_auto_below cfg g r hrun hstate (not_le.mpr ht),
      Gaggia.checkExtractionOffset_frame]
    exact ⟨rfl, rfl⟩

/-- The scenario of C5: from Active, `extractOneCup()` with offset 7.5 mL; the tick at which
the raw volume is 32.5 mL ends with the pump off, the extraction timer stopped and the state
Active. -/
theorem C5_automatic_extraction_end_witness :
    Gaggia.sampleShot.Operational
      ∧ Gaggia.sampleShot._oldState = .Active
      ∧ (Gaggia._worker Settings.loadDefaults Gaggia.sampleShot
          (Gaggia.readingsAt 60 .Flowing (65 / 2)))._pumpController.getPower = false
      ∧ (Gaggia._worker Settings.loadDefaults Gaggia.sampleShot
          (Gaggia.readingsAt 60 .Flowing (65 / 2)))._extractionTimer.isRunning = false
      ∧ (Gaggia._worker Settings.loadDefaults Gaggia.sampleShot
          (Gaggia.readingsAt 60 .Flowing (65 / 2)))._currentState = .Active := by
  have hop : Gaggia.sampleShot.Operational := by
    simp [Gaggia.Operational, Gaggia.sampleShot_eq]
  have h := (C5_automatic_extraction_end Settings.loadDefaults Gaggia.sampleShot
    (Gaggia.readingsAt 60 .Flowing (65 / 2)) hop
    (by simp [Gaggia.sampleShot_eq]) (by simp [Gaggia.readingsAt])).1
    (by simp [Gaggia.sampleShot_eq, Gaggia.readingsAt]; norm_num)
  refine ⟨hop, by simp [Gaggia.sampleShot_eq], h.1, h.2.1, ?_⟩
  rw [h.2.2.2.2]
  simp [Gaggia.sampleShot_eq]

/-- C6 as stated fails in its last part: the sample controller after `extractOneCup()` (offset
7.5 mL, timer stopped, pump on) meets a first tick with raw volume 33 mL, at least the
offset; the timer is started and stopped in that same tick, so it is not running after it. -/
theorem C6_counterexample :
    Gaggia.sampleShot.Operational
      ∧ Gaggia.sampleShot._currentState = .ExtractingOneCup
      ∧ Gaggia.sampleShot._extractionTimer.isRunning = false
      ∧ Gaggia.sampleShot._pumpController.getPower = true
      ∧ Gaggia.sampleShot._flowOffsetOneCup ≤ (Gaggia.readingsAt 41 .Flowing 33).flowVolume
      ∧ (Gaggia._worker Settings.loadDefaults Gaggia.sampleShot
          (Gaggia.readingsAt 41 .Flowing 33))._extractionTimer.isRunning = false := by
  refine ⟨?_, ?_, ?_, ?_, ?_, ?_⟩
  · simp [Gaggia.Operational, Gaggia.sampleShot_eq]
  · simp [Gaggia.sampleShot_eq]
  · simp [Gaggia.sampleShot_eq, Timer.isRunning]
  · simp [Gaggia.sampleShot_eq, Pump.getPower]
  · simp [Gaggia.sampleShot_eq, Gaggia.readingsAt]
    norm_num
  · simp [Gaggia.sampleShot_eq, Gaggia.readingsAt, Gaggia._worker,
      Gaggia.copyCurrentStates, Gaggia.flowControl, Gaggia.checkAutomaticExtraction,
      Gaggia.checkExtractionOffset, Gaggia.checkTargetVolume, Gaggia.checkUserExtraction,
      Gaggia.checkUserExtractionStopped, Gaggia.checkPreHeatingFinish, Timer.reset,
      Timer.start, Timer.stop, Timer.isRunning, Timer.getElapsed, Pump.setPower,
      Pump.getPower]
    norm_num
    simp

/-- C6 (amended): a tick of a ready controller whose copied state is ExtractingOneCup or
ExtractingTwoCups, with fewer than 5 s between the idle-timer restart and the debounce
reading of that tick.  The extraction timer takes a new start time in that tick (it is reset
and started) exactly when the copy shows the timer not running, the raw volume at least the
size's offset and the pump on; otherwise its start time is kept.  Below the target volume the
timer is then left running from that start, resp. untouched - and the whole controller is
untouched when the timer is not started -, while a tick that reaches the target volume leaves
the timer stopped even if it has just started it. -/
theorem C6_extraction_timer_start (cfg : Settings) (g : Gaggia) (r : Gaggia.Readings)
    (hop : g.Operational)
    (hstate : g._currentState = .ExtractingOneCup ∨ g._currentState = .ExtractingTwoCups)
    (hprompt : r.clock 6 - r.clock 5 < 5) :
    (Gaggia._worker cfg g r)._extractionTimer._startTime
        = (if g._extractionTimer.isRunning = false
              ∧ (if g._currentState = .ExtractingOneCup then g._flowOffsetOneCup
                 else g._flowOffsetTwoCups) ≤ r.flowVolume
              ∧ g._pumpController.getPower = true
           then r.clock 2 else g._extractionTimer._startTime)
    ∧ (r.flowVolume
          - (if g._currentState = .ExtractingOneCup then g._flowOffsetOneCup
             else g._flowOffsetTwoCups)
        < (if g._currentState = .ExtractingOneCup then (25 : ℚ) else 50) →
      (Gaggia._worker cfg g r)._extractionTimer
        = (if g._extractionTimer.isRunning = false
              ∧ (if g._currentState = .ExtractingOneCup then g._flowOffsetOneCup
                 else g._flowOffsetTwoCups) ≤ r.flowVolume
              ∧ g._pumpController.getPower = true
           then (g._extractionTimer.reset (r.clock 1)).start (r.clock 2)
           else g._extractionTimer)
      ∧ (¬ (g._extractionTimer.isRunning = false
              ∧ (if g._currentState = .ExtractingOneCup then g._flowOffsetOneCup
                 else g._flowOffsetTwoCups) ≤ r.flowVolume
              ∧ g._pumpController.getPower = true) →
          Gaggia._worker cfg g r = g))
    ∧ ((if g._currentState = .ExtractingOneCup then (25 : ℚ) else 50)
        ≤ r.flowVolume
          - (if g._currentState = .ExtractingOneCup then g._flowOffsetOneCup
             else g._flowOffsetTwoCups) →
      (Gaggia._worker cfg g r)._extractionTimer.isRunning = false) := by
  obtain ⟨-, hrun, -, -⟩ := hop
  have hcorr := Gaggia.copyCurrentStates_corrected r g hstate
  have hbelow : r.flowVolume
        - (if g._currentState = .ExtractingOneCup then g._flowOffsetOneCup
           else g._flowOffsetTwoCups)
      < (if g._currentState = .ExtractingOneCup then (25 : ℚ) else 50) →
      (Gaggia._worker cfg g r)._extractionTimer
        = (if g._extractionTimer.isRunning = false
              ∧ (if g._currentState = .ExtractingOneCup then g._flowOffsetOneCup
                 else g._flowOffsetTwoCups) ≤ r.flowVolume
              ∧ g._pumpController.getPower = true
           then (g._extractionTimer.reset (r.clock 1)).start (r.clock 2)
           else g._extractionTimer) := by
    intro ht
    rw [← hcorr] at ht
    rw [Gaggia.worker_auto_below cfg g r hrun hstate (not_le.mpr ht),
      Gaggia.checkExtractionOffset_timer]
  have hreached : (if g._currentState = .ExtractingOneCup then (25 : ℚ) else 50)
        ≤ r.flowVolume
          - (if g._currentState = .ExtractingOneCup then g._flowOffsetOneCup
             else g._flowOffsetTwoCups) →
      (Gaggia._worker cfg g r)._extractionTimer.isRunning = false
      ∧ (Gaggia._worker cfg g r)._extractionTimer._startTime
        = (Gaggia.checkExtractionOffset r g
            (Gaggia.copyCurrentStates r g)).1._extractionTimer._startTime := by
    intro ht
    rw [← hcorr] at ht
    have hA := Gaggia.checkAutomaticExtraction_reached r g (Gaggia.copyCurrentStates r g)
      hstate ht
    rw [Gaggia.worker_auto_reached cfg g r hrun hstate ht hprompt, hA]
    by_cases h1 : g._oldState = .Extracting ∧ r.flowState ≠ Flow.State.Flowing
    · rw [if_pos h1]
      simp
    · rw [if_neg h1]
      by_cases h2 : g._oldState = .Heating
          ∧ g._preHeatingTime ≤ g._systemTimer.getElapsed (r.clock 0)
      · rw [if_pos h2]
        simp
      · rw [if_neg h2]
        simp
  refine ⟨?_, fun ht => ⟨hbelow ht, fun hC => ?_⟩, fun ht => (hreached ht).1⟩
  · by_cases ht : (if g._currentState = .ExtractingOneCup then (25 : ℚ) else 50)
        ≤ r.flowVolume
          - (if g._currentState = .ExtractingOneCup then g._flowOffsetOneCup
             else g._flowOffsetTwoCups)
    · rw [(hreached ht).2, Gaggia.checkExtractionOffset_timer]
      split_ifs <;> simp
    · rw [hbelow (not_le.mp ht)]
      split_ifs <;> simp
  · rw [← hcorr] at ht
    rw [Gaggia.worker_auto_below cfg g r hrun hstate (not_le.mpr ht),
      Gaggia.checkExtractionOffset_neg r g _ hC]

/-- The scenario of C6 on the sample controller after `extractOneCup()` with offset 7.5 mL:
the tick with raw volume 7 mL changes nothing, the timer staying stopped at elapsed 0; the
tick with the pump on and raw volume 8 mL leaves the timer running. -/
theorem C6_extraction_timer_start_witness :
    Gaggia.sampleShot.Operational
      ∧ Gaggia._worker Settings.loadDefaults Gaggia.sampleShot
          (Gaggia.readingsAt 41 .Flowing 7) = Gaggia.sampleShot
      ∧ Gaggia.sampleShot._extractionTimer.isRunning = false
      ∧ Gaggia.sampleShot._extractionTimer.getElapsed 41 = 0
      ∧ (Gaggia._worker Settings.loadDefaults Gaggia.sampleShot
          (Gaggia.readingsAt 42 .Flowing 8))._extractionTimer.isRunning = true := by
  have hop : Gaggia.sampleShot.Operational := by
    simp [Gaggia.Operational, Gaggia.sampleShot_eq]
  have h7 := (C6_extraction_timer_start Settings.loadDefaults Gaggia.sampleShot
    (Gaggia.readingsAt 41 .Flowing 7) hop (by simp [Gaggia.sampleShot_eq])
    (by simp [Gaggia.readingsAt])).2.1
    (by simp [Gaggia.sampleShot_eq, Gaggia.readingsAt]; norm_num)
  have h8 := (C6_extraction_timer_start Settings.loadDefaults Gaggia.sampleShot
    (Gaggia.readingsAt 42 .Flowing 8) hop (by simp [Gaggia.sampleShot_eq])
    (by simp [Gaggia.readingsAt])).2.1
    (by simp [Gaggia.sampleShot_eq, Gaggia.readingsAt]; norm_num)
  refine ⟨hop, h7.2 ?_, ?_, ?_, ?_⟩
  · simp [Gaggia.sampleShot_eq, Gaggia.readingsAt]
    norm_num
  · simp [Gaggia.sampleShot_eq, Timer.isRunning]
  · simp [Gaggia.sampleShot_eq, Timer.getElapsed]
  · rw [h8.1, if_pos]
    · simp
    · simp [Gaggia.sampleShot_eq, Gaggia.readingsAt, Timer.isRunning, Pump.getPower]
      norm_num

/-- C7: a tick of a ready controller.  In Steam the tick changes nothing, so it does not enter
Extracting.  Otherwise, when the state left by the automatic-extraction check of the tick is
none of Steam, Extracting, ExtractingOneCup, ExtractingTwoCups, the tick ends in Extracting
if and only if the flow meter reads Flowing and the idle timer then shows at least 5 s; on
entry `_oldState` is the state held just before and the extraction timer is reset and
started.  (For a copied state other than the two automatic extractions that check does
nothing, so "the state left by it" is the state before the tick.) -/
theorem C7_user_extraction_start (cfg : Settings) (g : Gaggia) (r : Gaggia.Readings)
    (hop : g.Operational) :
    (g._currentState = .Steam →
      Gaggia._worker cfg g r = g ∧ (Gaggia._worker cfg g r)._currentState ≠ .Extracting)
    ∧ ((Gaggia.checkAutomaticExtraction r g (Gaggia.copyCurrentStates r g)).2.state ≠ .Steam →
        (Gaggia.checkAutomaticExtraction r g (Gaggia.copyCurrentStates r g)).2.state
          ≠ .Extracting →
        (Gaggia.checkAutomaticExtraction r g (Gaggia.copyCurrentStates r g)).2.state
          ≠ .ExtractingOneCup →
        (Gaggia.checkAutomaticExtraction r g (Gaggia.copyCurrentStates r g)).2.state
          ≠ .ExtractingTwoCups →
        ((Gaggia._worker cfg g r)._currentState = .Extracting
          ↔ r.flowState = Flow.State.Flowing
            ∧ 5 ≤ (Gaggia.checkAutomaticExtraction r g
                (Gaggia.copyCurrentStates r g)).1._idleTimer.getElapsed (r.clock 6))
        ∧ (r.flowState = Flow.State.Flowing →
            5 ≤ (Gaggia.checkAutomaticExtraction r g
                (Gaggia.copyCurrentStates r g)).1._idleTimer.getElapsed (r.clock 6) →
            (Gaggia._worker cfg g r)._oldState
              = (Gaggia.checkAutomaticExtraction r g (Gaggia.copyCurrentStates r g)).2.state
            ∧ (Gaggia._worker cfg g r)._extractionTimer
              = { _startTime := r.clock 8, _stopTime := r.clock 7, _running := true }))
    ∧ (g._currentState ≠ .ExtractingOneCup → g._currentState ≠ .ExtractingTwoCups →
        Gaggia.checkAutomaticExtraction r g (Gaggia.copyCurrentStates r g)
          = (g, Gaggia.copyCurrentStates r g)) := by
  obtain ⟨-, hrun, -, -⟩ := hop
  refine ⟨fun hs => ?_, fun h1 h2 h3 h4 => ?_, fun h1 h2 => ?_⟩
  · rw [Gaggia.worker_steam cfg g r hs]
    exact ⟨rfl, by simp [hs]⟩
  · have hne : g._currentState ≠ .Steam := by
      intro hs
      apply h1
      rw [Gaggia.checkAutomaticExtraction_neg]
      · exact hs
      · simp [Gaggia.copyCurrentStates, hs]
    have hsync := Gaggia.checkAutomaticExtraction_sync r g (Gaggia.copyCurrentStates r g) rfl
    have hloc := Gaggia.checkAutomaticExtraction_locals r g (Gaggia.copyCurrentStates r g)
    have hflow : (Gaggia.checkAutomaticExtraction r g
        (Gaggia.copyCurrentStates r g)).2.flowState = r.flowState := hloc.1
    have htail := Gaggia.userExtraction_tail cfg r
      (Gaggia.checkAutomaticExtraction r g (Gaggia.copyCurrentStates r g)).1
      (Gaggia.checkAutomaticExtraction r g (Gaggia.copyCurrentStates r g)).2
      hsync ⟨h2, h3, h4⟩
    rw [hflow] at htail
    rw [Gaggia.worker_of_run cfg g r hrun,
      Gaggia.flowControl_of_ne_steam r g _ (by simpa [Gaggia.copyCurrentStates] using hne)]
    refine ⟨htail.1, fun hf hi => ?_⟩
    rw [htail.2 hf hi]
    exact ⟨hsync.symm, rfl⟩
  · rw [Gaggia.checkAutomaticExtraction_neg]
    simp [Gaggia.copyCurrentStates, h1, h2]

/-- C7 on the sample controller, active with the idle timer started at 31 s: the tick at
40 s with water flowing enters Extracting and remembers Active; the tick at 33 s does not. -/
theorem C7_user_extraction_start_witness :
    Gaggia.sampleActive.Operational
      ∧ (Gaggia._worker Settings.loadDefaults Gaggia.sampleActive
          (Gaggia.readingsAt 40 .Flowing 1))._currentState = .Extracting
      ∧ (Gaggia._worker Settings.loadDefaults Gaggia.sampleActive
          (Gaggia.readingsAt 40 .Flowing 1))._oldState = .Active
      ∧ (Gaggia._worker Settings.loadDefaults Gaggia.sampleActive
          (Gaggia.readingsAt 33 .Flowing 1))._currentState ≠ .Extracting := by
  have hop : Gaggia.sampleActive.Operational := by
    simp [Gaggia.Operational, Gaggia.sampleActive_eq]
  have hA : ∀ r, Gaggia.checkAutomaticExtraction r Gaggia.sampleActive
      (Gaggia.copyCurrentStates r Gaggia.sampleActive)
      = (Gaggia.sampleActive, Gaggia.copyCurrentStates r Gaggia.sampleActive) := fun r =>
    (C7_user_extraction_start Settings.loadDefaults Gaggia.sampleActive r hop).2.2
      (by simp [Gaggia.sampleActive_eq]) (by simp [Gaggia.sampleActive_eq])
  have hS : ∀ r, (Gaggia.copyCurrentStates r Gaggia.sampleActive).state = .Active := fun r => by
    simp [Gaggia.copyCurrentStates, Gaggia.sampleActive_eq]
  have h := fun r => (C7_user_extraction_start Settings.loadDefaults Gaggia.sampleActive r
    hop).2.1 (by rw [hA, hS]; decide)
    (by rw [hA, hS]; decide) (by rw [hA, hS]; decide) (by rw [hA, hS]; decide)
  have hi40 : (5 : ℚ) ≤ Gaggia.sampleActive._idleTimer.getElapsed 40 := by
    simp [Gaggia.sampleActive_eq, Timer.getElapsed]
    norm_num
  have hi33 : ¬ (5 : ℚ) ≤ Gaggia.sampleActive._idleTimer.getElapsed 33 := by
    simp [Gaggia.sampleActive_eq, Timer.getElapsed]
    norm_num
  refine ⟨hop, ?_, ?_, ?_⟩
  · refine ((h (Gaggia.readingsAt 40 .Flowing 1)).1).2 ⟨rfl, ?_⟩
    rw [hA]
    exact hi40
  · rw [((h (Gaggia.readingsAt 40 .Flowing 1)).2 rfl (by rw [hA]; exact hi40)).1, hA, hS]
  · intro hE
    have := ((h (Gaggia.readingsAt 33 .Flowing 1)).1).1 hE
    rw [hA] at this
    exact hi33 this.2

/-- C8 as stated fails: the sample controller that entered a user extraction from Heating at
40 s (`_oldState` Heating) does not end the tick at 50 s, at which the flow has stopped, in
Heating; the pre-heating check of the same tick moves it on to Active. -/
theorem C8_counterexample :
    Gaggia.sampleReheatedBrew.Operational
      ∧ Gaggia.sampleReheatedBrew._currentState = .Extracting
      ∧ Gaggia.sampleReheatedBrew._oldState = .Heating
      ∧ (Gaggia.readingsAt 50 .Stopped 2).flowState ≠ Flow.State.Flowing
      ∧ (Gaggia._worker Settings.loadDefaults Gaggia.sampleReheatedBrew
          (Gaggia.readingsAt 50 .Stopped 2))._currentState = .Active
      ∧ (Gaggia._worker Settings.loadDefaults Gaggia.sampleReheatedBrew
          (Gaggia.readingsAt 50 .Stopped 2))._currentState
          ≠ Gaggia.sampleReheatedBrew._oldState := by
  have hA : (Gaggia._worker Settings.loadDefaults Gaggia.sampleReheatedBrew
      (Gaggia.readingsAt 50 .Stopped 2))._currentState = .Active := by
    simp [Gaggia.sampleReheatedBrew_eq, Gaggia.readingsAt, Gaggia._worker,
      Gaggia.copyCurrentStates, Gaggia.flowControl, Gaggia.checkAutomaticExtraction,
      Gaggia.checkUserExtraction, Gaggia.checkUserExtractionStopped,
      Gaggia.checkPreHeatingFinish, Timer.reset, Timer.start, Timer.stop, Timer.isRunning,
      Timer.getElapsed, Pump.getPower]
    norm_num
  refine ⟨?_, ?_, ?_, ?_, hA, ?_⟩
  · simp [Gaggia.Operational, Gaggia.sampleReheatedBrew_eq]
  · simp [Gaggia.sampleReheatedBrew_eq]
  · simp [Gaggia.sampleReheatedBrew_eq]
  · simp [Gaggia.readingsAt]
  · rw [hA]
    simp [Gaggia.sampleReheatedBrew_eq]

/-- C8 (amended): a tick of a ready controller in state Extracting.  When the flow meter does
not read Flowing, the current state becomes `_oldState` - or Active when `_oldState` is
Heating and the copied system time has reached `_preHeatingTime` -, the extraction timer is
stopped, its elapsed time frozen at the value `stop()` measured, and the idle timer is
running from a reading of this tick.  While the flow meter reads Flowing the tick changes
nothing. -/
theorem C8_user_extraction_end (cfg : Settings) (g : Gaggia) (r : Gaggia.Readings)
    (hop : g.Operational) (hstate : g._currentState = .Extracting) :
    (r.flowState ≠ Flow.State.Flowing →
      (Gaggia._worker cfg g r)._currentState
          = (if g._oldState = .Heating
              ∧ g._preHeatingTime ≤ g._systemTimer.getElapsed (r.clock 0)
             then .Active else g._oldState)
      ∧ (Gaggia._worker cfg g r)._extractionTimer = g._extractionTimer.stop (r.clock 9)
      ∧ (Gaggia._worker cfg g r)._extractionTimer.isRunning = false
      ∧ (∀ now, (Gaggia._worker cfg g r)._extractionTimer.getElapsed now
          = r.clock 9 - g._extractionTimer._startTime)
      ∧ (Gaggia._worker cfg g r)._idleTimer.isRunning = true
      ∧ ((Gaggia._worker cfg g r)._idleTimer._startTime = r.clock 11
          ∨ (Gaggia._worker cfg g r)._idleTimer._startTime = r.clock 13))
    ∧ (r.flowState = Flow.State.Flowing → Gaggia._worker cfg g r = g) := by
  obtain ⟨-, hrun, -, -⟩ := hop
  refine ⟨fun hf => ?_, fun hf => Gaggia.worker_extracting_flowing cfg g r hstate hf⟩
  rw [Gaggia.worker_extracting_stopped cfg g r hrun hstate hf]
  by_cases hH : g._oldState = .Heating
      ∧ g._preHeatingTime ≤ g._systemTimer.getElapsed (r.clock 0)
  · rw [if_pos hH, if_pos hH]
    simp
  · rw [if_neg hH, if_neg hH]
    simp

/-- C8 on the sample controller in a user extraction entered from Active at 40 s: the tick
at 50 s without flow returns to Active with the extraction timer stopped at 10 s. -/
theorem C8_user_extraction_end_witness :
    (Gaggia._worker Settings.loadDefaults Gaggia.sampleActive
        (Gaggia.readingsAt 40 .Flowing 1)).Operational
      ∧ (Gaggia._worker Settings.loadDefaults
          (Gaggia._worker Settings.loadDefaults Gaggia.sampleActive
            (Gaggia.readingsAt 40 .Flowing 1))
          (Gaggia.readingsAt 50 .Stopped 2))._currentState = .Active
      ∧ (Gaggia._worker Settings.loadDefaults
          (Gaggia._worker Settings.loadDefaults Gaggia.sampleActive
            (Gaggia.readingsAt 40 .Flowing 1))
          (Gaggia.readingsAt 50 .Stopped 2))._extractionTimer.getElapsed 77 = 10 := by
  have hB : Gaggia._worker Settings.loadDefaults Gaggia.sampleActive
      (Gaggia.readingsAt 40 .Flowing 1)
      = { Gaggia.sampleActive with
          _oldState := .Active
          _currentState := .Extracting
          _extractionTimer := { _startTime := 40, _stopTime := 40, _running := true } } := by
    have h : (5 : ℚ) ≤ 40 - 31 := by norm_num
    simp [Gaggia.sampleActive_eq, Gaggia.readingsAt, Gaggia._worker,
      Gaggia.copyCurrentStates, Gaggia.flowControl, Gaggia.checkAutomaticExtraction,
      Gaggia.checkUserExtraction, Gaggia.checkUserExtractionStopped,
      Gaggia.checkPreHeatingFinish, Timer.reset, Timer.start, Timer.getElapsed, h]
  have hop : (Gaggia._worker Settings.loadDefaults Gaggia.sampleActive
      (Gaggia.readingsAt 40 .Flowing 1)).Operational := by
    rw [hB]
    simp [Gaggia.Operational, Gaggia.sampleActive_eq]
  have h := (C8_user_extraction_end Settings.loadDefaults _ (Gaggia.readingsAt 50 .Stopped 2)
    hop (by rw [hB])).1 (by simp [Gaggia.readingsAt])
  refine ⟨hop, ?_, ?_⟩
  · rw [h.1, hB]
    simp
  · rw [h.2.2.2.1 77, hB]
    simp [Gaggia.readingsAt]
    norm_num

/-- C9 (the code at the failing input): the constructor leaves `_preHeatingTime` at its
initialiser 30 s whatever the settings hold, so the controller constructed with heating under
the default settings, whose `getPreHeatingSettings` returns 600 s, is moved from Heating to
Active by the tick at system time 30 s, and is still Heating after the tick at 29 s. -/
theorem C9_preheating_ends_at_30s :
    (∀ hw cfg clock a, (Gaggia.new hw cfg clock a)._preHeatingTime = 30)
      ∧ (Settings.loadDefaults.getPreHeatingSettings (0, 0)).1 = 600
      ∧ Gaggia.sampleHeating._currentState = .Heating
      ∧ (Gaggia.copyCurrentStates (Gaggia.readingsAt 30 .Stopped 0)
          Gaggia.sampleHeating).systemTime = 30
      ∧ (Gaggia._worker Settings.loadDefaults Gaggia.sampleHeating
          (Gaggia.readingsAt 30 .Stopped 0))._currentState = .Active
      ∧ (Gaggia._worker Settings.loadDefaults Gaggia.sampleHeating
          (Gaggia.readingsAt 29 .Stopped 0))._currentState = .Heating := by
  refine ⟨fun hw cfg clock a => ?_, ?_, by decide, ?_, ?_, ?_⟩
  · obtain ⟨h1, h2, h3, h4, h5, h6, h7⟩ := hw
    cases h1 <;> cases h2 <;> cases h3 <;> cases h4 <;> cases h5 <;> cases h6 <;>
      cases h7 <;> cases a <;> rfl
  · simp [Settings.getPreHeatingSettings, Settings.loadDefaults]
  · simp [Gaggia.copyCurrentStates, Gaggia.sampleHeating_eq, Gaggia.readingsAt,
      Timer.getElapsed]
  · simp [Gaggia.sampleHeating_eq, Gaggia.readingsAt, Gaggia._worker,
      Gaggia.copyCurrentStates, Gaggia.flowControl, Gaggia.checkAutomaticExtraction,
      Gaggia.checkUserExtraction, Gaggia.checkUserExtractionStopped,
      Gaggia.checkPreHeatingFinish, Timer.getElapsed]
  · simp [Gaggia.sampleHeating_eq, Gaggia.readingsAt, Gaggia._worker,
      Gaggia.copyCurrentStates, Gaggia.flowControl, Gaggia.checkAutomaticExtraction,
      Gaggia.checkUserExtraction, Gaggia.checkUserExtractionStopped,
      Gaggia.checkPreHeatingFinish, Timer.getElapsed]
    norm_num

/-- C10 (the code at the failing input): from construction, `extractOneCup()`, a tick that
finds the offset reached with the pump on (which starts the extraction timer) and then
`powerRegulator(false)` lead to a state whose extraction timer is running while the current
state is Deactivated (and whose pump is still on): the relation "timer running implies an
extraction state" is broken. -/
theorem C10_timer_runs_while_deactivated :
    Gaggia.samplePoweredOffShot
        = Gaggia.run Settings.loadDefaults
            (Gaggia.new Gaggia.Hardware.allReady Settings.loadDefaults (fun _ => 0) true)
            [.extractOneCup 10, .worker (Gaggia.readingsAt 20 .Flowing 8),
             .powerRegulator false]
      ∧ Gaggia.samplePoweredOffShot._extractionTimer.isRunning = true
      ∧ Gaggia.samplePoweredOffShot._currentState = .Deactivated
      ∧ Gaggia.samplePoweredOffShot._pumpController.getPower = true
      ∧ ¬ Gaggia.ExtractionTimerInv Gaggia.samplePoweredOffShot := by
  have h1 : Gaggia.sampleHeating.extractOneCup 10 = Gaggia.sampleEarlyShot := rfl
  have h2 : ((15 : ℚ) / 2 ≤ 8) := by norm_num
  have h3 : ¬ ((25 : ℚ) ≤ 8 - 15 / 2) := by norm_num
  have h4 : Gaggia.samplePoweredOffShot._extractionTimer.isRunning = true
      ∧ Gaggia.samplePoweredOffShot._currentState = .Deactivated
      ∧ Gaggia.samplePoweredOffShot._pumpController.getPower = true := by
    simp only [Gaggia.samplePoweredOffShot, Gaggia.run, List.foldl, Gaggia.step, h1]
    simp [Gaggia.sampleEarlyShot_eq, Gaggia.readingsAt, Gaggia._worker,
      Gaggia.copyCurrentStates, Gaggia.flowControl, Gaggia.checkAutomaticExtraction,
      Gaggia.checkExtractionOffset, Gaggia.checkTargetVolume, Gaggia.checkUserExtraction,
      Gaggia.checkUserExtractionStopped, Gaggia.checkPreHeatingFinish,
      Gaggia.powerRegulator, Regulator.setPower, Timer.reset, Timer.start, Timer.stop,
      Timer.isRunning, Timer.getElapsed, Pump.setPower, Pump.getPower, h2, h3]
  refine ⟨rfl, h4.1, h4.2.1, h4.2.2, fun hinv => ?_⟩
  have := hinv h4.1
  rw [h4.2.1] at this
  simp at this

/-! ## The claims about the regulator loop -/

/-- C11: in every iteration of the regulator loop (the loop runs, the boiler is opened) the
drive handed to `Boiler::setPower` lies in [0,1]; it is 0 when the power flag is off, or the
reading is flagged invalid, or the reading is at most 0.5; otherwise it is the output of
`_update` clamped to [0,1].  The boiler stores that value as its current power, and the
write after the loop stores 0. -/
theorem C11_regulator_drive (l : Regulator.Loop) (reading : ℚ × Bool) (clock : ℚ)
    (hrun : l.regulator._run = true) (hb : l.boiler._opened = true) :
    (0 ≤ (Regulator._worker l reading clock).drive
      ∧ (Regulator._worker l reading clock).drive ≤ 1)
    ∧ ((l.regulator._power = false ∨ reading.2 = false ∨ reading.1 ≤ 1 / 2) →
        (Regulator._worker l reading clock).drive = 0)
    ∧ (l.regulator._power = true → reading.2 = true → reading.1 > 1 / 2 →
        (Regulator._worker l reading clock).drive
          = Regulator.clamp
              (l.regulator._update (l.regulator._targetTemperature - reading.1) reading.1
                l.regulator._iGain l.regulator._pGain l.regulator._dGain).1 0 1)
    ∧ (Regulator._worker l reading clock).boiler
        = l.boiler.setPower (Regulator._worker l reading clock).drive
    ∧ (Regulator._worker l reading clock).boiler._pwmCurrentPower
        = (Regulator._worker l reading clock).drive
    ∧ (Regulator._worker l reading clock).boiler.getPower
        = (Regulator._worker l reading clock).drive
    ∧ (Regulator._workerExit (Regulator._worker l reading clock)).boiler._pwmCurrentPower = 0
    ∧ (Regulator._workerExit (Regulator._worker l reading clock)).boiler.getPower = 0 := by
  have hout : ∀ (r : Regulator) (next drive latestTemp : ℚ),
      (0 ≤ (Regulator._workerOutput r l.boiler next drive latestTemp clock).drive
        ∧ (Regulator._workerOutput r l.boiler next drive latestTemp clock).drive ≤ 1)
      ∧ (Regulator._workerOutput r l.boiler next drive latestTemp clock).boiler
          = l.boiler.setPower
              (Regulator._workerOutput r l.boiler next drive latestTemp clock).drive
      ∧ (Regulator._workerOutput r l.boiler next drive latestTemp clock).boiler._pwmCurrentPower
          = (Regulator._workerOutput r l.boiler next drive latestTemp clock).drive
      ∧ (Regulator._workerOutput r l.boiler next drive latestTemp clock).boiler.getPower
          = (Regulator._workerOutput r l.boiler next drive latestTemp clock).drive
      ∧ (Regulator._workerExit
          (Regulator._workerOutput r l.boiler next drive latestTemp clock)).boiler._pwmCurrentPower
            = 0
      ∧ (Regulator._workerExit
          (Regulator._workerOutput r l.boiler next drive latestTemp clock)).boiler.getPower
            = 0 := by
    intro r next drive latestTemp
    obtain ⟨-, h0, h1, hbo, -⟩ := Regulator._workerOutput_drive r l.boiler next drive latestTemp clock
    obtain ⟨hs1, hs2, hs3⟩ := Regulator.boiler_setPower_of_mem l.boiler _ hb h0 h1
    rw [← hbo] at hs1 hs2 hs3
    obtain ⟨hz1, hz2, -⟩ := Regulator.boiler_setPower_of_mem
      (Regulator._workerOutput r l.boiler next drive latestTemp clock).boiler 0 hs3
      (le_refl _) zero_le_one
    exact ⟨⟨h0, h1⟩, hbo, hs1, hs2, hz1, hz2⟩
  by_cases h : l.regulator._power = true ∧ (if !reading.2 then 0 else reading.1) > 1 / 2
  · rw [Regulator._worker_pos l reading clock hrun h]
    obtain ⟨hp, ht⟩ := h
    have hv : reading.2 = true := by
      by_contra hv
      rw [Bool.not_eq_true] at hv
      rw [hv] at ht
      norm_num at ht
    have he : (if !reading.2 then (0 : ℚ) else reading.1) = reading.1 := by simp [hv]
    rw [he] at ht ⊢
    refine ⟨(hout _ _ _ _).1, ?_, ?_, (hout _ _ _ _).2⟩
    · rintro (h1 | h1 | h1)
      · rw [hp] at h1
        exact absurd h1 (by decide)
      · rw [hv] at h1
        exact absurd h1 (by decide)
      · exact absurd ht (not_lt.mpr h1)
    · intro _ _ _
      exact (Regulator._workerOutput_drive _ _ _ _ _ _).1
  · rw [Regulator._worker_neg l reading clock hrun h]
    have hz : ∀ t : ℚ, (Regulator._workerOutput l.regulator l.boiler l.next 0 t clock).drive
        = 0 := by
      intro t
      simp [Regulator._workerOutput]
    refine ⟨(hout _ _ _ _).1, fun _ => hz _, ?_, (hout _ _ _ _).2⟩
    intro hp hv ht
    exact absurd ⟨hp, by simpa [hv] using ht⟩ h

/-- C11 at the sample loop: a reading of 90 degrees with the power flag set, and the same
reading flagged invalid. -/
theorem C11_regulator_drive_witness :
    Regulator.sampleLoop.regulator._run = true
      ∧ Regulator.sampleLoop.boiler._opened = true
      ∧ (Regulator._worker Regulator.sampleLoop (90, false) 0).drive = 0
      ∧ (Regulator._worker Regulator.sampleLoop (90, true) 0).boiler._pwmCurrentPower
          = (Regulator._worker Regulator.sampleLoop (90, true) 0).drive
      ∧ (Regulator._workerExit
          (Regulator._worker Regulator.sampleLoop (90, true) 0)).boiler._pwmCurrentPower = 0 :=
  ⟨by decide, by decide,
   (C11_regulator_drive Regulator.sampleLoop (90, false) 0 (by decide) (by decide)).2.1
     (Or.inr (Or.inl rfl)),
   (C11_regulator_drive Regulator.sampleLoop (90, true) 0 (by decide) (by decide)).2.2.2.2.1,
   (C11_regulator_drive Regulator.sampleLoop (90, true) 0 (by decide)
     (by decide)).2.2.2.2.2.2.1⟩

/-- C12: in every state that the opened regulator reaches by loop iterations (any readings)
and calls of `setPIDGains`, `setTargetTemperature` and `setPower`, the limits are those of
`_open()`, 0 and 1, and `_iState` lies between them; and for any limits `_iMin ≤ _iMax` the
accumulator lies between them after each `_update`. -/
theorem C12_integral_bounds (b : Boiler) (clock : ℚ) (steps : List Regulator.Step)
    (r : Regulator) (error position iGain pGain dGain : ℚ) :
    ((Regulator.run (Regulator.Loop.enter (Regulator.new true true) b clock)
        steps).regulator._iMin = 0
      ∧ (Regulator.run (Regulator.Loop.enter (Regulator.new true true) b clock)
        steps).regulator._iMax = 1
      ∧ 0 ≤ (Regulator.run (Regulator.Loop.enter (Regulator.new true true) b clock)
        steps).regulator._iState
      ∧ (Regulator.run (Regulator.Loop.enter (Regulator.new true true) b clock)
        steps).regulator._iState ≤ 1)
    ∧ (r._iMin ≤ r._iMax →
        r._iMin ≤ (r._update error position iGain pGain dGain).2._iState
          ∧ (r._update error position iGain pGain dGain).2._iState ≤ r._iMax) := by
  refine ⟨?_, Regulator._update_iState_bounds r error position iGain pGain dGain⟩
  obtain ⟨h1, h2, h3, h4⟩ := Regulator.run_integralInv steps
    (Regulator.Loop.enter (Regulator.new true true) b clock) Regulator.new_integralInv
  rw [h1] at h3
  rw [h2] at h4
  exact ⟨h1, h2, h3, h4⟩

/-- C12 at the regulator as constructed (limits -1 and 1) and an error of 3: the accumulator
stops at the upper limit. -/
theorem C12_integral_bounds_witness :
    (Regulator.new false false)._iMin ≤ (Regulator.new false false)._iMax
      ∧ ((Regulator.new false false)._update 3 90 0 1 0).2._iState
          ≤ (Regulator.new false false)._iMax :=
  ⟨by simp [Regulator.new],
   ((C12_integral_bounds (Boiler.new true) 0 [] (Regulator.new false false) 3 90 0 1 0).2
     (by simp [Regulator.new])).2⟩

/-- C13: with ordered limits, `_update(T - m, m, iGain, pGain, dGain)` returns
`pGain * (T - m) + iGain * I' + dGain * (prev - m)` where `I'` is `I + (T - m)` clamped to
the limits, stores `I'` in `_iState` and `m` in `_dState` and writes nothing else; what is
left of the output after the proportional and the integral term is `dGain * (prev - m)` for
every target, so two updates from the same state with the same measurement and different
targets have the same derivative term. -/
theorem C13_update_formula (r : Regulator) (T m iGain pGain dGain : ℚ)
    (h : r._iMin ≤ r._iMax) :
    (r._update (T - m) m iGain pGain dGain).1
        = pGain * (T - m) + iGain * Regulator.clamp (r._iState + (T - m)) r._iMin r._iMax
          + dGain * (r._dState - m)
    ∧ (r._update (T - m) m iGain pGain dGain).2
        = { r with _iState := Regulator.clamp (r._iState + (T - m)) r._iMin r._iMax
                   _dState := m }
    ∧ ∀ T2 : ℚ,
        (r._update (T - m) m iGain pGain dGain).1 - pGain * (T - m)
            - iGain * (r._update (T - m) m iGain pGain dGain).2._iState
          = dGain * (r._dState - m)
        ∧ (r._update (T2 - m) m iGain pGain dGain).1 - pGain * (T2 - m)
            - iGain * (r._update (T2 - m) m iGain pGain dGain).2._iState
          = dGain * (r._dState - m) := by
  have hc : ∀ T : ℚ, (r._update (T - m) m iGain pGain dGain).2._iState
      = Regulator.clamp (r._iState + (T - m)) r._iMin r._iMax := by
    intro T
    rw [Regulator._update_iState, Regulator.clamp_eq _ _ _ h]
  have ho : ∀ T : ℚ, (r._update (T - m) m iGain pGain dGain).1
      = pGain * (T - m) + dGain * (r._dState - m)
        + iGain * (r._update (T - m) m iGain pGain dGain).2._iState := fun _ => rfl
  refine ⟨?_, ?_, ?_⟩
  · rw [ho, hc]
    ring
  · rw [← hc T]
    rfl
  · intro T2
    rw [ho T, ho T2]
    constructor <;> ring

/-- C13 at the opened regulator (accumulator 0, previous measurement 0, limits 0 and 1) with
target 93 and measurement 90. -/
theorem C13_update_formula_witness :
    (Regulator.new true true)._iMin ≤ (Regulator.new true true)._iMax
      ∧ ((Regulator.new true true)._update (93 - 90) 90 (5 / 100) (7 / 100) (90 / 100)).1
          = 7 / 100 * (93 - 90)
            + 5 / 100 * Regulator.clamp ((Regulator.new true true)._iState + (93 - 90))
                (Regulator.new true true)._iMin (Regulator.new true true)._iMax
            + 90 / 100 * ((Regulator.new true true)._dState - 90) :=
  ⟨by simp [Regulator.new],
   (C13_update_formula (Regulator.new true true) 93 90 (5 / 100) (7 / 100) (90 / 100)
     (by simp [Regulator.new])).1⟩

/-! ## The claims about the temperature sensor -/

/-- C14: for two 9-bit fields `p0`, `p1` with data bytes `p0 >>> 1`, `p1 >>> 1`,
`tsicDecode` returns `INVALID_TEMP` exactly when the parity bit of `p0` differs from the
exclusive or of the bits of its data byte, or that of `p1` does, or one of the top five bits
of the first data byte is set.  Otherwise `raw = 256 * d0 + d1` is at most 2047, the product
`200000 * raw` fits an `int`, the result is `200000 * raw / 2047 - 50000` with truncating
division, lies in [-50000, 150000], is -50000 for `raw = 0` and 150000 for `raw = 2047`, and
is not `INVALID_TEMP`. -/
theorem C14_tsicDecode (p0 p1 : ℕ) (h0 : p0 < 512) (h1 : p1 < 512) :
    (TSIC.tsicDecode p0 p1 = TSIC.INVALID_TEMP ↔
      (p0 % 2 ≠ TSIC.xorOfBits (p0 >>> 1) ∨ p1 % 2 ≠ TSIC.xorOfBits (p1 >>> 1)
        ∨ (p0 >>> 1) / 8 % 32 ≠ 0))
    ∧ (TSIC.tsicDecode p0 p1 ≠ TSIC.INVALID_TEMP →
        256 * (p0 >>> 1) + (p1 >>> 1) ≤ 2047
        ∧ (200000 : ℤ) * ((256 * (p0 >>> 1) + (p1 >>> 1) : ℕ) : ℤ) < 2 ^ 31
        ∧ TSIC.tsicDecode p0 p1
            = Int.tdiv ((200000 : ℤ) * ((256 * (p0 >>> 1) + (p1 >>> 1) : ℕ) : ℤ)) 2047 - 50000
        ∧ -50000 ≤ TSIC.tsicDecode p0 p1 ∧ TSIC.tsicDecode p0 p1 ≤ 150000
        ∧ (256 * (p0 >>> 1) + (p1 >>> 1) = 0 → TSIC.tsicDecode p0 p1 = -50000)
        ∧ (256 * (p0 >>> 1) + (p1 >>> 1) = 2047 → TSIC.tsicDecode p0 p1 = 150000)) := by
  have hd1 : p1 >>> 1 < 256 := by
    rw [Nat.shiftRight_eq_div_pow]
    omega
  have hraw : (p0 >>> 1) / 8 % 32 = 0 → 256 * (p0 >>> 1) + (p1 >>> 1) ≤ 2047 := by
    have hd0 : p0 >>> 1 < 256 := by
      rw [Nat.shiftRight_eq_div_pow]
      omega
    omega
  rw [TSIC.tsicDecode_eq p0 p1 h0 h1]
  by_cases hc : p0 % 2 = TSIC.xorOfBits (p0 >>> 1) ∧ p1 % 2 = TSIC.xorOfBits (p1 >>> 1)
      ∧ (p0 >>> 1) / 8 % 32 = 0
  · rw [if_pos hc]
    have hr := hraw hc.2.2
    have hne := TSIC.decode_ne_invalid _ hr
    have hrange := TSIC.decode_range _ hr
    have e6 : TSIC.MIN_TEMP * TSIC.SCALE_FACTOR = -50000 := by decide
    have e7 : TSIC.MAX_TEMP * TSIC.SCALE_FACTOR = 150000 := by decide
    rw [e6, e7] at hrange
    refine ⟨⟨fun h => absurd h hne, ?_⟩, fun _ => ⟨hr, by omega, rfl, hrange.1, hrange.2, ?_, ?_⟩⟩
    · rintro (h | h | h)
      · exact absurd hc.1 h
      · exact absurd hc.2.1 h
      · exact absurd hc.2.2 h
    · intro h
      rw [h]
      decide
    · intro h
      rw [h]
      decide
  · rw [if_neg hc]
    refine ⟨⟨fun _ => ?_, fun _ => rfl⟩, fun h => absurd rfl h⟩
    by_contra hn
    push_neg at hn
    exact hc hn

/-- C14 at the fields of the highest raw value, 2047: data bytes 7 and 255 with their parity
bits 1 and 0. -/
theorem C14_tsicDecode_witness :
    (15 < 512 ∧ 510 < 512)
      ∧ TSIC.tsicDecode 15 510 = 150000
      ∧ (TSIC.tsicDecode 15 510 ≠ TSIC.INVALID_TEMP →
          256 * (15 >>> 1) + (510 >>> 1) ≤ 2047
          ∧ (200000 : ℤ) * ((256 * (15 >>> 1) + (510 >>> 1) : ℕ) : ℤ) < 2 ^ 31
          ∧ TSIC.tsicDecode 15 510
              = Int.tdiv ((200000 : ℤ) * ((256 * (15 >>> 1) + (510 >>> 1) : ℕ) : ℤ)) 2047
                - 50000
          ∧ -50000 ≤ TSIC.tsicDecode 15 510 ∧ TSIC.tsicDecode 15 510 ≤ 150000
          ∧ (256 * (15 >>> 1) + (510 >>> 1) = 0 → TSIC.tsicDecode 15 510 = -50000)
          ∧ (256 * (15 >>> 1) + (510 >>> 1) = 2047 → TSIC.tsicDecode 15 510 = 150000)) :=
  ⟨⟨by decide, by decide⟩, by decide,
   (C14_tsicDecode 15 510 (by decide) (by decide)).2⟩

/-- C15, counterexample: after a low period of exactly 62 us (below half a frame of 62.5 us)
the decoder shifts in a 0, not a 1; and the bit-shifting edge that finds the counter at 19
leaves it at 0, not at 20. -/
theorem C15_counterexample :
    sub32 1062 TSIC.sampleMid._lastLow = 62
      ∧ (TSIC.sampleMid._alertFunction 1 1062)._word = 2 * TSIC.sampleMid._word
      ∧ (TSIC.sampleMid._alertFunction 1 1062)._word ≠ 2 * TSIC.sampleMid._word + 1
      ∧ sub32 1010 TSIC.sampleLast._lastLow = 10
      ∧ TSIC.sampleLast._count = 19
      ∧ (TSIC.sampleLast._alertFunction 1 1010)._count = 0 := by
  decide

/-- C15, amended: a rising edge stores the tick in `_lastHigh` and classifies
`low = tick - _lastLow`, computed modulo 2^32 (the elapsed time also across the wraparound
of the tick counter).  Below 62 us (`TSIC_FRAME_US / 2` in unsigned arithmetic) a 1 is
shifted into the register; from 62 us on and below 125 us a 0 is shifted in; above 250 us
counter and register are reset to 0, the edge is not counted and the sample is not touched.
An edge that shifts in a bit increments the counter by one, except that the edge that makes
it 20 completes the packet and leaves counter and register at 0. -/
theorem C15_rising_edge (s : TSIC) (tick : ℕ) :
    (s._alertFunction 1 tick)._lastHigh = tick % 2 ^ 32
    ∧ (∀ d : ℕ, s._lastLow < 2 ^ 32 → d < 2 ^ 32 → tick = (s._lastLow + d) % 2 ^ 32 →
        sub32 tick s._lastLow = d)
    ∧ (sub32 tick s._lastLow < 62 → (s._count + 1) % 2 ^ 32 ≠ 20 →
        (s._alertFunction 1 tick)._word = (2 * s._word + 1) % 2 ^ 32
        ∧ (s._alertFunction 1 tick)._count = (s._count + 1) % 2 ^ 32)
    ∧ (62 ≤ sub32 tick s._lastLow → sub32 tick s._lastLow < 125 →
        (s._count + 1) % 2 ^ 32 ≠ 20 →
        (s._alertFunction 1 tick)._word = (2 * s._word) % 2 ^ 32
        ∧ (s._alertFunction 1 tick)._count = (s._count + 1) % 2 ^ 32)
    ∧ (sub32 tick s._lastLow < 125 → (s._count + 1) % 2 ^ 32 = 20 →
        (s._alertFunction 1 tick)._word = 0 ∧ (s._alertFunction 1 tick)._count = 0)
    ∧ (250 < sub32 tick s._lastLow →
        (s._alertFunction 1 tick)._word = 0 ∧ (s._alertFunction 1 tick)._count = 0
        ∧ (s._alertFunction 1 tick).getDegrees = s.getDegrees) := by
  have hw1 : (s._word <<< 1 ||| 1) = 2 * s._word + 1 := TSIC.shiftLeft_one_or _
  have hw0 : s._word <<< 1 = 2 * s._word := by rw [Nat.shiftLeft_eq]; omega
  refine ⟨?_, ?_, ?_, ?_, ?_, ?_⟩
  · unfold TSIC._alertFunction TSIC.countEdge
    rw [if_pos rfl]
    split_ifs <;> rfl
  · intro d h1 h2 h3
    rw [h3]
    exact TSIC.sub32_wrap _ _ h1 h2
  · intro h hc
    rw [TSIC.alert_one s tick h, TSIC.countEdge_neg, ← hw1]
    · exact ⟨rfl, rfl⟩
    · exact hc
  · intro h1 h2 hc
    rw [TSIC.alert_zero s tick h1 h2, TSIC.countEdge_neg, ← hw0]
    · exact ⟨rfl, rfl⟩
    · exact hc
  · intro h hc
    by_cases h1 : sub32 tick s._lastLow < 62
    · rw [TSIC.alert_one s tick h1, TSIC.countEdge_pos]
      · split_ifs <;> exact ⟨rfl, rfl⟩
      · exact hc
    · rw [TSIC.alert_zero s tick (not_lt.mp h1) h, TSIC.countEdge_pos]
      · split_ifs <;> exact ⟨rfl, rfl⟩
      · exact hc
  · intro h
    rw [TSIC.alert_long s tick h]
    exact ⟨rfl, rfl, rfl⟩

/-- C15 in the middle of a packet: the bus went low at tick 1000, rising edges at 1030 (a
one), 1062 (a zero) and 1300 (reset). -/
theorem C15_rising_edge_witness :
    (sub32 1030 TSIC.sampleMid._lastLow < 62 ∧ (TSIC.sampleMid._count + 1) % 2 ^ 32 ≠ 20)
      ∧ (TSIC.sampleMid._alertFunction 1 1030)._word = (2 * TSIC.sampleMid._word + 1) % 2 ^ 32
      ∧ (TSIC.sampleMid._alertFunction 1 1062)._word = (2 * TSIC.sampleMid._word) % 2 ^ 32
      ∧ (TSIC.sampleMid._alertFunction 1 1300)._count = 0 :=
  ⟨by decide,
   ((C15_rising_edge TSIC.sampleMid 1030).2.2.1 (by decide) (by decide)).1,
   ((C15_rising_edge TSIC.sampleMid 1062).2.2.2.1 (by decide) (by decide) (by decide)).1,
   ((C15_rising_edge TSIC.sampleMid 1300).2.2.2.2.2 (by decide)).2.1⟩

/-- C16: from any decoder state, after a falling edge that ends a high period above 250 us
(counter and register are then 0), let a train of edges follow in which 19 rising edges each
shift in a bit and no falling edge ends a high period above 250 us, and then a rising edge
that shifts in a bit `b`.  No beginning of the train changes the published sample; before
the last edge the counter is 19 and the register holds the 19 bits, the first one most
significant; the last edge is counted with the register holding all 20 bits; if the decoding
of its two 9-bit fields succeeds the sample becomes (value / 1000, valid), otherwise the
flag becomes false and the temperature is still the one published before; counter and
register are 0 afterwards. -/
theorem C16_packet (s0 : TSIC) (level0 : ℤ) (t0 : ℕ) (es : List (ℤ × ℕ)) (bits : List ℕ)
    (tick b : ℕ) (hl : level0 ≠ 1) (hreset : sub32 t0 s0._lastHigh > 250)
    (hbits : TSIC.shiftedBits (s0._alertFunction level0 t0) es = some bits)
    (hlen : bits.length = 19)
    (hlast : ((s0._alertFunction level0 t0).run es).bitOf tick = some b) :
    ((s0._alertFunction level0 t0)._count = 0 ∧ (s0._alertFunction level0 t0)._word = 0)
    ∧ (∀ k : ℕ, ((s0._alertFunction level0 t0).run (es.take k)).getDegrees = s0.getDegrees)
    ∧ (((s0._alertFunction level0 t0).run es)._count = 19
        ∧ ((s0._alertFunction level0 t0).run es)._word = TSIC.wordOf 0 bits)
    ∧ ((s0._alertFunction level0 t0).run es)._alertFunction 1 tick
        = TSIC.countEdge
            { (s0._alertFunction level0 t0).run es with
              _lastHigh := tick % 2 ^ 32, _word := TSIC.wordOf 0 (bits ++ [b]) }
    ∧ (TSIC.decodeWord (TSIC.wordOf 0 (bits ++ [b])) ≠ TSIC.INVALID_TEMP →
        (((s0._alertFunction level0 t0).run es)._alertFunction 1 tick).getDegrees
          = ((TSIC.decodeWord (TSIC.wordOf 0 (bits ++ [b])) : ℚ) / 1000, true))
    ∧ (TSIC.decodeWord (TSIC.wordOf 0 (bits ++ [b])) = TSIC.INVALID_TEMP →
        (((s0._alertFunction level0 t0).run es)._alertFunction 1 tick).getDegrees
          = (s0._temperature, false))
    ∧ (((s0._alertFunction level0 t0).run es)._alertFunction 1 tick)._count = 0
    ∧ (((s0._alertFunction level0 t0).run es)._alertFunction 1 tick)._word = 0 := by
  have h1 : s0._alertFunction level0 t0
      = { s0 with _lastLow := t0 % 2 ^ 32, _count := 0, _word := 0 } := by
    rw [TSIC.alert_falling s0 level0 t0 hl]
    exact if_pos hreset
  have hc0 : (s0._alertFunction level0 t0)._count = 0 := by rw [h1]
  have hw0 : (s0._alertFunction level0 t0)._word = 0 := by rw [h1]
  have hd0 : (s0._alertFunction level0 t0).getDegrees = s0.getDegrees := by rw [h1]; rfl
  have hfirst : ∀ k : ℕ,
      ((s0._alertFunction level0 t0).run (es.take k)).getDegrees = s0.getDegrees := by
    intro k
    obtain ⟨bs, hb1, hb2⟩ := TSIC.shiftedBits_take es _ bits k hbits
    rw [(TSIC.run_shiftedBits _ _ bs hb1 (by rw [hc0]; omega) (by rw [hw0, hc0]; decide)).2.2.2,
      hd0]
  obtain ⟨r1, r2, r3, r4⟩ := TSIC.run_shiftedBits es _ bits hbits (by rw [hc0]; omega)
    (by rw [hw0, hc0]; decide)
  rw [hc0, hlen] at r1
  rw [hw0] at r2
  rw [r1] at r3
  have hw31 : ((s0._alertFunction level0 t0).run es)._word < 2 ^ 31 := by
    have : (2 : ℕ) ^ (0 + 19) < 2 ^ 31 := by decide
    omega
  obtain ⟨-, hA⟩ := TSIC.alert_bit_raw _ tick b hlast hw31
  have hW : 2 * ((s0._alertFunction level0 t0).run es)._word + b
      = TSIC.wordOf 0 (bits ++ [b]) := by
    rw [TSIC.wordOf_append, r2]
  rw [hW] at hA
  have hT : ((s0._alertFunction level0 t0).run es)._temperature = s0._temperature :=
    congrArg Prod.fst (r4.trans hd0)
  refine ⟨⟨hc0, hw0⟩, hfirst, ⟨r1, r2⟩, hA, ?_⟩
  rw [hA, TSIC.countEdge_pos]
  · refine ⟨fun h => ?_, fun h => ?_, ?_, ?_⟩
    · rw [if_pos h]
      show (_, _) = _
      rw [show ((TSIC.SCALE_FACTOR : ℤ) : ℚ) = 1000 by simp [TSIC.SCALE_FACTOR]]
    · rw [if_neg (fun hn => hn h)]
      show (_, _) = _
      rw [hT]
    · split_ifs <;> rfl
    · split_ifs <;> rfl
  · show (((s0._alertFunction level0 t0).run es)._count + 1) % 2 ^ 32 = 20
    rw [r1]
    rfl

set_option maxRecDepth 100000 in
/-- C16 at a packet with the data bytes 3 and 0: the 20 bits decode to 25.036 degrees. -/
theorem C16_packet_witness :
    (sub32 2000 TSIC.sampleMid._lastHigh > 250
      ∧ TSIC.shiftedBits (TSIC.sampleMid._alertFunction 0 2000)
          (TSIC.trainOf 2000 TSIC.sampleBits) = some TSIC.sampleBits
      ∧ ((TSIC.sampleMid._alertFunction 0 2000).run
          (TSIC.trainOf 2000 TSIC.sampleBits)).bitOf 4469 = some 0)
    ∧ TSIC.decodeWord (TSIC.wordOf 0 (TSIC.sampleBits ++ [0])) = 25036
    ∧ (((TSIC.sampleMid._alertFunction 0 2000).run
          (TSIC.trainOf 2000 TSIC.sampleBits))._alertFunction 1 4469).getDegrees
        = ((TSIC.decodeWord (TSIC.wordOf 0 (TSIC.sampleBits ++ [0])) : ℚ) / 1000, true) :=
  ⟨⟨by decide, by decide, by decide⟩, by decide,
   (C16_packet TSIC.sampleMid 0 2000 (TSIC.trainOf 2000 TSIC.sampleBits) TSIC.sampleBits
     4469 0 (by decide) (by decide) (by decide) (by decide) (by decide)).2.2.2.2.1
     (by decide)⟩

/-! ## The claims about the flow meter -/

/-- C17: in every state that pulse edges and worker iterations reach from the constructed
meter, an iteration that changes the published state (Stopped to Flowing or Flowing to
Stopped, the only changes there are) leaves the pulse counter at 0 and `getMilliLitres()`
at 0, an iteration that does not change the state leaves the counter as it is, and a pulse
edge leaves the state as it is and adds one to the counter (modulo 2^32).  Along further
steps that do not change the state, with the counter below 2^32 - 1, `getMilliLitres()` does
not fall. -/
theorem C17_counter_reset (pinOk : Bool) (steps more : List Flow.Step) :
    ((Flow.step (Flow.run (Flow.start pinOk) steps) .tick).1._state
          ≠ (Flow.run (Flow.start pinOk) steps).1._state →
        (Flow.step (Flow.run (Flow.start pinOk) steps) .tick).1._count = 0
        ∧ (Flow.step (Flow.run (Flow.start pinOk) steps) .tick).1.getMilliLitres = 0
        ∧ (((Flow.run (Flow.start pinOk) steps).1._state = .Stopped
              ∧ (Flow.step (Flow.run (Flow.start pinOk) steps) .tick).1._state = .Flowing)
            ∨ ((Flow.run (Flow.start pinOk) steps).1._state = .Flowing
              ∧ (Flow.step (Flow.run (Flow.start pinOk) steps) .tick).1._state = .Stopped)))
    ∧ ((Flow.step (Flow.run (Flow.start pinOk) steps) .tick).1._state
          = (Flow.run (Flow.start pinOk) steps).1._state →
        (Flow.step (Flow.run (Flow.start pinOk) steps) .tick).1._count
          = (Flow.run (Flow.start pinOk) steps).1._count)
    ∧ ((Flow.step (Flow.run (Flow.start pinOk) steps) .pulse).1._state
          = (Flow.run (Flow.start pinOk) steps).1._state
        ∧ (Flow.step (Flow.run (Flow.start pinOk) steps) .pulse).1._count
          = ((Flow.run (Flow.start pinOk) steps).1._count + 1) % 2 ^ 32)
    ∧ ((∀ k : ℕ, k ≤ more.length →
          (Flow.run (Flow.run (Flow.start pinOk) steps) (more.take k)).1._state
              = (Flow.run (Flow.start pinOk) steps).1._state
            ∧ (Flow.run (Flow.run (Flow.start pinOk) steps) (more.take k)).1._count + 1
              < 2 ^ 32) →
        (Flow.run (Flow.start pinOk) steps).1.getMilliLitres
          ≤ (Flow.run (Flow.run (Flow.start pinOk) steps) more).1.getMilliLitres) := by
  obtain ⟨hinv, -, -⟩ := Flow.run_stateInv steps (Flow.start pinOk) (Flow.start_stateInv pinOk)
  obtain ⟨-, -, -, w1, w2⟩ := Flow.worker_spec _ _ hinv
  refine ⟨fun hn => ?_, w2, ⟨rfl, rfl⟩, fun hk => ?_⟩
  · obtain ⟨c0, tr⟩ := w1 hn
    refine ⟨c0, ?_, tr⟩
    have c1 : (Flow.step (Flow.run (Flow.start pinOk) steps) .tick).1._count = 0 := c0
    unfold Flow.getMilliLitres
    rw [c1]
    simp
  · obtain ⟨-, i2, i3⟩ := Flow.run_stateInv more _ hinv
    exact Flow.getMilliLitres_mono _ _ i2 i3 hinv.2 (Flow.run_count_le more _ hinv hk)

/-- C17 at the opened meter after three pulse edges: the next iteration moves it to Flowing
and leaves the counter at 0. -/
theorem C17_counter_reset_witness :
    (Flow.step (Flow.run (Flow.start true) [.pulse, .pulse, .pulse]) .tick).1._state
        ≠ (Flow.run (Flow.start true) [.pulse, .pulse, .pulse]).1._state
      ∧ (Flow.run (Flow.start true) [.pulse, .pulse, .pulse]).1._count = 3
      ∧ (Flow.step (Flow.run (Flow.start true) [.pulse, .pulse, .pulse]) .tick).1._count = 0
      ∧ (Flow.step (Flow.run (Flow.start true) [.pulse, .pulse, .pulse])
          .tick).1.getMilliLitres = 0 :=
  ⟨by decide, by decide,
   ((C17_counter_reset true [.pulse, .pulse, .pulse] []).1 (by decide)).1,
   ((C17_counter_reset true [.pulse, .pulse, .pulse] []).1 (by decide)).2.1⟩

set_option maxRecDepth 100000 in
/-- C18, counterexample: the constructed meter ticks every 50 ms, and a flowing meter whose
count stays unchanged is still Flowing after 19 iterations and Stopped after the 20th, not
only after the 40th. -/
theorem C18_counterexample :
    (Flow.new true)._samplingRate = 50
      ∧ (Flow.sampleAfter 1).1._state = .Flowing
      ∧ (Flow.run (Flow.sampleAfter 1) (List.replicate 19 Flow.Step.tick)).1._state = .Flowing
      ∧ (Flow.run (Flow.sampleAfter 1) (List.replicate 20 Flow.Step.tick)).1._state
          = .Stopped := by
  decide

/-- C18, amended: every meter reached from the constructed one has the sampling interval
50 ms and the idle timeout 1000 ms.  With these, a running meter that is Flowing with idle
time 0 and an unchanged count is still Flowing, with the same count, after each of the
first 19 iterations without a pulse, and Stopped with the counter at 0 after the 20th; an
iteration that finds the count changed restarts the idle time from 0, and moves a meter
that is Stopped to Flowing. -/
theorem C18_idle_timeout (pinOk : Bool) (steps : List Flow.Step) (f : Flow)
    (l : Flow.Locals) (hrun : f._run = true) (hs : f._samplingRate = 50)
    (ht : f._timeout = 1000) :
    ((Flow.run (Flow.start pinOk) steps).1._samplingRate = 50
      ∧ (Flow.run (Flow.start pinOk) steps).1._timeout = 1000)
    ∧ (f._state = .Flowing → l.flowing = true → l.idleTime = 0 → l.oldCount = f._count →
        (∀ k : ℕ, k < 20 →
          (Flow.run (f, l) (List.replicate k Flow.Step.tick)).1._state = .Flowing
            ∧ (Flow.run (f, l) (List.replicate k Flow.Step.tick)).1._count = f._count)
        ∧ (Flow.run (f, l) (List.replicate 20 Flow.Step.tick)).1._state = .Stopped
        ∧ (Flow.run (f, l) (List.replicate 20 Flow.Step.tick)).1._count = 0)
    ∧ (f._count ≠ l.oldCount → (Flow._worker f l).2.idleTime = 0)
    ∧ (Flow.StateInv (f, l) → f._count ≠ l.oldCount → f._state = .Stopped →
        (Flow._worker f l).1._state = .Flowing ∧ (Flow._worker f l).1._count = 0) := by
  refine ⟨?_, ?_, ?_, ?_⟩
  · obtain ⟨r1, r2, -, -⟩ := Flow.run_rates steps (Flow.start pinOk)
    rw [r1, r2]
    cases pinOk <;> exact ⟨rfl, rfl⟩
  · intro h1 h2 h3 h4
    have hidle : Flow.Idle 0 f._count (f, l) := ⟨hrun, hs, ht, h1, h2, rfl, h4, h3⟩
    have hall := Flow.idle_run f._count (f, l) hidle
    refine ⟨fun k hk => ⟨(hall k hk).2.2.2.1, (hall k hk).2.2.2.2.2.1⟩, ?_⟩
    rw [Flow.run_tick_succ]
    obtain ⟨e1, e2, -⟩ := Flow.idle_stop f._count _ (hall 19 (by decide))
    exact ⟨e1, e2⟩
  · intro hc
    cases hf : l.flowing
    · rw [Flow.worker_start f l hrun hc hf]
      rfl
    · rw [Flow.worker_flow f l hrun hc hf]
  · intro hinv hc hst
    have hf : l.flowing = false := by
      rcases hinv.1 with ⟨h1, -⟩ | ⟨-, h2⟩
      · have h3 : f._state = .Flowing := h1
        rw [hst] at h3
        cases h3
      · exact h2
    rw [Flow.worker_start f l hrun hc hf]
    exact ⟨rfl, rfl⟩

set_option maxRecDepth 100000 in
/-- C18 at the opened meter after a pulse edge and the iteration that makes it Flowing. -/
theorem C18_idle_timeout_witness :
    ((Flow.sampleAfter 1).1._run = true ∧ (Flow.sampleAfter 1).1._samplingRate = 50
      ∧ (Flow.sampleAfter 1).1._timeout = 1000 ∧ (Flow.sampleAfter 1).1._state = .Flowing
      ∧ (Flow.sampleAfter 1).2.flowing = true ∧ (Flow.sampleAfter 1).2.idleTime = 0
      ∧ (Flow.sampleAfter 1).2.oldCount = (Flow.sampleAfter 1).1._count)
    ∧ (Flow.run ((Flow.sampleAfter 1).1, (Flow.sampleAfter 1).2)
        (List.replicate 20 Flow.Step.tick)).1._state = .Stopped :=
  ⟨by decide,
   ((C18_idle_timeout true [] (Flow.sampleAfter 1).1 (Flow.sampleAfter 1).2 (by decide)
      (by decide) (by decide)).2.1 (by decide) (by decide) (by decide) (by decide)).2.1⟩

set_option maxRecDepth 1000000 in
/-- C19, counterexample: the meter has been Stopped for 19 iterations, nine of them since
the speed was last computed, when 500 pulses arrive.  At the next iteration 500 ms have
accumulated and the counter delta of the window is 500, which the window block turns into
the speed 1000; but the iteration also moves the meter to Flowing, and the speed it
publishes is 0. -/
theorem C19_counterexample :
    (Flow.sampleStoppedWindow.2.speedTimer + Flow.sampleStoppedWindow.1._samplingRate) % 2 ^ 32
        ≥ Flow.sampleStoppedWindow.1._speedSamplingRate
      ∧ sub32 Flow.sampleStoppedWindow.1._count Flow.sampleStoppedWindow.2.startCount = 500
      ∧ (Flow.sampleSpeed Flow.sampleStoppedWindow.1 Flow.sampleStoppedWindow.2).1._flowSpeed
          = 1000
      ∧ (Flow._worker Flow.sampleStoppedWindow.1 Flow.sampleStoppedWindow.2).1._state
          = .Flowing
      ∧ (Flow._worker Flow.sampleStoppedWindow.1 Flow.sampleStoppedWindow.2).1.getFlowSpeed
          = 0 := by
  have h1 : (Flow.sampleStoppedWindow.2.speedTimer
      + Flow.sampleStoppedWindow.1._samplingRate) % 2 ^ 32
        ≥ Flow.sampleStoppedWindow.1._speedSamplingRate := by decide
  have h2 : sub32 Flow.sampleStoppedWindow.1._count Flow.sampleStoppedWindow.2.startCount
      = 500 := by decide
  have h3 : Flow.sampleStoppedWindow.1._speedSamplingRate = 500 := by decide
  have h4 : Flow.sampleStoppedWindow.1._run = true := by decide
  have h5 : Flow.sampleStoppedWindow.1._count ≠ Flow.sampleStoppedWindow.2.oldCount := by
    decide
  have h6 : Flow.sampleStoppedWindow.2.flowing = false := by decide
  have h7 : Flow.sampleStoppedWindow.1._opened = true := by decide
  refine ⟨h1, h2, ?_, ?_, ?_⟩
  · rw [(Flow.sampleSpeed_pos _ _ h1).1, h2, h3]
    norm_num
  · rw [Flow.worker_start _ _ h4 h5 h6]
    rfl
  · rw [Flow.worker_start _ _ h4 h5 h6]
    unfold Flow.getFlowSpeed Flow.restart
    rw [if_neg]
    simp only [(Flow.sampleSpeed_frame _ _).2.2.1, h7]
    decide

/-- C19, amended: at an iteration of a running meter at which 500 ms have accumulated in the
speed window and which does not change the state, a counter delta of the window that is a
multiple of 500 is published as delta / 0.5 counts per second (500 pulses publish 1000), and
the next window starts at the present count; an iteration that changes the state publishes
the speed 0 and restarts the window; every other iteration leaves the published speed as it
is. -/
theorem C19_flow_speed (f : Flow) (l : Flow.Locals) (h : Flow.StateInv (f, l))
    (hrun : f._run = true) (hr : f._speedSamplingRate = 500) :
    ((l.speedTimer + f._samplingRate) % 2 ^ 32 ≥ 500 → (Flow._worker f l).1._state = f._state →
        ∀ n : ℕ, sub32 f._count l.startCount = 500 * n →
          (Flow._worker f l).1._flowSpeed = ((500 * n : ℕ) : ℚ) / (1 / 2)
          ∧ (Flow._worker f l).2.startCount = f._count
          ∧ (Flow._worker f l).2.speedTimer = 0)
    ∧ ((Flow._worker f l).1._state ≠ f._state →
        (Flow._worker f l).1._flowSpeed = 0 ∧ (Flow._worker f l).2.startCount = 0
          ∧ (Flow._worker f l).2.speedTimer = 0)
    ∧ (¬ (l.speedTimer + f._samplingRate) % 2 ^ 32 ≥ 500 →
        (Flow._worker f l).1._state = f._state →
        (Flow._worker f l).1._flowSpeed = f._flowSpeed) := by
  obtain ⟨w1, w2⟩ := Flow.worker_speed f l h hrun
  refine ⟨fun hw hs n hn => ?_, fun hs => ?_, fun hw hs => ?_⟩
  · obtain ⟨e1, e2, e3⟩ := w2 hs
    rw [← hr] at hw
    obtain ⟨p1, p2, p3⟩ := Flow.sampleSpeed_pos f l hw
    rw [e1, e2, e3, p1, p2, p3, hn, hr]
    refine ⟨?_, rfl, rfl⟩
    rw [Nat.mul_div_cancel_left n (by decide : 0 < 500)]
    push_cast
    ring
  · obtain ⟨e1, e2, e3⟩ := w1 hs
    exact ⟨e1, e3, e2⟩
  · obtain ⟨e1, -, -⟩ := w2 hs
    rw [← hr] at hw
    rw [e1, (Flow.sampleSpeed_neg f l hw).1]

set_option maxRecDepth 1000000 in
/-- C19 at the meter that has been flowing for nine iterations when 500 pulses arrive: the
next iteration publishes the speed 1000. -/
theorem C19_flow_speed_witness :
    (Flow.sampleFlowingWindow.1._run = true
      ∧ Flow.sampleFlowingWindow.1._speedSamplingRate = 500
      ∧ (Flow.sampleFlowingWindow.2.speedTimer + Flow.sampleFlowingWindow.1._samplingRate)
          % 2 ^ 32 ≥ 500
      ∧ (Flow._worker Flow.sampleFlowingWindow.1 Flow.sampleFlowingWindow.2).1._state
          = Flow.sampleFlowingWindow.1._state
      ∧ sub32 Flow.sampleFlowingWindow.1._count Flow.sampleFlowingWindow.2.startCount
          = 500 * 1)
    ∧ (Flow._worker Flow.sampleFlowingWindow.1 Flow.sampleFlowingWindow.2).1._flowSpeed
        = ((500 * 1 : ℕ) : ℚ) / (1 / 2) :=
  ⟨by decide,
   ((C19_flow_speed Flow.sampleFlowingWindow.1 Flow.sampleFlowingWindow.2
      (Flow.run_stateInv _ _ (Flow.run_stateInv _ _ (Flow.start_stateInv true)).1).1 (by decide)
      (by decide)).1 (by decide) (by decide) 1 (by decide)).1⟩

/-! ## The claim about the ranger -/

/-- C20, counterexample: a first iteration measured 0.30 m; the second measures 0.31 m,
which is not more than 0.01 m away from 0.30 m and not below 0.001 m, and still a second
measurement is taken: the `double`s of 0.31 and 0.30 differ by more than the `double` of
0.01. -/
theorem C20_counterexample :
    Ranger.sampleFirst.2.firstTime = false
      ∧ Ranger.sampleFirst.2.currentRange = 3 / 10
      ∧ ¬ (|(31 / 100 : ℚ) - 3 / 10| > 1 / 100)
      ∧ ¬ ((31 / 100 : ℚ) < 1 / 1000)
      ∧ (Ranger._worker Ranger.sampleFirst.1 Ranger.sampleFirst.2
          (fun _ => 31 / 100)).2.measured = Ranger.sampleFirst.2.measured + 2 := by
  have hf : Ranger.sampleFirst.2.firstTime = false := by rw [Ranger.sampleFirst_eq]
  have hc : Ranger.sampleFirst.2.currentRange = 3 / 10 := by rw [Ranger.sampleFirst_eq]
  have hrun : Ranger.sampleFirst.1._run = true := by rw [Ranger.sampleFirst_eq]
  refine ⟨hf, hc, ?_, by norm_num, ?_⟩
  · rw [show ((31 : ℚ) / 100 - 3 / 10) = 1 / 100 by norm_num, abs_of_pos (by norm_num)]
    exact lt_irrefl _
  · have h : Ranger.outlier Ranger.sampleFirst.2.firstTime ((fun _ : ℕ => (31 / 100 : ℚ)) 0)
        Ranger.sampleFirst.2.currentRange = true := by
      rw [Ranger.outlier_iff, hc]
      exact Or.inl ⟨hf, Ranger.ten_millimetres_up⟩
    exact Ranger.worker_twice Ranger.sampleFirst.1 Ranger.sampleFirst.2 (fun _ => 31 / 100)
      hrun h

/-- C20, amended: in every iteration of the running ranger worker, with `m0` the first
measurement and `l.currentRange` the final raw distance of the previous iteration, a second
measurement is taken exactly when (`firstTime` is false and the difference of the two as
`double`s, rounded, is in absolute value above the `double` 0.01) or `m0` as a `double` is
below the `double` 0.001.  For `m0` of `p` and the previous distance of `q` whole
millimetres, up to 10^9: it is taken when `p ≤ 0`, and after the first iteration when `p`
and `q` are at least 11 mm apart; it is not taken in the first iteration when `p ≥ 1`, nor
after it when `p ≥ 1` and the two are at most 9 mm apart; at 10 mm the rounding decides:
0.31 m after 0.30 m takes it, 0.02 m after 0.01 m does not.  The iteration calls
`_measureRange()` once or twice; the filter is updated with the second result, whatever it
is, when there is one and with the first otherwise: `_range` becomes `base + 0.5 * (raw -
base)` with `base` the raw distance in the first iteration and the old `_range` after it.
After the iteration `firstTime` is false. -/
theorem C20_outlier_remeasure (r : Ranger) (l : Ranger.Locals) (measure : ℕ → ℚ)
    (hrun : r._run = true) :
    ((Ranger._worker r l measure).2.measured = l.measured + 2
        ↔ ((l.firstTime = false
              ∧ |roundDouble (roundDouble (measure 0) - roundDouble l.currentRange)|
                  > roundDouble (1 / 100))
            ∨ roundDouble (measure 0) < roundDouble (1 / 1000)))
    ∧ (roundDouble (1 / 100) = 5764607523034235 / 2 ^ 59
        ∧ roundDouble (1 / 1000) = 4611686018427388 / 2 ^ 62)
    ∧ (∀ p q : ℤ, measure 0 = (p : ℚ) / 1000 → l.currentRange = (q : ℚ) / 1000 →
        (p ≤ 0 → (Ranger._worker r l measure).2.measured = l.measured + 2)
        ∧ (l.firstTime = true → 1 ≤ p →
            (Ranger._worker r l measure).2.measured = l.measured + 1)
        ∧ (l.firstTime = false → 0 ≤ p → p ≤ 10 ^ 9 → 0 ≤ q → q ≤ 10 ^ 9 →
            11 ≤ |p - q| → (Ranger._worker r l measure).2.measured = l.measured + 2)
        ∧ (l.firstTime = false → 1 ≤ p → p ≤ 10 ^ 9 → 0 ≤ q → q ≤ 10 ^ 9 →
            |p - q| ≤ 9 → (Ranger._worker r l measure).2.measured = l.measured + 1))
    ∧ (l.firstTime = false → measure 0 = 31 / 100 → l.currentRange = 3 / 10 →
        (Ranger._worker r l measure).2.measured = l.measured + 2)
    ∧ (l.firstTime = false → measure 0 = 2 / 100 → l.currentRange = 1 / 100 →
        (Ranger._worker r l measure).2.measured = l.measured + 1)
    ∧ ((Ranger._worker r l measure).2.measured = l.measured + 1
        ∨ (Ranger._worker r l measure).2.measured = l.measured + 2)
    ∧ ((Ranger._worker r l measure).2.measured = l.measured + 2 →
        (Ranger._worker r l measure).2.currentRange = measure 1)
    ∧ ((Ranger._worker r l measure).2.measured = l.measured + 1 →
        (Ranger._worker r l measure).2.currentRange = measure 0)
    ∧ (Ranger._worker r l measure).1._range
        = (if l.firstTime then (Ranger._worker r l measure).2.currentRange else r._range)
          + 1 / 2 * ((Ranger._worker r l measure).2.currentRange
              - (if l.firstTime then (Ranger._worker r l measure).2.currentRange
                 else r._range))
    ∧ (Ranger._worker r l measure).2.firstTime = false
    ∧ (Ranger._worker r l measure).2.oldRange = l.currentRange := by
  have hyes : Ranger.outlier l.firstTime (measure 0) l.currentRange = true →
      (Ranger._worker r l measure).2.measured = l.measured + 2 := by
    intro h
    rw [Ranger.worker_pos r l measure hrun h]
  have hno : ¬ Ranger.outlier l.firstTime (measure 0) l.currentRange = true →
      (Ranger._worker r l measure).2.measured = l.measured + 1 := by
    intro h
    rw [Ranger.worker_neg r l measure hrun (by simpa using h)]
  have hmm : ∀ p q : ℤ, measure 0 = (p : ℚ) / 1000 → l.currentRange = (q : ℚ) / 1000 →
      (p ≤ 0 → (Ranger._worker r l measure).2.measured = l.measured + 2)
      ∧ (l.firstTime = true → 1 ≤ p →
          (Ranger._worker r l measure).2.measured = l.measured + 1)
      ∧ (l.firstTime = false → 0 ≤ p → p ≤ 10 ^ 9 → 0 ≤ q → q ≤ 10 ^ 9 →
          11 ≤ |p - q| → (Ranger._worker r l measure).2.measured = l.measured + 2)
      ∧ (l.firstTime = false → 1 ≤ p → p ≤ 10 ^ 9 → 0 ≤ q → q ≤ 10 ^ 9 →
          |p - q| ≤ 9 → (Ranger._worker r l measure).2.measured = l.measured + 1) := by
    intro p q hm hq
    refine ⟨fun hp => ?_, fun hf hp => ?_, fun hf hp0 hp1 hq0 hq1 hd => ?_,
      fun hf hp0 hp1 hq0 hq1 hd => ?_⟩
    · apply hyes
      rw [Ranger.outlier_iff, hm]
      exact Or.inr ((Ranger.below_iff p).2 hp)
    · apply hno
      rw [Ranger.outlier_iff, hm, Ranger.below_iff]
      rintro (h | h)
      · rw [hf] at h
        exact absurd h.1 (by decide)
      · omega
    · apply hyes
      rw [Ranger.outlier_iff, hm, hq]
      exact Or.inl ⟨hf, Ranger.far_apart p q hp0 hp1 hq0 hq1 hd⟩
    · apply hno
      rw [Ranger.outlier_iff, hm, hq, Ranger.below_iff]
      rintro (h | h)
      · exact Ranger.near_by p q (by omega) hp1 hq0 hq1 hd h.2
      · omega
  have hup : l.firstTime = false → measure 0 = 31 / 100 → l.currentRange = 3 / 10 →
      (Ranger._worker r l measure).2.measured = l.measured + 2 := by
    intro hf hm hq
    apply hyes
    rw [Ranger.outlier_iff, hm, hq]
    exact Or.inl ⟨hf, Ranger.ten_millimetres_up⟩
  have hlow : l.firstTime = false → measure 0 = 2 / 100 → l.currentRange = 1 / 100 →
      (Ranger._worker r l measure).2.measured = l.measured + 1 := by
    intro hf hm hq
    apply hno
    rw [Ranger.outlier_iff, hm, hq]
    rintro (h | h)
    · exact Ranger.ten_millimetres_low h.2
    · rw [show ((2 : ℚ) / 100) = ((20 : ℤ) : ℚ) / 1000 by norm_num, Ranger.below_iff] at h
      omega
  refine ⟨?_, ⟨roundDouble_hundredth, roundDouble_thousandth⟩, hmm, hup, hlow, ?_⟩
  · rw [← Ranger.outlier_iff]
    constructor
    · intro h
      by_contra hn
      have := hno hn
      omega
    · exact hyes
  · cases h : Ranger.outlier l.firstTime (measure 0) l.currentRange
    · rw [Ranger.worker_neg r l measure hrun h]
      refine ⟨Or.inl rfl, fun h2 => ?_, fun _ => rfl, rfl, rfl, rfl⟩
      have h3 : l.measured + 1 = l.measured + 2 := h2
      omega
    · rw [Ranger.worker_pos r l measure hrun h]
      refine ⟨Or.inr rfl, fun _ => rfl, fun h2 => ?_, rfl, rfl, rfl⟩
      have h3 : l.measured + 2 = l.measured + 1 := h2
      omega

/-- C20 at the scenario of the specification: a first iteration measured 0.30 m; the second
measures 0.50 m, measures again (0.31 m) and updates the filter with the second result. -/
theorem C20_outlier_remeasure_witness :
    Ranger.sampleFirst.1._run = true
      ∧ Ranger.sampleFirst.2.currentRange = 3 / 10
      ∧ Ranger.sampleMeasure 0 = 1 / 2
      ∧ (Ranger._worker Ranger.sampleFirst.1 Ranger.sampleFirst.2
          Ranger.sampleMeasure).2.measured = Ranger.sampleFirst.2.measured + 2
      ∧ (Ranger._worker Ranger.sampleFirst.1 Ranger.sampleFirst.2
          Ranger.sampleMeasure).2.currentRange = Ranger.sampleMeasure 1
      ∧ (Ranger._worker Ranger.sampleFirst.1 Ranger.sampleFirst.2
          Ranger.sampleMeasure).1._range
          = Ranger.sampleFirst.1._range
            + 1 / 2 * (Ranger.sampleMeasure 1 - Ranger.sampleFirst.1._range) := by
  have hrun : Ranger.sampleFirst.1._run = true := by rw [Ranger.sampleFirst_eq]
  obtain ⟨h1, -, -, -, -, -, h3, -, h5, -⟩ :=
    C20_outlier_remeasure Ranger.sampleFirst.1 Ranger.sampleFirst.2 Ranger.sampleMeasure hrun
  have hm := h1.2 (Or.inl Ranger.sample_jump)
  refine ⟨hrun, by rw [Ranger.sampleFirst_eq], by simp [Ranger.sampleMeasure], hm, h3 hm, ?_⟩
  rw [h5, h3 hm, Ranger.sample_jump.1, if_neg Bool.false_ne_true]

/-! ## The claims about the tank level and the extraction amount -/

/-- C21: `getWaterTankLevel()` of a ready controller lies in [0,1]; it is 0 when `getRange`
reports the reading invalid, and otherwise `1 - (r - 0.018) / (0.12 - 0.018)` limited to
[0,1] for the reported range `r`: 0 for `r ≥ 0.12`, 1 for `r ≤ 0.018`, and not higher for a
larger valid range. -/
theorem C21_water_tank_level (g : Gaggia) (tank tank2 : Ranger) (hr : g._ready = true) :
    (0 ≤ g.getWaterTankLevel tank ∧ g.getWaterTankLevel tank ≤ 1)
    ∧ ((tank.getRange 0).1 = false → g.getWaterTankLevel tank = 0)
    ∧ ((tank.getRange 0).1 = true →
        g.getWaterTankLevel tank
            = max 0 (min (1 - ((tank.getRange 0).2 - 18 / 1000) / (12 / 100 - 18 / 1000)) 1)
        ∧ ((tank.getRange 0).2 ≥ 12 / 100 → g.getWaterTankLevel tank = 0)
        ∧ ((tank.getRange 0).2 ≤ 18 / 1000 → g.getWaterTankLevel tank = 1)
        ∧ ((tank2.getRange 0).1 = true → (tank.getRange 0).2 ≤ (tank2.getRange 0).2 →
            g.getWaterTankLevel tank2 ≤ g.getWaterTankLevel tank)) := by
  have hinv : ∀ t : Ranger, (t.getRange 0).1 = false → g.getWaterTankLevel t = 0 := by
    intro t h
    simp [Gaggia.getWaterTankLevel, hr, h]
  have hval : ∀ t : Ranger, (t.getRange 0).1 = true →
      g.getWaterTankLevel t = Gaggia.tankLevel (t.getRange 0).2 := by
    intro t h
    simp [Gaggia.getWaterTankLevel, hr, h]
  refine ⟨?_, hinv tank, fun h => ?_⟩
  · cases h : (tank.getRange 0).1
    · rw [hinv tank h]
      exact ⟨le_refl _, zero_le_one⟩
    · rw [hval tank h]
      exact Gaggia.tankLevel_bounds _
  · rw [hval tank h]
    refine ⟨Gaggia.tankLevel_eq _, Gaggia.tankLevel_empty _, Gaggia.tankLevel_full _,
      fun h2 hle => ?_⟩
    rw [hval tank2 h2]
    exact Gaggia.tankLevel_anti _ _ hle

/-- C21 at the sample controller and the ranger whose filter holds 0.30 m: the tank is
empty. -/
theorem C21_water_tank_level_witness :
    Gaggia.sampleHeating._ready = true
      ∧ (Ranger.sampleFirst.1.getRange 0).1 = true
      ∧ (Ranger.sampleFirst.1.getRange 0).2 ≥ 12 / 100
      ∧ Gaggia.sampleHeating.getWaterTankLevel Ranger.sampleFirst.1 = 0 := by
  have h1 : (Ranger.sampleFirst.1.getRange 0).1 = true := by
    rw [Ranger.sampleFirst_eq]
    simp [Ranger.getRange]
  have h2 : (Ranger.sampleFirst.1.getRange 0).2 ≥ 12 / 100 := by
    rw [Ranger.sampleFirst_eq]
    simp [Ranger.getRange]
    norm_num
  exact ⟨by decide, h1, h2,
    ((C21_water_tank_level Gaggia.sampleHeating Ranger.sampleFirst.1 Ranger.sampleFirst.1
      (by decide)).2.2 h1).2.1 h2⟩

/-- C22: `getExtractionAmount()` of a ready controller returns the raw flow volume `v` less
the offset of one cup in ExtractingOneCup, less the offset of two cups in
ExtractingTwoCups and `v` itself in every other state, with 0 in place of a negative value;
the result is never negative. -/
theorem C22_extraction_amount (g : Gaggia) (v : ℚ) (hr : g._ready = true) :
    (g._currentState = .ExtractingOneCup →
        g.getExtractionAmount v = max 0 (v - g._flowOffsetOneCup))
    ∧ (g._currentState = .ExtractingTwoCups →
        g.getExtractionAmount v = max 0 (v - g._flowOffsetTwoCups))
    ∧ (g._currentState ≠ .ExtractingOneCup → g._currentState ≠ .ExtractingTwoCups →
        g.getExtractionAmount v = max 0 v)
    ∧ 0 ≤ g.getExtractionAmount v := by
  have hl : ∀ x : ℚ, (if x < 0 then 0 else x) = max 0 x := by
    intro x
    split_ifs with h
    · rw [max_eq_left (le_of_lt h)]
    · rw [max_eq_right (not_lt.mp h)]
  refine ⟨fun h => ?_, fun h => ?_, fun h1 h2 => ?_, ?_⟩
  · unfold Gaggia.getExtractionAmount
    rw [if_neg (by simp [hr]), if_pos h, hl]
  · unfold Gaggia.getExtractionAmount
    rw [if_neg (by simp [hr]), if_neg (by rw [h]; decide), if_pos h, hl]
  · unfold Gaggia.getExtractionAmount
    rw [if_neg (by simp [hr]), if_neg h1, if_neg h2, hl]
  · unfold Gaggia.getExtractionAmount
    rw [if_neg (by simp [hr])]
    split_ifs <;> first | exact le_refl _ | exact not_lt.mp ‹_›

/-- C22 at the sample controller in a one-cup extraction with the offset 7.5 mL: a raw
volume of 5 mL is reported as 0. -/
theorem C22_extraction_amount_witness :
    Gaggia.sampleShot._ready = true
      ∧ Gaggia.sampleShot._currentState = .ExtractingOneCup
      ∧ Gaggia.sampleShot.getExtractionAmount 5
          = max 0 (5 - Gaggia.sampleShot._flowOffsetOneCup) := by
  have h1 : Gaggia.sampleShot._ready = true := by rw [Gaggia.sampleShot_eq]
  have h2 : Gaggia.sampleShot._currentState = .ExtractingOneCup := by
    rw [Gaggia.sampleShot_eq]
  exact ⟨h1, h2, (C22_extraction_amount Gaggia.sampleShot 5 h1).1 h2⟩

/-! ## The claims about the deadline of the regulator and the settings after power-on -/

/-- C23 (the code at the failing input): the opened regulator has the time step 1 s and
enters its loop with the deadline `next = 0` and the power flag off.  Whatever the readings
and the clock, no number of iterations moves the deadline: it stays at the start instead of
`start + k * timeStep`, and the rest of the step that the iteration would sleep is
`0 - clock`.  With the power flag set, an iteration whose reading is flagged invalid or is
0.4 degrees leaves the deadline alone as well; only the iteration that runs the PID update
moves it on by one time step. -/
theorem C23_deadline_stays_without_update :
    Regulator.sampleOffLoop.regulator._run = true
      ∧ Regulator.sampleOffLoop.regulator._power = false
      ∧ Regulator.sampleOffLoop.regulator._timeStep = 1
      ∧ Regulator.sampleOffLoop.next = 0
      ∧ (∀ xs : List ((ℚ × Bool) × ℚ),
          (Regulator.run Regulator.sampleOffLoop (Regulator.iterations xs)).next = 0)
      ∧ (∀ (reading : ℚ × Bool) (clock : ℚ),
          (Regulator._worker Regulator.sampleOffLoop reading clock).remain = 0 - clock)
      ∧ (∀ clock : ℚ,
          (Regulator._worker Regulator.sampleLoop (90, false) clock).next
            = Regulator.sampleLoop.next)
      ∧ (∀ clock : ℚ,
          (Regulator._worker Regulator.sampleLoop (2 / 5, true) clock).next
            = Regulator.sampleLoop.next)
      ∧ (∀ clock : ℚ,
          (Regulator._worker Regulator.sampleLoop (90, true) clock).next
            = Regulator.sampleLoop.next + 1) := by
  have hoff : ∀ reading : ℚ × Bool,
      ¬ (Regulator.sampleOffLoop.regulator._power = true
          ∧ (if !reading.2 then 0 else reading.1) > 1 / 2) :=
    fun _ h => absurd h.1 (by decide)
  refine ⟨rfl, rfl, rfl, rfl, fun xs => ?_, fun reading clock => ?_, fun clock => ?_,
    fun clock => ?_, fun clock => ?_⟩
  · exact Regulator.run_power_off xs _ rfl rfl
  · exact (Regulator._worker_next_neg _ reading clock rfl (hoff reading)).2.1
  · refine (Regulator._worker_next_neg _ _ clock rfl ?_).1
    intro h
    have h2 := h.2
    norm_num at h2
  · refine (Regulator._worker_next_neg _ _ clock rfl ?_).1
    intro h
    have h2 := h.2
    norm_num at h2
  · refine (Regulator._worker_next_pos _ _ clock rfl ⟨rfl, ?_⟩).1
    norm_num

/-- C24 (the code at the failing input): `powerRegulator(true)` never writes the target
temperature or the gains of the regulator.  The sample controller is active with the target
93 degrees of the default settings; after `powerRegulator(true)` its state is Heating and
its target is still 93 degrees, while the pre-heating target of the settings is 100 degrees,
which `_setRegulatorSettings()` would select in that state. -/
theorem C24_powerRegulator_keeps_target :
    (∀ g : Gaggia,
        (g.powerRegulator true)._regulator._targetTemperature
            = g._regulator._targetTemperature
          ∧ (g.powerRegulator true)._regulator._pGain = g._regulator._pGain
          ∧ (g.powerRegulator true)._regulator._iGain = g._regulator._iGain
          ∧ (g.powerRegulator true)._regulator._dGain = g._regulator._dGain)
      ∧ Gaggia.sampleActive.Operational
      ∧ Gaggia.sampleActive._currentState = .Active
      ∧ Gaggia.sampleRepowered._currentState = .Heating
      ∧ Gaggia.sampleRepowered._regulator.getTargetTemperature = 93
      ∧ (Settings.loadDefaults.getPreHeatingSettings (0, 0)).2 = 100
      ∧ (Gaggia._setRegulatorSettings Settings.loadDefaults
          Gaggia.sampleRepowered)._regulator.getTargetTemperature = 100 := by
  refine ⟨fun g => ?_, ?_, ?_, ?_, ?_, ?_, ?_⟩
  · unfold Gaggia.powerRegulator Regulator.setPower
    split_ifs <;> exact ⟨rfl, rfl, rfl, rfl⟩
  · rw [Gaggia.sampleActive_eq]
    decide
  · rw [Gaggia.sampleActive_eq]
  · simp [Gaggia.sampleRepowered, Gaggia.sampleActive_eq, Gaggia.powerRegulator]
  · simp [Gaggia.sampleRepowered, Gaggia.sampleActive_eq, Gaggia.powerRegulator,
      Regulator.setPower, Regulator.getTargetTemperature]
  · simp [Settings.getPreHeatingSettings, Settings.loadDefaults]
  · simp [Gaggia.sampleRepowered, Gaggia.sampleActive_eq, Gaggia.powerRegulator,
      Regulator.setPower, Regulator.getTargetTemperature, Gaggia._setRegulatorSettings,
      Settings.getPreHeatingSettings, Settings.getRegulatorSettings, Settings.loadDefaults,
      Regulator.setPIDGains, Regulator.setTargetTemperature]

/-! ## The claim about the fields of a packet -/

/-- C25, counterexample: one edge before the end of a packet the register holds 3072; a
rising edge after 94 us shifts in a 0, so the completed register is 6144.  The code hands
bits 18…10 (the value 6) to the decoder as the high field and publishes 25.036 degrees; the
bits 19…11 are 3, and decoding with them would give -24.988 degrees. -/
theorem C25_counterexample :
    TSIC.sampleLast._count = 19 ∧ 2 * TSIC.sampleLast._word = 6144
      ∧ sub32 1094 TSIC.sampleLast._lastLow = 94
      ∧ (6144 >>> 10) &&& 0x1FF = 6
      ∧ 6144 / 2 ^ 11 % 2 ^ 9 = 3
      ∧ TSIC.decodeWord 6144 = 25036
      ∧ TSIC.tsicDecode (6144 / 2 ^ 11 % 2 ^ 9) (6144 % 2 ^ 9) = -24988
      ∧ (TSIC.sampleLast._alertFunction 1 1094).getDegrees = (25036 / 1000, true) := by
  have hd : TSIC.decodeWord 6144 = 25036 := by decide
  refine ⟨rfl, rfl, by decide, by decide, by decide, hd, by decide, ?_⟩
  rw [TSIC.alert_zero TSIC.sampleLast 1094 (by decide) (by decide), TSIC.countEdge_pos]
  · have hw : (TSIC.sampleLast._word <<< 1) % 2 ^ 32 = 6144 := by decide
    show (if TSIC.decodeWord ((TSIC.sampleLast._word <<< 1) % 2 ^ 32) ≠ TSIC.INVALID_TEMP
      then _ else _ : TSIC).getDegrees = _
    rw [hw, hd, if_pos (by decide)]
    show ((((25036 : ℤ) : ℚ) / ((TSIC.SCALE_FACTOR : ℤ) : ℚ)), true) = _
    simp [TSIC.SCALE_FACTOR]
  · decide

/-- C25, amended: the decoder is called with the high field `w / 2^10 mod 2^9`, whose bit
`i` is bit `10 + i` of the register (bits 18…10), and the low field `w mod 2^9`, whose bit
`i` is bit `i` of the register (bits 8…0); bits 19 and 9 are in neither field.  The edge
that completes a packet publishes the result of that call: the value divided by 1000 with
the flag set, or the flag cleared and the old value kept. -/
theorem C25_packet_split (s : TSIC) (w : ℕ) :
    TSIC.decodeWord w = TSIC.tsicDecode (w / 2 ^ 10 % 2 ^ 9) (w % 2 ^ 9)
    ∧ (∀ i : ℕ, i < 9 →
        (w / 2 ^ 10 % 2 ^ 9).testBit i = w.testBit (10 + i)
          ∧ (w % 2 ^ 9).testBit i = w.testBit i)
    ∧ ((s._count + 1) % 2 ^ 32 = 20 →
        (TSIC.decodeWord s._word ≠ TSIC.INVALID_TEMP →
          (TSIC.countEdge s).getDegrees = ((TSIC.decodeWord s._word : ℚ) / 1000, true))
        ∧ (TSIC.decodeWord s._word = TSIC.INVALID_TEMP →
          (TSIC.countEdge s).getDegrees = (s._temperature, false))) := by
  refine ⟨?_, fun i hi => ?_, fun hc => ?_⟩
  · unfold TSIC.decodeWord
    rw [(TSIC.decodeWord_fields w).1, (TSIC.decodeWord_fields w).2]
  · constructor
    · rw [Nat.testBit_mod_two_pow, ← Nat.shiftRight_eq_div_pow, Nat.testBit_shiftRight]
      simp [hi]
    · rw [Nat.testBit_mod_two_pow]
      simp [hi]
  · rw [TSIC.countEdge_pos s hc]
    refine ⟨fun h => ?_, fun h => ?_⟩
    · rw [if_pos h]
      show (_, _) = _
      rw [show ((TSIC.SCALE_FACTOR : ℤ) : ℚ) = 1000 by simp [TSIC.SCALE_FACTOR]]
    · rw [if_neg (fun hn => hn h)]
      rfl

/-- C25 at the completed register 6144 of the sample packet: bit 10 is bit 0 of the high
field, and the completing edge publishes 25.036 degrees. -/
theorem C25_packet_split_witness :
    (({ TSIC.sampleLast with _word := 6144 } : TSIC)._count + 1) % 2 ^ 32 = 20
      ∧ TSIC.decodeWord 6144 ≠ TSIC.INVALID_TEMP
      ∧ (6144 / 2 ^ 10 % 2 ^ 9).testBit 1 = (6144).testBit (10 + 1)
      ∧ (TSIC.countEdge { TSIC.sampleLast with _word := 6144 }).getDegrees
          = ((TSIC.decodeWord 6144 : ℚ) / 1000, true) :=
  ⟨by decide, by decide,
   ((C25_packet_split { TSIC.sampleLast with _word := 6144 } 6144).2.1 1 (by decide)).1,
   ((C25_packet_split { TSIC.sampleLast with _word := 6144 } 6144).2.2 (by decide)).1
     (by decide)⟩

/-! ## The claim about a failed range measurement -/

/-- C26, counterexample: the opened ranger has published 0.10 m.  In the next iteration the
measurement and its one repetition fail (raw distance 0).  The published range becomes
0.05 m, which `getRange` reports as valid, and the ready controller reports the tank level
35/51, not 0. -/
theorem C26_counterexample :
    Ranger.sampleTenth.1._range = 1 / 10
      ∧ (Ranger._worker Ranger.sampleTenth.1 Ranger.sampleTenth.2 (fun _ => 0)).2.measured
          = Ranger.sampleTenth.2.measured + 2
      ∧ (Ranger._worker Ranger.sampleTenth.1 Ranger.sampleTenth.2 (fun _ => 0)).1.getRange 0
          = (true, 1 / 20)
      ∧ Gaggia.sampleHeating._ready = true
      ∧ Gaggia.sampleHeating.getWaterTankLevel
          (Ranger._worker Ranger.sampleTenth.1 Ranger.sampleTenth.2 (fun _ => 0)).1
          = 35 / 51 := by
  have hw : Ranger._worker Ranger.sampleTenth.1 Ranger.sampleTenth.2 (fun _ => 0)
      = ({ _opened := true, _range := 1 / 20, _run := true },
         { currentRange := 0, oldRange := 1 / 10, firstTime := false, measured := 3 }) := by
    rw [Ranger.worker_failed _ _ _ (by rw [Ranger.sampleTenth_eq]) rfl rfl,
      Ranger.sampleTenth_eq]
    simp
    norm_num
  rw [hw]
  refine ⟨by rw [Ranger.sampleTenth_eq], by rw [Ranger.sampleTenth_eq], ?_, by decide, ?_⟩
  · simp [Ranger.getRange]
  · rw [Gaggia.getWaterTankLevel_opened _ _ (by decide) rfl]
    simp [Gaggia.tankLevel]
    norm_num

/-- C26, amended: when the measurement of an iteration and its one repetition both fail (raw
distance 0) on an opened, running ranger, the published range becomes half of the range
published before, and 0 in the first iteration.  A ready controller then reports the tank
level 0 when that was the first iteration or the range published before was not positive;
otherwise it reports the level of half the range published before, `1 - (r/2 - 0.018) /
(0.12 - 0.018)` limited to [0,1], which is 35/51 when 0.10 m was published before. -/
theorem C26_failed_measurement (g : Gaggia) (r : Ranger) (l : Ranger.Locals)
    (measure : ℕ → ℚ) (hg : g._ready = true) (hrun : r._run = true) (ho : r._opened = true)
    (h0 : measure 0 = 0) (h1 : measure 1 = 0) :
    (Ranger._worker r l measure).2.measured = l.measured + 2
    ∧ (Ranger._worker r l measure).1._range = (if l.firstTime then 0 else r._range / 2)
    ∧ ((l.firstTime = true ∨ r._range ≤ 0) →
        g.getWaterTankLevel (Ranger._worker r l measure).1 = 0)
    ∧ (l.firstTime = false → 0 < r._range →
        g.getWaterTankLevel (Ranger._worker r l measure).1
          = max 0 (min (1 - (r._range / 2 - 18 / 1000) / (12 / 100 - 18 / 1000)) 1))
    ∧ (l.firstTime = false → r._range = 1 / 10 →
        g.getWaterTankLevel (Ranger._worker r l measure).1 = 35 / 51) := by
  have hw := Ranger.worker_failed r l measure hrun h0 h1
  have hlevel : l.firstTime = false → 0 < r._range →
      g.getWaterTankLevel (Ranger._worker r l measure).1
        = max 0 (min (1 - (r._range / 2 - 18 / 1000) / (12 / 100 - 18 / 1000)) 1) := by
    intro hf hp
    rw [hw, Gaggia.getWaterTankLevel_opened]
    · simp only [hf, Bool.false_eq_true, if_false]
      rw [if_pos (by linarith), Gaggia.tankLevel_eq]
    · exact hg
    · exact ho
  rw [hw]
  refine ⟨rfl, rfl, fun h => ?_, ?_, fun hf hr => ?_⟩
  · rw [Gaggia.getWaterTankLevel_opened]
    · apply if_neg
      rcases h with h | h
      · simp [h]
      · show ¬ (if l.firstTime = true then (0 : ℚ) else r._range / 2) > 0
        split_ifs
        · norm_num
        · linarith
    · exact hg
    · exact ho
  · rw [← hw]
    exact hlevel
  · rw [← hw, hlevel hf (by rw [hr]; norm_num), hr]
    norm_num

/-- C26 at the ranger that has published 0.10 m. -/
theorem C26_failed_measurement_witness :
    (Gaggia.sampleHeating._ready = true ∧ Ranger.sampleTenth.1._run = true
      ∧ Ranger.sampleTenth.1._opened = true ∧ Ranger.sampleTenth.2.firstTime = false
      ∧ Ranger.sampleTenth.1._range = 1 / 10)
    ∧ Gaggia.sampleHeating.getWaterTankLevel
        (Ranger._worker Ranger.sampleTenth.1 Ranger.sampleTenth.2 (fun _ => 0)).1
        = 35 / 51 := by
  have h1 : Ranger.sampleTenth.1._run = true := by rw [Ranger.sampleTenth_eq]
  have h2 : Ranger.sampleTenth.1._opened = true := by rw [Ranger.sampleTenth_eq]
  have h3 : Ranger.sampleTenth.2.firstTime = false := by rw [Ranger.sampleTenth_eq]
  have h4 : Ranger.sampleTenth.1._range = 1 / 10 := by rw [Ranger.sampleTenth_eq]
  exact ⟨⟨by decide, h1, h2, h3, h4⟩,
    (C26_failed_measurement Gaggia.sampleHeating Ranger.sampleTenth.1 Ranger.sampleTenth.2
      (fun _ => 0) (by decide) h1 h2 rfl rfl).2.2.2.2 h3 h4⟩

/-! ## The claims about the stored state and the steam mode -/

/-- C27, counterexample: the sample controller, active since the tick at 31 s, runs
`extractOneCup()` at 40 s.  In the tick that finds 32.5 mL the target-volume block restores
`_oldState`, Active; the tick then stalls for 6 s before the debounce read, which finds
water flowing and the idle timer past 5 s, so the same tick starts a user extraction and
ends in Extracting, an extraction state (with `_oldState` Active). -/
theorem C27_counterexample :
    Gaggia.run Settings.loadDefaults
        (Gaggia.new Gaggia.Hardware.allReady Settings.loadDefaults (fun _ => 0) true)
        [.worker (Gaggia.readingsAt 31 .Stopped 0), .extractOneCup 40] = Gaggia.sampleShot
      ∧ Gaggia.sampleShot._currentState = .ExtractingOneCup
      ∧ Gaggia.sampleShot._oldState = .Active
      ∧ (Gaggia.checkAutomaticExtraction Gaggia.readingsStalled Gaggia.sampleShot
          (Gaggia.copyCurrentStates Gaggia.readingsStalled
            Gaggia.sampleShot)).1._currentState = .Active
      ∧ Gaggia.readingsStalled.clock 6 - Gaggia.readingsStalled.clock 5 = 6
      ∧ (Gaggia._worker Settings.loadDefaults Gaggia.sampleShot
          Gaggia.readingsStalled)._currentState = .Extracting
      ∧ (Gaggia._worker Settings.loadDefaults Gaggia.sampleShot
          Gaggia.readingsStalled)._oldState = .Active := by
  have hrun : Gaggia.sampleShot._run = true := by rw [Gaggia.sampleShot_eq]
  have hs : (Gaggia.copyCurrentStates Gaggia.readingsStalled Gaggia.sampleShot).state
      = .ExtractingOneCup := by rw [Gaggia.sampleShot_eq]; rfl
  have hf : (Gaggia.copyCurrentStates Gaggia.readingsStalled Gaggia.sampleShot).flowState
      = .Flowing := rfl
  have hv : (Gaggia.copyCurrentStates Gaggia.readingsStalled
      Gaggia.sampleShot).flowVolumeCorrected = 25 := by
    simp [Gaggia.sampleShot_eq, Gaggia.readingsStalled, Gaggia.copyCurrentStates]
    norm_num
  have hauto := Gaggia.checkAutomaticExtraction_reached Gaggia.readingsStalled
    Gaggia.sampleShot (Gaggia.copyCurrentStates Gaggia.readingsStalled Gaggia.sampleShot)
    (Or.inl hs) (by rw [hs, hv]; simp)
  have hold : Gaggia.sampleShot._oldState = .Active := by rw [Gaggia.sampleShot_eq]
  have htail := (Gaggia.userExtraction_tail Settings.loadDefaults Gaggia.readingsStalled
    (Gaggia.checkAutomaticExtraction Gaggia.readingsStalled Gaggia.sampleShot
      (Gaggia.copyCurrentStates Gaggia.readingsStalled Gaggia.sampleShot)).1
    (Gaggia.checkAutomaticExtraction Gaggia.readingsStalled Gaggia.sampleShot
      (Gaggia.copyCurrentStates Gaggia.readingsStalled Gaggia.sampleShot)).2
    (by rw [hauto])
    (by rw [hauto]; simp only [hold]; decide)).2
    (by rw [hauto]; exact hf)
    (by
      rw [hauto]
      simp [Gaggia.readingsStalled, Timer.reset, Timer.start, Timer.getElapsed]
      norm_num)
  have hw : Gaggia._worker Settings.loadDefaults Gaggia.sampleShot Gaggia.readingsStalled
      = _ := (Gaggia.worker_of_run Settings.loadDefaults Gaggia.sampleShot
        Gaggia.readingsStalled hrun).trans
      ((congrArg (fun p => Gaggia.checkPreHeatingFinish Settings.loadDefaults
          Gaggia.readingsStalled p.1 p.2)
        (Gaggia.flowControl_of_ne_steam Gaggia.readingsStalled Gaggia.sampleShot
          (Gaggia.copyCurrentStates Gaggia.readingsStalled Gaggia.sampleShot)
          (by rw [hs]; decide))).trans htail)
  refine ⟨rfl, by rw [Gaggia.sampleShot_eq], hold, by rw [hauto]; exact hold, ?_, ?_, ?_⟩
  · simp [Gaggia.readingsStalled]
    norm_num
  · rw [hw]
  · rw [hw, hauto]
    exact hold

/-- C27, amended: in every state reached from construction by commands and worker
iterations, `_oldState` is none of Extracting, ExtractingOneCup and ExtractingTwoCups.  So
the block that ends an automatic extraction at the target volume and the block that ends a
user extraction when the flow has stopped set the current state to a state that is no
extraction state; and the whole iteration that ends a user extraction, and the one that ends
an automatic extraction with fewer than 5 s between the restart of the idle timer and the
debounce read, leave the controller in no extraction state either. -/
theorem C27_oldState_never_extraction (hw : Gaggia.Hardware) (cfg : Settings)
    (clock : ℕ → ℚ) (a : Bool) (steps : List Gaggia.Step) (r : Gaggia.Readings) :
    ((Gaggia.run cfg (Gaggia.new hw cfg clock a) steps)._oldState ≠ .Extracting
      ∧ (Gaggia.run cfg (Gaggia.new hw cfg clock a) steps)._oldState ≠ .ExtractingOneCup
      ∧ (Gaggia.run cfg (Gaggia.new hw cfg clock a) steps)._oldState ≠ .ExtractingTwoCups)
    ∧ (((Gaggia.run cfg (Gaggia.new hw cfg clock a) steps)._currentState = .ExtractingOneCup
          ∨ (Gaggia.run cfg (Gaggia.new hw cfg clock a) steps)._currentState
              = .ExtractingTwoCups) →
        (if (Gaggia.run cfg (Gaggia.new hw cfg clock a) steps)._currentState
              = .ExtractingOneCup then (25 : ℚ) else 50)
          ≤ (Gaggia.copyCurrentStates r
              (Gaggia.run cfg (Gaggia.new hw cfg clock a) steps)).flowVolumeCorrected →
        ((Gaggia.checkAutomaticExtraction r (Gaggia.run cfg (Gaggia.new hw cfg clock a) steps)
            (Gaggia.copyCurrentStates r
              (Gaggia.run cfg (Gaggia.new hw cfg clock a) steps))).1._currentState
          = (Gaggia.run cfg (Gaggia.new hw cfg clock a) steps)._oldState)
        ∧ ((Gaggia.run cfg (Gaggia.new hw cfg clock a) steps)._run = true →
            r.clock 6 - r.clock 5 < 5 →
            (Gaggia._worker cfg (Gaggia.run cfg (Gaggia.new hw cfg clock a) steps)
                r)._currentState ≠ .Extracting
            ∧ (Gaggia._worker cfg (Gaggia.run cfg (Gaggia.new hw cfg clock a) steps)
                r)._currentState ≠ .ExtractingOneCup
            ∧ (Gaggia._worker cfg (Gaggia.run cfg (Gaggia.new hw cfg clock a) steps)
                r)._currentState ≠ .ExtractingTwoCups))
    ∧ ((Gaggia.run cfg (Gaggia.new hw cfg clock a) steps)._currentState = .Extracting →
        r.flowState ≠ Flow.State.Flowing →
        ((Gaggia.checkUserExtractionStopped r
            (Gaggia.run cfg (Gaggia.new hw cfg clock a) steps)
            (Gaggia.copyCurrentStates r
              (Gaggia.run cfg (Gaggia.new hw cfg clock a) steps))).1._currentState
          = (Gaggia.run cfg (Gaggia.new hw cfg clock a) steps)._oldState)
        ∧ ((Gaggia.run cfg (Gaggia.new hw cfg clock a) steps)._run = true →
            (Gaggia._worker cfg (Gaggia.run cfg (Gaggia.new hw cfg clock a) steps)
                r)._currentState ≠ .Extracting
            ∧ (Gaggia._worker cfg (Gaggia.run cfg (Gaggia.new hw cfg clock a) steps)
                r)._currentState ≠ .ExtractingOneCup
            ∧ (Gaggia._worker cfg (Gaggia.run cfg (Gaggia.new hw cfg clock a) steps)
                r)._currentState ≠ .ExtractingTwoCups)) := by
  have hinv := Gaggia.run_oldInv hw cfg clock a steps
  generalize Gaggia.run cfg (Gaggia.new hw cfg clock a) steps = g at hinv ⊢
  have hactive : (Gaggia.State.Active ≠ .Extracting ∧ Gaggia.State.Active ≠ .ExtractingOneCup
      ∧ Gaggia.State.Active ≠ .ExtractingTwoCups) := by decide
  refine ⟨hinv, fun hs ht => ⟨?_, fun hrun hprompt => ?_⟩, fun hs hf => ⟨?_, fun hrun => ?_⟩⟩
  · rw [Gaggia.checkAutomaticExtraction_reached r g _
      (by simpa [Gaggia.copyCurrentStates] using hs)
      (by simpa [Gaggia.copyCurrentStates] using ht)]
  · have hA := Gaggia.checkAutomaticExtraction_reached r g (Gaggia.copyCurrentStates r g)
      (by simpa [Gaggia.copyCurrentStates] using hs)
      (by simpa [Gaggia.copyCurrentStates] using ht)
    rw [Gaggia.worker_auto_reached cfg g r hrun hs ht hprompt,
      if_neg (fun h => hinv.1 h.1)]
    split_ifs
    · exact hactive
    · rw [hA]
      exact hinv
  · rw [Gaggia.checkUserExtractionStopped_pos r g _
      (by simpa [Gaggia.copyCurrentStates, hs] using hf)]
  · rw [Gaggia.worker_extracting_stopped cfg g r hrun hs hf]
    split_ifs
    · exact hactive
    · exact hinv

/-- C27 at the sample controller in a one-cup extraction entered from Active: the tick that
finds 40 mL leaves it in no extraction state. -/
theorem C27_oldState_never_extraction_witness :
    ((Gaggia.run Settings.loadDefaults
        (Gaggia.new Gaggia.Hardware.allReady Settings.loadDefaults (fun _ => 0) true)
        [.extractOneCup 10])._currentState = .ExtractingOneCup
      ∧ (Gaggia.run Settings.loadDefaults
        (Gaggia.new Gaggia.Hardware.allReady Settings.loadDefaults (fun _ => 0) true)
        [.extractOneCup 10])._run = true)
    ∧ (Gaggia._worker Settings.loadDefaults
        (Gaggia.run Settings.loadDefaults
          (Gaggia.new Gaggia.Hardware.allReady Settings.loadDefaults (fun _ => 0) true)
          [.extractOneCup 10])
        (Gaggia.readingsAt 20 .Flowing 40))._currentState ≠ .ExtractingOneCup := by
  have hg : Gaggia.run Settings.loadDefaults
      (Gaggia.new Gaggia.Hardware.allReady Settings.loadDefaults (fun _ => 0) true)
      [.extractOneCup 10] = Gaggia.sampleEarlyShot := rfl
  have hs : Gaggia.sampleEarlyShot._currentState = .ExtractingOneCup := by
    rw [Gaggia.sampleEarlyShot_eq]
  have hrun : Gaggia.sampleEarlyShot._run = true := by rw [Gaggia.sampleEarlyShot_eq]
  have ht : (if Gaggia.sampleEarlyShot._currentState = .ExtractingOneCup then (25 : ℚ) else 50)
      ≤ (Gaggia.copyCurrentStates (Gaggia.readingsAt 20 .Flowing 40)
          Gaggia.sampleEarlyShot).flowVolumeCorrected := by
    rw [Gaggia.copyCurrentStates_corrected _ _ (Or.inl hs)]
    simp [Gaggia.sampleEarlyShot_eq, Gaggia.readingsAt]
    norm_num
  have hp : (Gaggia.readingsAt 20 .Flowing 40).clock 6
      - (Gaggia.readingsAt 20 .Flowing 40).clock 5 < 5 := by
    simp [Gaggia.readingsAt]
  have h := (((C27_oldState_never_extraction Gaggia.Hardware.allReady Settings.loadDefaults
    (fun _ => 0) true [.extractOneCup 10] (Gaggia.readingsAt 20 .Flowing 40)).2.1
      (by rw [hg]; exact Or.inl hs) (by rw [hg]; exact ht)).2
      (by rw [hg]; exact hrun) hp).2.1
  exact ⟨⟨by rw [hg]; exact hs, by rw [hg]; exact hrun⟩, h⟩

/-- C28: on a ready controller with the settings loaded, in a state in which
`setSteamMode` is accepted, a second `setSteamMode(true)` is accepted in Steam and stores
Steam in `_oldState`; after `setSteamMode(true); setSteamMode(true); setSteamMode(false)`
the current state is Steam and the regulator has the steam gains and the steam target; after
`setSteamMode(true); setSteamMode(false)` the current state is the original one. -/
theorem C28_steam_mode_twice (cfg : Settings) (g : Gaggia) (hop : g.Operational)
    (hcfg : cfg.ready = true)
    (hacc : ¬ (g._currentState = .Deactivated ∨ g._currentState = .Extracting
      ∨ g._currentState = .ExtractingOneCup ∨ g._currentState = .ExtractingTwoCups)) :
    ((Gaggia.setSteamMode cfg (Gaggia.setSteamMode cfg g true) true)._currentState = .Steam
      ∧ (Gaggia.setSteamMode cfg (Gaggia.setSteamMode cfg g true) true)._oldState = .Steam)
    ∧ ((Gaggia.setSteamMode cfg
          (Gaggia.setSteamMode cfg (Gaggia.setSteamMode cfg g true) true)
          false)._currentState = .Steam
      ∧ (Gaggia.setSteamMode cfg
          (Gaggia.setSteamMode cfg (Gaggia.setSteamMode cfg g true) true)
          false)._regulator._pGain = cfg._pSteamGain
      ∧ (Gaggia.setSteamMode cfg
          (Gaggia.setSteamMode cfg (Gaggia.setSteamMode cfg g true) true)
          false)._regulator._iGain = cfg._iSteamGain
      ∧ (Gaggia.setSteamMode cfg
          (Gaggia.setSteamMode cfg (Gaggia.setSteamMode cfg g true) true)
          false)._regulator._dGain = cfg._dSteamGain
      ∧ (Gaggia.setSteamMode cfg
          (Gaggia.setSteamMode cfg (Gaggia.setSteamMode cfg g true) true)
          false)._regulator._targetTemperature = cfg._steamTargetTemperature)
    ∧ (Gaggia.setSteamMode cfg (Gaggia.setSteamMode cfg g true) false)._currentState
        = g._currentState := by
  have hsteam : ∀ h : Gaggia, h._currentState = .Steam →
      ¬ (h._currentState = .Deactivated ∨ h._currentState = .Extracting
        ∨ h._currentState = .ExtractingOneCup ∨ h._currentState = .ExtractingTwoCups) := by
    intro h hs
    rw [hs]
    decide
  have hc : cfg._opened = true := hcfg
  -- the first call
  have e1 := Gaggia.setSteamMode_true_eq cfg g hop.1 hacc
  have o1 : (Gaggia.setSteamMode cfg g true).Operational :=
    Gaggia.step_operational cfg g (.setSteamMode true) hop
  have s1 : (Gaggia.setSteamMode cfg g true)._currentState = .Steam := by rw [e1]; rfl
  have p1 : (Gaggia.setSteamMode cfg g true)._oldState = g._currentState := by rw [e1]; rfl
  generalize Gaggia.setSteamMode cfg g true = g1 at o1 s1 p1 ⊢
  -- the second call
  have e2 := Gaggia.setSteamMode_true_eq cfg g1 o1.1 (hsteam g1 s1)
  have o2 : (Gaggia.setSteamMode cfg g1 true).Operational :=
    Gaggia.step_operational cfg g1 (.setSteamMode true) o1
  have s2 : (Gaggia.setSteamMode cfg g1 true)._currentState = .Steam := by rw [e2]; rfl
  have p2 : (Gaggia.setSteamMode cfg g1 true)._oldState = .Steam := by
    rw [e2]
    exact s1
  -- the call that leaves the steam mode after one call
  have e4 := Gaggia.setSteamMode_false_eq cfg g1 o1.1 (hsteam g1 s1)
  have s4 : (Gaggia.setSteamMode cfg g1 false)._currentState = g._currentState := by
    rw [e4]
    exact p1
  refine ⟨⟨s2, p2⟩, ?_, s4⟩
  generalize Gaggia.setSteamMode cfg g1 true = g2 at o2 s2 p2 ⊢
  -- the call that leaves the steam mode after two calls
  have e3 := Gaggia.setSteamMode_false_eq cfg g2 o2.1 (hsteam g2 s2)
  rw [e3]
  have hs3 : ({ g2 with _currentState := g2._oldState } : Gaggia)._currentState = .Steam := p2
  exact ⟨hs3, Gaggia._setRegulatorSettings_steam cfg _ hc o2.2.2.2 hs3⟩

/-- C28 at the sample controller in the state Active. -/
theorem C28_steam_mode_twice_witness :
    (Gaggia.sampleIn .Active).Operational
      ∧ (Gaggia.setSteamMode Settings.loadDefaults
          (Gaggia.setSteamMode Settings.loadDefaults
            (Gaggia.setSteamMode Settings.loadDefaults (Gaggia.sampleIn .Active) true) true)
          false)._currentState = .Steam
      ∧ (Gaggia.setSteamMode Settings.loadDefaults
          (Gaggia.setSteamMode Settings.loadDefaults (Gaggia.sampleIn .Active) true)
          false)._currentState = (Gaggia.sampleIn .Active)._currentState :=
  ⟨by decide,
   (C28_steam_mode_twice Settings.loadDefaults (Gaggia.sampleIn .Active) (by decide)
     (by decide) (by decide)).2.1.1,
   (C28_steam_mode_twice Settings.loadDefaults (Gaggia.sampleIn .Active) (by decide)
     (by decide) (by decide)).2.2⟩

/-! ## The claims about the bounds of the decoder and the edges between the thresholds -/

/-- C29: after every train of edges (any levels, any ticks) delivered to the decoder from
its constructed state, the counter is at most 19 and the register is below 2 to the power
of the counter, hence below 2^19; the register with one more bit shifted in is below 2^20,
so the `int` does not overflow.  A further callback counts at most one edge, and it changes
the published sample only when it is a rising edge that finds 19 edges counted, after which
the counter is 0: a packet is decoded only by every twentieth counted edge. -/
theorem C29_counter_register_bounds (edges : List (ℤ × ℕ)) (level : ℤ) (tick : ℕ) :
    ((TSIC.initializers.run edges)._count ≤ 19
      ∧ (TSIC.initializers.run edges)._word < 2 ^ (TSIC.initializers.run edges)._count
      ∧ (TSIC.initializers.run edges)._word < 2 ^ 19
      ∧ ((TSIC.initializers.run edges)._word <<< 1 ||| 1) < 2 ^ 20)
    ∧ (((TSIC.initializers.run edges)._alertFunction level tick).getDegrees
          ≠ (TSIC.initializers.run edges).getDegrees →
        level = 1 ∧ (TSIC.initializers.run edges)._count = 19
          ∧ ((TSIC.initializers.run edges)._alertFunction level tick)._count = 0)
    ∧ ((TSIC.initializers.run edges)._alertFunction level tick)._count
        ≤ (TSIC.initializers.run edges)._count + 1 := by
  have hinv := TSIC.run_countInv edges _ TSIC.initializers_countInv
  obtain ⟨r1, r2, -, -⟩ := TSIC.countInv_room _ hinv
  obtain ⟨s1, s2⟩ := TSIC.alert_sample _ level tick hinv
  exact ⟨⟨hinv.1, hinv.2, r1, r2⟩, s1, s2⟩

set_option maxRecDepth 100000 in
/-- C29 at the sample packet sent to the constructed decoder: the edge that publishes the
first sample finds 19 edges counted. -/
theorem C29_counter_register_bounds_witness :
    ((TSIC.initializers.run ((0, 2000) :: TSIC.trainOf 2000 TSIC.sampleBits))._alertFunction 1
        4469).getDegrees
        ≠ (TSIC.initializers.run ((0, 2000) :: TSIC.trainOf 2000 TSIC.sampleBits)).getDegrees
      ∧ (TSIC.initializers.run ((0, 2000) :: TSIC.trainOf 2000 TSIC.sampleBits))._count = 19
      ∧ ((TSIC.initializers.run ((0, 2000) :: TSIC.trainOf 2000 TSIC.sampleBits))._alertFunction
          1 4469)._count = 0 := by
  have hv : ((TSIC.initializers.run
      ((0, 2000) :: TSIC.trainOf 2000 TSIC.sampleBits))._alertFunction 1 4469)._valid
        ≠ (TSIC.initializers.run ((0, 2000) :: TSIC.trainOf 2000 TSIC.sampleBits))._valid := by
    decide
  have hn : ((TSIC.initializers.run
      ((0, 2000) :: TSIC.trainOf 2000 TSIC.sampleBits))._alertFunction 1 4469).getDegrees
        ≠ (TSIC.initializers.run
            ((0, 2000) :: TSIC.trainOf 2000 TSIC.sampleBits)).getDegrees :=
    fun h => hv (congrArg Prod.snd h)
  exact ⟨hn,
    ((C29_counter_register_bounds ((0, 2000) :: TSIC.trainOf 2000 TSIC.sampleBits) 1
      4469).2.1 hn).2⟩

/-- C30: a rising edge after a low period from 125 us to 250 us shifts no bit into the
register and is counted: when it is not the twentieth edge, the register and the sample are
as before and the counter is one higher; when it is the twentieth, the packet in the
register is decoded and published, and counter and register are 0.  A rising edge after a
low period of exactly 62 us is counted with a 0 shifted into the register. -/
theorem C30_gap_and_boundary (s : TSIC) (tick : ℕ) :
    (125 ≤ sub32 tick s._lastLow → sub32 tick s._lastLow ≤ 250 →
      s._alertFunction 1 tick = TSIC.countEdge { s with _lastHigh := tick % 2 ^ 32 }
      ∧ ((s._count + 1) % 2 ^ 32 ≠ 20 →
          (s._alertFunction 1 tick)._word = s._word
          ∧ (s._alertFunction 1 tick)._count = (s._count + 1) % 2 ^ 32
          ∧ (s._alertFunction 1 tick).getDegrees = s.getDegrees)
      ∧ ((s._count + 1) % 2 ^ 32 = 20 →
          (s._alertFunction 1 tick)._word = 0 ∧ (s._alertFunction 1 tick)._count = 0
          ∧ (TSIC.decodeWord s._word ≠ TSIC.INVALID_TEMP →
              (s._alertFunction 1 tick).getDegrees
                = ((TSIC.decodeWord s._word : ℚ) / 1000, true))
          ∧ (TSIC.decodeWord s._word = TSIC.INVALID_TEMP →
              (s._alertFunction 1 tick).getDegrees = (s._temperature, false))))
    ∧ (sub32 tick s._lastLow = 62 →
        s._alertFunction 1 tick
          = TSIC.countEdge { s with _lastHigh := tick % 2 ^ 32,
                                    _word := (2 * s._word) % 2 ^ 32 }) := by
  constructor
  · intro h1 h2
    have hA := TSIC.alert_gap s tick h1 h2
    refine ⟨hA, fun hc => ?_, fun hc => ?_⟩
    · rw [hA, TSIC.countEdge_neg]
      · exact ⟨rfl, rfl, rfl⟩
      · exact hc
    · rw [hA, TSIC.countEdge_pos]
      · refine ⟨?_, ?_, fun h => ?_, fun h => ?_⟩
        · split_ifs <;> rfl
        · split_ifs <;> rfl
        · rw [if_pos h]
          show (_, _) = _
          rw [show ((TSIC.SCALE_FACTOR : ℤ) : ℚ) = 1000 by simp [TSIC.SCALE_FACTOR]]
        · rw [if_neg (fun hn => hn h)]
          rfl
      · exact hc
  · intro h
    have hw0 : s._word <<< 1 = 2 * s._word := by
      rw [Nat.shiftLeft_eq]
      omega
    rw [TSIC.alert_zero s tick (by omega) (by omega), hw0]

/-- C30 in the middle of a packet, the bus low since tick 1000: the rising edge at tick 1200
is counted and leaves the register at 5; the one at tick 1062 is counted with the register
shifted to 10. -/
theorem C30_gap_and_boundary_witness :
    (125 ≤ sub32 1200 TSIC.sampleMid._lastLow ∧ sub32 1200 TSIC.sampleMid._lastLow ≤ 250
      ∧ (TSIC.sampleMid._count + 1) % 2 ^ 32 ≠ 20 ∧ sub32 1062 TSIC.sampleMid._lastLow = 62)
      ∧ (TSIC.sampleMid._alertFunction 1 1200)._word = TSIC.sampleMid._word
      ∧ (TSIC.sampleMid._alertFunction 1 1200)._count = (TSIC.sampleMid._count + 1) % 2 ^ 32
      ∧ TSIC.sampleMid._alertFunction 1 1062
          = TSIC.countEdge { TSIC.sampleMid with _lastHigh := 1062 % 2 ^ 32,
                                                 _word := (2 * TSIC.sampleMid._word) % 2 ^ 32 } :=
  ⟨by decide,
   (((C30_gap_and_boundary TSIC.sampleMid 1200).1 (by decide) (by decide)).2.1
      (by decide)).1,
   (((C30_gap_and_boundary TSIC.sampleMid 1200).1 (by decide) (by decide)).2.1
      (by decide)).2.1,
   (C30_gap_and_boundary TSIC.sampleMid 1062).2 (by decide)⟩

end GaggiaPi
